import Mathlib

/-!
oura-cli: token refresh on 401 and the loopback authorization callback.

A shallow embedding of `internal/config`, `internal/oura` (client.go, oauth.go,
resources.go) and, of `internal/app`, the login of auth.go with its loopback callback,
`runList` of list.go and the helpers of common.go that they use.

Effects are made explicit.  Everything the program reaches outside its own code (the HTTP
transport, the JSON decoder of the standard library, the clock, the config store) is a
field of `World`; every effect the program performs is appended to a trace of `Event`s
carried by the client.
-/

namespace Oura

/-! ## net/url: query values and their encoding -/

/-- Go `url.Values` (`map[string][]string`), as an association list. -/
abbrev Values := List (String × List String)

/-- Go `Values.Get`: the first value of the key, or the empty string. -/
def Values.Get (v : Values) (key : String) : String :=
  match v.lookup key with
  | some (x :: _) => x
  | _ => ""

/-- Go `Values.Set`: the key now has exactly this one value. -/
def Values.Set (v : Values) (key value : String) : Values :=
  v.filter (fun kv => kv.1 ≠ key) ++ [(key, [value])]

/-- UTF-8 bytes of a character. -/
def utf8Bytes (c : Char) : List Nat :=
  let n := c.toNat
  if n < 0x80 then [n]
  else if n < 0x800 then [0xC0 + n / 64, 0x80 + n % 64]
  else if n < 0x10000 then [0xE0 + n / 4096, 0x80 + (n / 64) % 64, 0x80 + n % 64]
  else [0xF0 + n / 262144, 0x80 + (n / 4096) % 64, 0x80 + (n / 64) % 64, 0x80 + n % 64]

/-- Bytes of a Go string. -/
def strBytes (s : String) : List Nat := s.data.flatMap utf8Bytes

/-- Bytewise order of Go strings (`a <= b`). -/
def bytesLe : List Nat → List Nat → Bool
  | [], _ => true
  | _ :: _, [] => false
  | a :: as, b :: bs => decide (a < b) || (decide (a = b) && bytesLe as bs)

/-- Go `upperhex[n]` of net/url. -/
def upperhex (n : Nat) : Char :=
  if n < 10 then Char.ofNat (48 + n) else Char.ofNat (55 + n)

/-- Go `shouldEscape(c, encodeQueryComponent)`: everything but the unreserved bytes. -/
def shouldEscape (b : Nat) : Bool :=
  !((97 ≤ b && b ≤ 122) || (65 ≤ b && b ≤ 90) || (48 ≤ b && b ≤ 57)
    || b = 45 || b = 95 || b = 46 || b = 126)

/-- One byte of `escape(s, encodeQueryComponent)`. -/
def escapeByte (b : Nat) : List Char :=
  if shouldEscape b then
    if b = 32 then ['+'] else ['%', upperhex (b / 16), upperhex (b % 16)]
  else [Char.ofNat b]

/-- Go `url.QueryEscape`. -/
def QueryEscape (s : String) : String := ⟨(strBytes s).flatMap escapeByte⟩

/-- Insertion of a key with its values into a list sorted by key. -/
def insertByKey (kv : String × List String) : Values → Values
  | [] => [kv]
  | x :: xs =>
    if bytesLe (strBytes kv.1) (strBytes x.1) then kv :: x :: xs
    else x :: insertByKey kv xs

/-- The entries in the order of `slices.Sort(keys)`. -/
def sortByKey (v : Values) : Values := v.foldr insertByKey []

/-- Go `Values.Encode`: `key=value` pairs joined by `&`, sorted by key, both sides escaped. -/
def Values.Encode (v : Values) : String :=
  "&".intercalate
    ((sortByKey v).flatMap fun kv => kv.2.map fun x => QueryEscape kv.1 ++ "=" ++ QueryEscape x)

/-! ## internal/config -/

/-- Go `config.Token`. -/
structure Token where
  AccessToken : String
  RefreshToken : String
  ExpiresAt : String
  TokenType : String
  deriving DecidableEq, Repr

/-- Go `config.Config`; `Token` is a pointer in the source, `none` is nil. -/
structure Config where
  ClientID : String
  ClientSecret : String
  RedirectURI : String
  Scopes : List String
  Token : Option Token
  deriving DecidableEq, Repr

/-- Go `config.EnvOverrides`. -/
structure EnvOverrides where
  AccessToken : Bool
  RefreshToken : Bool
  ClientID : Bool
  ClientSecret : Bool
  RedirectURI : Bool
  Scopes : Bool
  deriving DecidableEq, Repr

/-- No field comes from the environment. -/
def noOverrides : EnvOverrides :=
  { AccessToken := false, RefreshToken := false, ClientID := false, ClientSecret := false,
    RedirectURI := false, Scopes := false }

/-! ## internal/oura: the outside world -/

/-- Go `oura.TokenResponse`. `ExpiresIn` is a Go `int`. -/
structure TokenResponse where
  AccessToken : String
  RefreshToken : String
  ExpiresIn : Int
  TokenType : String
  Scope : String
  deriving DecidableEq, Repr

/-- Go `oura.Response`. -/
structure Response where
  Status : Int
  Body : String
  deriving DecidableEq, Repr

/-- What `httpClient.Do` followed by `io.ReadAll(resp.Body)` gives. -/
inductive HttpResult where
  /-- Go `Do` returned an error -/
  | transportError (err : String)
  /-- a response arrived but reading its body failed -/
  | readError (status : Int) (err : String)
  /-- status and body of the response -/
  | response (status : Int) (body : String)
  deriving DecidableEq, Repr

/-- A request to the resource API. -/
structure ApiRequest where
  method : String
  url : String
  authorization : String
  deriving DecidableEq, Repr

/-- A POST to the token endpoint. -/
structure TokenPost where
  url : String
  contentType : String
  body : String
  deriving DecidableEq, Repr

/-- The effects of the client, in program order. -/
inductive Event where
  /-- Go `printer.Debugf` -/
  | debugf (msg : String)
  /-- Go `httpClient.Do` on a resource request -/
  | apiCall (req : ApiRequest)
  /-- Go `client.Do` on a token request -/
  | tokenCall (req : TokenPost)
  /-- Go `config.Save(path, cfg)` -/
  | save (path : String) (cfg : Config)
  /-- Go `printer.Errorf` -/
  | errorf (msg : String)
  /-- Go `printer.Infof` -/
  | infof (msg : String)
  /-- Go `printer.Write` -/
  | write (text : String)
  /-- Go `printer.WriteErr` -/
  | writeErr (text : String)
  /-- Go `printer.PrintJSON` -/
  | printJSON (body : String)
  /-- Go `config.Load(path)` -/
  | loadConfig (path : String)
  /-- Go `os.ReadFile(path)` -/
  | readFile (path : String)
  /-- a line or a password is read from the terminal -/
  | readInput
  /-- the goroutine running `waitForAuthCode(ctx, redirectURI, state)` is started -/
  | waitStarted (redirectURI state : String)
  /-- Go `exec.Command(name, arg).Start()` -/
  | startCmd (name arg : String)
  deriving DecidableEq, Repr

/-- Is the event a resource request? -/
def Event.isApiCall : Event → Bool
  | .apiCall _ => true
  | _ => false

/-- Is the event a request to the token endpoint? -/
def Event.isTokenCall : Event → Bool
  | .tokenCall _ => true
  | _ => false

/-- Is the event a `config.Save`? -/
def Event.isSave : Event → Bool
  | .save _ _ => true
  | _ => false

/-- Number of resource requests in a trace. -/
def apiCalls (tr : List Event) : Nat := tr.countP Event.isApiCall

/-- Number of token-endpoint requests in a trace. -/
def tokenCalls (tr : List Event) : Nat := tr.countP Event.isTokenCall

/-- Number of `config.Save` calls in a trace. -/
def saveCalls (tr : List Event) : Nat := tr.countP Event.isSave

/-- Everything outside the program. The servers answer their n-th request as a function
of n and of the request, which covers every behaviour a sequential client can observe. -/
structure World where
  /-- Go `http.NewRequestWithContext(ctx, method, url, _)`: its error, if any -/
  newRequest : String → String → Option String
  /-- the resource API: answer to the n-th resource request -/
  apiDo : Nat → ApiRequest → HttpResult
  /-- the token endpoint: answer to the n-th token request -/
  tokenDo : Nat → TokenPost → HttpResult
  /-- Go `json.Unmarshal(body, &token)` on a zero `TokenResponse` -/
  jsonUnmarshal : String → Except String TokenResponse
  /-- Go `time.Now()` in Unix nanoseconds, read after n effects -/
  now : Nat → Int
  /-- Go `Time.Format(time.RFC3339)` of an instant given in Unix nanoseconds, in UTC -/
  formatRFC3339 : Int → String
  /-- Go `config.Save`: the error, if any, of the n-th save -/
  configSave : Nat → String → Config → Option String

/-! ## internal/oura/oauth.go -/

/-- The token endpoint. -/
def tokenURL : String := "https://api.ouraring.com/oauth/token"

/-- Go `unicode.IsSpace`. -/
def isSpace (c : Char) : Bool :=
  let n := c.toNat
  (9 ≤ n && n ≤ 13) || n = 0x20 || n = 0x85 || n = 0xA0 || n = 0x1680
    || (0x2000 ≤ n && n ≤ 0x200A) || n = 0x2028 || n = 0x2029 || n = 0x202F
    || n = 0x205F || n = 0x3000

/-- Go `strings.TrimSpace`. -/
def TrimSpace (s : String) : String :=
  ⟨((s.data.dropWhile isSpace).reverse.dropWhile isSpace).reverse⟩

/-- The POST that `postToken` sends for a form. -/
def tokenPost (values : Values) : TokenPost :=
  { url := tokenURL, contentType := "application/x-www-form-urlencoded",
    body := values.Encode }

/-- Go `postToken`: POST the form to the token endpoint and decode the answer.
Returns the extended trace and the `(TokenResponse, error)` pair as an `Except`. -/
def postToken (w : World) (tr : List Event) (values : Values) :
    List Event × Except String TokenResponse :=
  match w.newRequest "POST" tokenURL with
  | some err => (tr, .error err)
  | none =>
    let req := tokenPost values
    let tr1 := tr ++ [Event.tokenCall req]
    match w.tokenDo (tokenCalls tr) req with
    | .transportError err => (tr1, .error err)
    | .readError _ err => (tr1, .error err)
    | .response status body =>
      if status ≥ 400 then
        (tr1, .error ("token exchange failed: " ++ TrimSpace body))
      else
        match w.jsonUnmarshal body with
        | .error err => (tr1, .error err)
        | .ok token => (tr1, .ok token)

/-- The form of `RefreshToken`. -/
def refreshValues (clientID clientSecret refreshToken : String) : Values :=
  Values.Set (Values.Set (Values.Set (Values.Set [] "grant_type" "refresh_token")
    "refresh_token" refreshToken) "client_id" clientID) "client_secret" clientSecret

/-- Go `oura.RefreshToken`. -/
def RefreshToken (w : World) (tr : List Event) (clientID clientSecret refreshToken : String) :
    List Event × Except String TokenResponse :=
  postToken w tr (refreshValues clientID clientSecret refreshToken)

/-! ## internal/oura/client.go -/

/-- The base of the resource API. -/
def apiBaseURL : String := "https://api.ouraring.com"

/-- Go `oura.Client`: the config it points to, the config path and the override flags.
`trace` stands for what went through `httpClient`, `printer` and the config store. -/
structure Client where
  cfg : Config
  cfgPath : String
  envOverrides : EnvOverrides
  trace : List Event
  deriving DecidableEq, Repr

/-- Go `int64` wrap-around of a mathematical integer. -/
def wrapInt64 (x : Int) : Int := (x + 2 ^ 63) % 2 ^ 64 - 2 ^ 63

/-- The instant `now.Add(time.Duration(expiresIn) * time.Second)` in Unix nanoseconds:
the product is an `int64` number of nanoseconds. -/
def expiryInstant (now expiresIn : Int) : Int :=
  now + wrapInt64 (expiresIn * 1000000000)

/-- Go `Client.persistAllowed`. -/
def Client.persistAllowed (c : Client) : Bool :=
  if c.envOverrides.AccessToken || c.envOverrides.RefreshToken then false else true

/-- The token after the assignments of `tryRefresh` (client.go lines 96-106),
`expiresAt` being the formatted expiry computed when `ExpiresIn > 0`. -/
def refreshedToken (tok : Token) (r : TokenResponse) (expiresAt : String) : Token :=
  let t1 := { tok with AccessToken := r.AccessToken }
  let t2 := if r.RefreshToken ≠ "" then { t1 with RefreshToken := r.RefreshToken } else t1
  let t3 := if r.ExpiresIn > 0 then { t2 with ExpiresAt := expiresAt } else t2
  if r.TokenType ≠ "" then { t3 with TokenType := r.TokenType } else t3

/-- The client after the given effects have been performed. -/
def Client.record (c : Client) (evs : List Event) : Client :=
  { c with trace := c.trace ++ evs }

/-- Go `Client.tryRefresh`: the client afterwards and the `(bool, error)` pair. -/
def Client.tryRefresh (w : World) (c : Client) : Client × Bool × Option String :=
  match c.cfg.Token with
  | none => (c, false, none)
  | some tok =>
    if tok.RefreshToken = "" then (c, false, none)
    else if c.cfg.ClientID = "" ∨ c.cfg.ClientSecret = "" then
      (c, false, some "missing client credentials for token refresh")
    else
      match RefreshToken w c.trace c.cfg.ClientID c.cfg.ClientSecret tok.RefreshToken with
      | (tr, .error err) => ({ c with trace := tr }, false, some err)
      | (tr, .ok tokenResp) =>
        let expiresAt := w.formatRFC3339 (expiryInstant (w.now tr.length) tokenResp.ExpiresIn)
        let c1 : Client :=
          { c with cfg := { c.cfg with Token := some (refreshedToken tok tokenResp expiresAt) },
                   trace := tr }
        if c1.persistAllowed then
          match w.configSave (saveCalls c1.trace) c1.cfgPath c1.cfg with
          | some err =>
            ((c1.record [Event.save c1.cfgPath c1.cfg]).record
                [Event.debugf ("token refresh save failed: " ++ err)], true, none)
          | none => (c1.record [Event.save c1.cfgPath c1.cfg], true, none)
        else (c1, true, none)

/-- The URL `apiBaseURL + path [+ "?" + query.Encode()]` of `Client.do`. -/
def requestURL (path : String) (query : Values) : String :=
  if query.length > 0 then apiBaseURL ++ path ++ "?" ++ query.Encode else apiBaseURL ++ path

/-- The request `Client.do` builds for an access token. -/
def apiRequest (method path : String) (query : Values) (accessToken : String) : ApiRequest :=
  { method := method, url := requestURL path query, authorization := "Bearer " ++ accessToken }

/-- Go `Client.do`, the recursion of the source bounded by `fuel` nested calls:
`none` when the fuel does not suffice, else the client afterwards and `(Response, error)`. -/
def Client.doFuel (w : World) (method path : String) (query : Values) :
    Nat → Client → Option (Client × Except String Response)
  | 0, _ => none
  | fuel + 1, c =>
    match c.cfg.Token with
    | none => some (c, .error "missing access token")
    | some tok =>
      if tok.AccessToken = "" then some (c, .error "missing access token")
      else
        match w.newRequest method (requestURL path query) with
        | some err => some (c, .error err)
        | none =>
          let req := apiRequest method path query tok.AccessToken
          let c1 := c.record [Event.debugf (method ++ " " ++ req.url), Event.apiCall req]
          match w.apiDo (apiCalls c.trace) req with
          | .transportError err => some (c1, .error err)
          | .readError _ err => some (c1, .error err)
          | .response status body =>
            if status = 401 then
              match Client.tryRefresh w c1 with
              | (c2, true, none) => Client.doFuel w method path query fuel c2
              | (c2, _, _) => some (c2, .ok { Status := status, Body := body })
            else some (c1, .ok { Status := status, Body := body })

/-- Go `Client.Get` with the given bound on nested calls of `do`. -/
def Client.Get (w : World) (fuel : Nat) (c : Client) (path : String) (query : Values) :
    Option (Client × Except String Response) :=
  Client.doFuel w "GET" path query fuel c

/-! ## internal/app/auth.go: the loopback callback -/

/-- What the handler writes to the browser. -/
structure CallbackResponse where
  status : Nat
  contentType : String
  body : String
  deriving DecidableEq, Repr

/-- Go `http.Error(w, msg, code)`. -/
def httpError (msg : String) (code : Nat) : CallbackResponse :=
  { status := code, contentType := "text/plain; charset=utf-8", body := msg ++ "\n" }

/-- The two result channels of `waitForAuthCode`, each buffered by one:
`none` is an empty buffer. -/
structure AuthChans where
  codeCh : Option String
  errCh : Option String
  deriving DecidableEq, Repr

/-- The channels as `make` leaves them. -/
def AuthChans.fresh : AuthChans := { codeCh := none, errCh := none }

/-- Go `select { case ch <- v: default: }` on a channel buffered by one. -/
def trySend (ch : Option String) (v : String) : Option String :=
  match ch with
  | none => some v
  | some x => some x

/-- The decision of the callback handler for the parsed query `q := r.URL.Query()`:
the response, and the value it then offers: `.error e` to `errCh`, `.ok code` to `codeCh`. -/
def callbackDecision (state : String) (q : Values) : CallbackResponse × Except String String :=
  let errParam := q.Get "error"
  if errParam ≠ "" then
    (httpError "authorization failed" 400, .error ("authorization error: " ++ errParam))
  else if state ≠ "" ∧ q.Get "state" ≠ state then
    (httpError "state mismatch" 400, .error "state mismatch")
  else
    let code := q.Get "code"
    if code = "" then
      (httpError "missing code" 400, .error "missing code")
    else
      ({ status := 200, contentType := "text/plain",
         body := "Authorization complete. You can close this window.\n" }, .ok code)

/-- The handler registered by `waitForAuthCode`: the decision, then the non-blocking send. -/
def callbackHandler (state : String) (chans : AuthChans) (q : Values) :
    AuthChans × CallbackResponse :=
  match callbackDecision state q with
  | (resp, .error err) => ({ chans with errCh := trySend chans.errCh err }, resp)
  | (resp, .ok code) => ({ chans with codeCh := trySend chans.codeCh code }, resp)

/-- The final `select` of `waitForAuthCode`: every `(code, error)` it can return, one for
each ready case (`ctxErr` is `ctx.Err()` once the context is done). An empty list: it blocks. -/
def selectResult (chans : AuthChans) (ctxErr : Option String) : List (Except String String) :=
  (match chans.codeCh with
    | some code => [.ok code]
    | none => []) ++
  (match chans.errCh with
    | some err => [.error err]
    | none => []) ++
  (match ctxErr with
    | some err => [.error err]
    | none => [])

/-- The parts of a parsed redirect URI that `waitForAuthCode` reads. -/
structure RedirectURL where
  Scheme : String
  Host : String
  Path : String
  deriving DecidableEq, Repr

/-- The pattern under which `waitForAuthCode` registers the handler: `u.Path`, or `/`. -/
def callbackPath (u : RedirectURL) : String :=
  if u.Path = "" then "/" else u.Path

/-- What happens at the listener while `waitForAuthCode` waits. -/
inductive ServerEvent where
  /-- a request arrives, with its URL path and its parsed query -/
  | request (path : String) (q : Values)
  /-- the goroutine running `srv.Serve(ln)` gets an error other than `ErrServerClosed` -/
  | serveFailed (err : String)
  deriving DecidableEq, Repr

/-- The library and the operating system under `waitForAuthCode`. -/
structure Listener where
  /-- Go `url.Parse` -/
  parse : String → Except String RedirectURL
  /-- the error of `net.Listen("tcp", host)`, if any -/
  listen : String → Option String
  /-- does the `ServeMux` hand a request with this path (second argument) to the handler
  registered under the pattern (first argument)? -/
  routes : String → String → Bool

/-- The channels after the server has gone through the events: a routed request runs the
handler, a failure of `Serve` is offered to `errCh` and ends the serving. -/
def serve (routes : String → String → Bool) (pattern state : String) :
    AuthChans → List ServerEvent → AuthChans
  | chans, [] => chans
  | chans, .request path q :: rest =>
    if routes pattern path then
      serve routes pattern state (callbackHandler state chans q).1 rest
    else serve routes pattern state chans rest
  | chans, .serveFailed err :: _ => { chans with errCh := trySend chans.errCh err }

/-- Go `waitForAuthCode`: `events` is what the server goes through before the final
`select` runs, `ctxErr` is `ctx.Err()` if the context is done by then. The result lists
every `(code, error)` the function can return. -/
def waitForAuthCode (l : Listener) (ctxErr : Option String) (redirectURI state : String)
    (events : List ServerEvent) : List (Except String String) :=
  match l.parse redirectURI with
  | .error err => [.error err]
  | .ok u =>
    match l.listen u.Host with
    | some err => [.error err]
    | none => selectResult (serve l.routes (callbackPath u) state AuthChans.fresh events) ctxErr

/-! ## internal/app/common.go: exit codes -/

/-- Go `exitCodeForStatus`. -/
def exitCodeForStatus (status : Int) : Int :=
  if status = 400 then 2
  else if status = 401 then 3
  else if status = 429 then 5
  else if status ≥ 400 then 1
  else 0

/-! ## internal/config: environment overrides -/

/-- Go `strings.FieldsFunc` on the characters of a string; `cur` holds the field being
read, last character first. -/
def fieldsFuncAux (sep : Char → Bool) : List Char → List Char → List String
  | [], cur => if cur.isEmpty then [] else [⟨cur.reverse⟩]
  | c :: cs, cur =>
    if sep c then
      if cur.isEmpty then fieldsFuncAux sep cs []
      else ⟨cur.reverse⟩ :: fieldsFuncAux sep cs []
    else fieldsFuncAux sep cs (c :: cur)

/-- Go `strings.FieldsFunc`. -/
def FieldsFunc (s : String) (sep : Char → Bool) : List String :=
  fieldsFuncAux sep s.data []

/-- The loop of `splitScopes`: `out` holds the fields kept so far, which are the fields
marked in `seen`. -/
def splitScopesLoop : List String → List String → List String
  | [], out => out
  | f :: fields, out =>
    let f' := TrimSpace f
    if f' = "" then splitScopesLoop fields out
    else if f' ∈ out then splitScopesLoop fields out
    else splitScopesLoop fields (out ++ [f'])

/-- Go `splitScopes` of config.go. -/
def splitScopes (s : String) : List String :=
  splitScopesLoop
    (FieldsFunc s fun r => r == ',' || r == ' ' || r == '\n' || r == '\t') []

/-- The token `cfg.Token` points to after `if cfg.Token == nil { cfg.Token = &Token{} }`. -/
def tokenOrEmpty (t : Option Token) : Token :=
  match t with
  | some tok => tok
  | none => { AccessToken := "", RefreshToken := "", ExpiresAt := "", TokenType := "" }

/-- Go `config.ApplyEnv`; `getenv` is `os.Getenv`. Returns the config as the call leaves
it and the override flags. -/
def ApplyEnv (getenv : String → String) (cfg : Config) : Config × EnvOverrides :=
  let over : EnvOverrides := noOverrides
  let v1 := getenv "OURA_CLIENT_ID"
  let (cfg, over) :=
    if v1 ≠ "" then ({ cfg with ClientID := v1 }, { over with ClientID := true })
    else (cfg, over)
  let v2 := getenv "OURA_CLIENT_SECRET"
  let (cfg, over) :=
    if v2 ≠ "" then ({ cfg with ClientSecret := v2 }, { over with ClientSecret := true })
    else (cfg, over)
  let v3 := getenv "OURA_REDIRECT_URI"
  let (cfg, over) :=
    if v3 ≠ "" then ({ cfg with RedirectURI := v3 }, { over with RedirectURI := true })
    else (cfg, over)
  let v4 := getenv "OURA_SCOPES"
  let (cfg, over) :=
    if v4 ≠ "" then ({ cfg with Scopes := splitScopes v4 }, { over with Scopes := true })
    else (cfg, over)
  let v5 := getenv "OURA_ACCESS_TOKEN"
  let (cfg, over) :=
    if v5 ≠ "" then
      ({ cfg with Token := some { tokenOrEmpty cfg.Token with AccessToken := v5 } },
        { over with AccessToken := true })
    else (cfg, over)
  let v6 := getenv "OURA_REFRESH_TOKEN"
  if v6 ≠ "" then
    ({ cfg with Token := some { tokenOrEmpty cfg.Token with RefreshToken := v6 } },
      { over with RefreshToken := true })
  else (cfg, over)

/-! ## net/url: decoding a query -/

/-- Go `unhex` of net/url, `none` where `ishex` is false. -/
def unhex (c : Char) : Option Nat :=
  let n := c.toNat
  if 48 ≤ n ∧ n ≤ 57 then some (n - 48)
  else if 97 ≤ n ∧ n ≤ 102 then some (n - 97 + 10)
  else if 65 ≤ n ∧ n ≤ 70 then some (n - 65 + 10)
  else none

/-- Go `url.QueryUnescape`, giving the bytes of the result: `%XX` is the byte `XX`, `+` is
a space, `none` when a `%` is not followed by two hexadecimal digits. -/
def unescapeChars : List Char → Option (List Nat)
  | [] => some []
  | c :: rest =>
    if c = '%' then
      match rest with
      | a :: b :: rest' =>
        match unhex a, unhex b with
        | some x, some y => (unescapeChars rest').map fun bs => (16 * x + y) :: bs
        | _, _ => none
      | _ => none
    else if c = '+' then (unescapeChars rest).map fun bs => 32 :: bs
    else (unescapeChars rest).map fun bs => utf8Bytes c ++ bs

/-- The pieces of a string between the occurrences of a separator. -/
def splitOnChar (sep : Char) : List Char → List (List Char)
  | [] => [[]]
  | c :: cs =>
    if c = sep then [] :: splitOnChar sep cs
    else
      match splitOnChar sep cs with
      | [] => [[c]]
      | seg :: segs => (c :: seg) :: segs

/-- Go `strings.Cut(s, sep)` for a one-character separator: the text before the first
separator and the text after it (all of `s` and nothing when there is none). -/
def cutAt (sep : Char) : List Char → List Char × List Char
  | [] => ([], [])
  | c :: cs =>
    if c = sep then ([], cs)
    else ((c :: (cutAt sep cs).1), (cutAt sep cs).2)

/-- One turn of the loop of `parseQuery`: a piece with a semicolon, an empty piece or a
piece that does not unescape adds nothing. -/
def parsePair (seg : List Char) : Option (List Nat × List Nat) :=
  if ';' ∈ seg then none
  else if seg = [] then none
  else
    match unescapeChars (cutAt '=' seg).1, unescapeChars (cutAt '=' seg).2 with
    | some k, some v => some (k, v)
    | _, _ => none

/-- Go `url.ParseQuery` as `URL.Query()` uses it (errors dropped): the keys with their
values, as bytes, in the order of the query. -/
def ParseQuery (query : String) : List (List Nat × List Nat) :=
  (splitOnChar '&' query.data).filterMap parsePair

/-! ## internal/oura/oauth.go: the authorization URL -/

/-- The authorization endpoint. -/
def authorizeURL : String := "https://cloud.ouraring.com/oauth/authorize"

/-- Go `strings.Join`. -/
def Join (elems : List String) (sep : String) : String := sep.intercalate elems

/-- The query of `BuildAuthURL`. -/
def authQuery (clientID redirectURI state : String) (scopes : List String) : Values :=
  let q : Values := Values.Set [] "response_type" "code"
  let q := Values.Set q "client_id" clientID
  let q := Values.Set q "redirect_uri" redirectURI
  let q := if state ≠ "" then Values.Set q "state" state else q
  if scopes.length > 0 then Values.Set q "scope" (Join scopes " ") else q

/-- Go `oura.BuildAuthURL`. -/
def BuildAuthURL (clientID redirectURI state : String) (scopes : List String) :
    Except String String :=
  if clientID = "" then .error "client_id required"
  else if redirectURI = "" then .error "redirect_uri required"
  else .ok (authorizeURL ++ "?" ++ (authQuery clientID redirectURI state scopes).Encode)

/-! ## internal/app: what the commands stand on -/

/-- The fields of `GlobalOptions` that the commands modelled here read. -/
structure GlobalOptions where
  ConfigPath : String
  NoInput : Bool
  deriving DecidableEq, Repr

/-- Go `loadedConfig`. -/
structure LoadedConfig where
  Path : String
  Cfg : Config
  Env : EnvOverrides
  deriving DecidableEq, Repr

/-- A Go `time.Time` as far as the commands look at it: the instant and the zone offset
that `Format` renders it in. -/
structure GoTime where
  unixNano : Int
  offset : Int
  deriving DecidableEq, Repr

/-- The operating system and the libraries under the `app` package. -/
structure Sys where
  /-- the HTTP transport, the JSON decoder of token responses, the clock, `config.Save` -/
  world : World
  /-- Go `url.Parse`, `net.Listen` and the mux of the loopback server -/
  listener : Listener
  /-- the result of `config.DefaultPath()` -/
  defaultPath : Except String String
  /-- the config and the error of `config.Load(path)`; a missing file is the zero config -/
  loadFile : String → Except String Config
  /-- Go `os.Getenv` -/
  getenv : String → String
  /-- Go `os.ReadFile`, the content as a string -/
  readFile : String → Except String String
  /-- Go `termutil.IsTTY(os.Stdin)` -/
  stdinTTY : Bool
  /-- the n-th read from the terminal when it is `reader.ReadString` of a line -/
  readLine : Nat → Except String String
  /-- the n-th read from the terminal when it is `termutil.ReadPassword` -/
  readPassword : Nat → Except String String
  /-- the result of `randomState(24)` -/
  randomState : Except String String
  /-- Go `runtime.GOOS` -/
  goos : String
  /-- the error of `exec.Command(name, arg).Start()`, if any -/
  startCmd : String → String → Option String
  /-- what reaches the loopback listener before the `select` of `waitForAuthCode` runs -/
  serverEvents : List ServerEvent
  /-- Go `ctx.Err()` if the five-minute context of the login is done at the selects -/
  ctxErr : Option String
  /-- Go `strings.ToLower` -/
  toLower : String → String
  /-- the error of `printer.PrintJSON(body)`, if any -/
  printJSON : String → Option String
  /-- Go `json.Unmarshal` into a map: the string fields of the object, if the body is one -/
  jsonObject : String → Option (String → Option String)
  /-- Go `time.Parse("2006-01-02", value)` -/
  parseDate : String → Except String GoTime
  /-- Go `time.Parse(time.RFC3339, value)` -/
  parseDateTime : String → Except String GoTime
  /-- Go `t.Format("2006-01-02")` -/
  formatDate : GoTime → String
  /-- Go `t.Format(time.RFC3339)` -/
  formatDateTime : GoTime → String

/-- Is the event a read from the terminal? -/
def Event.isReadInput : Event → Bool
  | .readInput => true
  | _ => false

/-- Number of reads from the terminal in a trace. -/
def inputsRead (tr : List Event) : Nat := tr.countP Event.isReadInput

/-- Go `loadConfig`. -/
def loadConfig (sys : Sys) (opts : GlobalOptions) (tr : List Event) :
    List Event × Except String LoadedConfig :=
  let path : Except String String :=
    if opts.ConfigPath = "" then sys.defaultPath else .ok opts.ConfigPath
  match path with
  | .error err => (tr, .error err)
  | .ok path =>
    let tr1 := tr ++ [Event.loadConfig path]
    match sys.loadFile path with
    | .error err => (tr1, .error err)
    | .ok cfg =>
      (tr1, .ok { Path := path, Cfg := (ApplyEnv sys.getenv cfg).1,
                  Env := (ApplyEnv sys.getenv cfg).2 })

/-- Go `loadClient`: the client, or the exit code and the error. -/
def loadClient (sys : Sys) (opts : GlobalOptions) (tr : List Event) :
    List Event × Except (Int × String) Client :=
  match loadConfig sys opts tr with
  | (tr1, .error err) => (tr1, .error (1, err))
  | (tr1, .ok loaded) =>
    match loaded.Cfg.Token with
    | none => (tr1, .error (3, "not authenticated"))
    | some tok =>
      if tok.AccessToken = "" then (tr1, .error (3, "not authenticated"))
      else
        (tr1, .ok { cfg := loaded.Cfg, cfgPath := loaded.Path, envOverrides := loaded.Env,
                    trace := tr1 })

/-- Go `promptString`. -/
def promptString (sys : Sys) (tr : List Event) (prompt : String) (noInput : Bool) :
    List Event × Except String String :=
  if noInput then (tr, .error "input disabled")
  else if !sys.stdinTTY then (tr, .error "stdin is not a tty")
  else
    let tr1 := tr ++ [Event.writeErr prompt, Event.readInput]
    match sys.readLine (inputsRead tr) with
    | .error err => (tr1, .error err)
    | .ok line => (tr1, .ok (TrimSpace line))

/-- Go `promptSecret`. -/
def promptSecret (sys : Sys) (tr : List Event) (noInput : Bool) :
    List Event × Except String String :=
  if noInput then (tr, .error "input disabled")
  else if !sys.stdinTTY then (tr, .error "stdin is not a tty")
  else (tr ++ [Event.readInput], sys.readPassword (inputsRead tr))

/-- Go `readSecretFile`. -/
def readSecretFile (sys : Sys) (tr : List Event) (path : String) :
    List Event × Except String String :=
  match sys.readFile path with
  | .error err => (tr ++ [Event.readFile path], .error err)
  | .ok content => (tr ++ [Event.readFile path], .ok (TrimSpace content))

/-- Go `parseScopes` of common.go. -/
def parseScopes (s : String) : List String :=
  splitScopesLoop
    (FieldsFunc s fun r => r == ',' || r == ' ' || r == '\n' || r == '\t') []

/-! ## internal/app/auth.go: login -/

/-- The default of the redirect URI. -/
def defaultRedirectURI : String := "http://127.0.0.1:8797/callback"

/-- Go `authLoginUsage`. -/
def authLoginUsage : String :=
  "Usage:\n  oura auth login [flags]\n\nFlags:\n" ++
  "  --client-id <id>           OAuth client id (env: OURA_CLIENT_ID)\n" ++
  "  --client-secret-file <path> OAuth client secret file (env: OURA_CLIENT_SECRET)\n" ++
  "  --redirect-uri <uri>       OAuth redirect URI (env: OURA_REDIRECT_URI)\n" ++
  "  --scopes <list>            Scopes (space/comma-separated; default: daily)\n" ++
  "  --no-open                  Do not open a browser\n" ++
  "  --paste                    Print URL and prompt for the code\n" ++
  "\nNotes:\n  Redirect URI must match your Oura app settings.\n"

/-- The text before and the text after the last occurrence of a separator. -/
def splitLast (sep : Char) : List Char → Option (List Char × List Char)
  | [] => none
  | c :: cs =>
    match splitLast sep cs with
    | some (a, b) => some (c :: a, b)
    | none => if c = sep then some ([], cs) else none

/-- The end of `splitHostPort`: a host between `[` and `]` loses the brackets. -/
def stripBrackets (host : List Char) : List Char :=
  match host with
  | '[' :: rest => if rest.getLast? = some ']' then rest.dropLast else host
  | _ => host

/-- Go `splitHostPort` of net/url: the host without port and brackets, and the port. A
colon counts only if nothing but digits follows it (`validOptionalPort`). -/
def splitHostPort (hostPort : String) : String × String :=
  match splitLast ':' hostPort.data with
  | some (host, port) =>
    if port.all (fun b => decide ('0' ≤ b) && decide (b ≤ '9')) then
      (⟨stripBrackets host⟩, ⟨port⟩)
    else (⟨stripBrackets hostPort.data⟩, "")
  | none => (⟨stripBrackets hostPort.data⟩, "")

/-- Go `URL.Hostname`. -/
def RedirectURL.Hostname (u : RedirectURL) : String := (splitHostPort u.Host).1

/-- Go `URL.Port`. -/
def RedirectURL.Port (u : RedirectURL) : String := (splitHostPort u.Host).2

/-- Go `validateLoopbackRedirect`: the error, if any; `parse` is `url.Parse`. -/
def validateLoopbackRedirect (parse : String → Except String RedirectURL)
    (redirectURI : String) : Option String :=
  match parse redirectURI with
  | .error err => some err
  | .ok u =>
    if u.Scheme ≠ "http" then some "redirect uri must be http"
    else if u.Hostname ≠ "127.0.0.1" ∧ u.Hostname ≠ "localhost" then
      some "redirect uri must use localhost or 127.0.0.1"
    else if u.Port = "" then some "redirect uri must include port"
    else none

/-- Go `openBrowser`. -/
def openBrowser (sys : Sys) (tr : List Event) (url : String) : List Event :=
  if sys.goos = "darwin" then
    match sys.startCmd "open" url with
    | some _ => tr ++ [Event.startCmd "open" url, Event.infof ("Open this URL:\n" ++ url)]
    | none => tr ++ [Event.startCmd "open" url]
  else if sys.goos = "linux" then
    match sys.startCmd "xdg-open" url with
    | some _ => tr ++ [Event.startCmd "xdg-open" url, Event.infof ("Open this URL:\n" ++ url)]
    | none => tr ++ [Event.startCmd "xdg-open" url]
  else tr ++ [Event.infof ("Open this URL:\n" ++ url)]

/-- The flags of `auth login` as `fs.Parse(args)` leaves them, with its error if any. -/
structure LoginFlags where
  parseErr : Option String
  clientID : String
  clientSecretFile : String
  redirectURI : String
  scopes : String
  noOpen : Bool
  paste : Bool
  help : Bool
  deriving DecidableEq, Repr

/-- The state of `runAuthLogin` once the authorization URL is built (auth.go line 154). -/
structure LoginSetup where
  path : String
  cfg : Config
  state : String
  authURL : String
  trace : List Event
  deriving DecidableEq, Repr

/-- The config after the flags have been applied (auth.go lines 90-98). -/
def loginFlagsConfig (flags : LoginFlags) (cfg : Config) : Config :=
  let cfg := if flags.clientID ≠ "" then { cfg with ClientID := flags.clientID } else cfg
  let cfg :=
    if flags.redirectURI ≠ "" then { cfg with RedirectURI := flags.redirectURI } else cfg
  if flags.scopes ≠ "" then { cfg with Scopes := parseScopes flags.scopes } else cfg

/-- The client secret read from the file of the flag (auth.go lines 99-110). -/
def loginSecretFile (sys : Sys) (flags : LoginFlags) (tr : List Event) (cfg : Config) :
    Except (Int × List Event) (List Event × Config) :=
  if flags.clientSecretFile ≠ "" then
    match readSecretFile sys tr flags.clientSecretFile with
    | (tr1, .error err) =>
      .error (1, tr1 ++ [Event.errorf ("client secret file read failed: " ++ err)])
    | (tr1, .ok secret) =>
      if secret = "" then .error (1, tr1 ++ [Event.errorf "client secret file is empty"])
      else .ok (tr1, { cfg with ClientSecret := secret })
  else .ok (tr, cfg)

/-- The defaults of the redirect URI and of the scopes (auth.go lines 112-117). -/
def loginDefaults (cfg : Config) : Config :=
  let cfg := if cfg.RedirectURI = "" then { cfg with RedirectURI := defaultRedirectURI } else cfg
  if cfg.Scopes.length = 0 then { cfg with Scopes := ["daily"] } else cfg

/-- The prompt for a missing client id (auth.go lines 119-130). -/
def loginClientID (sys : Sys) (opts : GlobalOptions) (tr : List Event) (cfg : Config) :
    Except (Int × List Event) (List Event × Config) :=
  if cfg.ClientID = "" then
    match promptString sys tr "Client ID: " opts.NoInput with
    | (tr1, .error err) => .error (2, tr1 ++ [Event.errorf ("client id required: " ++ err)])
    | (tr1, .ok val) =>
      if TrimSpace val = "" then .error (2, tr1 ++ [Event.errorf "client id required"])
      else .ok (tr1, { cfg with ClientID := val })
  else .ok (tr, cfg)

/-- The prompt for a missing client secret (auth.go lines 131-142). -/
def loginClientSecret (sys : Sys) (opts : GlobalOptions) (tr : List Event) (cfg : Config) :
    Except (Int × List Event) (List Event × Config) :=
  if cfg.ClientSecret = "" then
    match promptSecret sys tr opts.NoInput with
    | (tr1, .error err) =>
      .error (2, tr1 ++ [Event.errorf ("client secret required: " ++ err)])
    | (tr1, .ok val) =>
      if TrimSpace val = "" then .error (2, tr1 ++ [Event.errorf "client secret required"])
      else .ok (tr1, { cfg with ClientSecret := val })
  else .ok (tr, cfg)

/-- The state and the authorization URL (auth.go lines 144-153). -/
def loginAuthURL (sys : Sys) (path : String) (tr : List Event) (cfg : Config) :
    Except (Int × List Event) LoginSetup :=
  match sys.randomState with
  | .error err => .error (1, tr ++ [Event.errorf ("state generation failed: " ++ err)])
  | .ok state =>
    match BuildAuthURL cfg.ClientID cfg.RedirectURI state cfg.Scopes with
    | .error err => .error (1, tr ++ [Event.errorf ("auth url build failed: " ++ err)])
    | .ok authURL =>
      .ok { path := path, cfg := cfg, state := state, authURL := authURL, trace := tr }

/-- The third of `runAuthLogin` up to the authorization URL (auth.go lines 52-153): the
setup, or the exit code with the trace. -/
def loginSetup (sys : Sys) (opts : GlobalOptions) (flags : LoginFlags) :
    Except (Int × List Event) LoginSetup :=
  match flags.parseErr with
  | some err =>
    .error (2, [Event.errorf ("flag error: " ++ err), Event.writeErr "\n",
      Event.writeErr authLoginUsage])
  | none =>
    if flags.help then .error (0, [Event.write authLoginUsage])
    else
      match loadConfig sys opts [] with
      | (tr, .error err) => .error (1, tr ++ [Event.errorf ("config load failed: " ++ err)])
      | (tr, .ok loaded) =>
        match loginSecretFile sys flags tr (loginFlagsConfig flags loaded.Cfg) with
        | .error out => .error out
        | .ok (tr1, cfg1) =>
          match loginClientID sys opts tr1 (loginDefaults cfg1) with
          | .error out => .error out
          | .ok (tr2, cfg2) =>
            match loginClientSecret sys opts tr2 cfg2 with
            | .error out => .error out
            | .ok (tr3, cfg3) => loginAuthURL sys loaded.Path tr3 cfg3

/-- The third of `runAuthLogin` that obtains the code (auth.go lines 155-199). Every
element is a possible course: the trace, and the code or the exit code. The interactive
path has one course for each result of `waitForAuthCode` and one for the time-out. -/
def loginAwaitCode (sys : Sys) (opts : GlobalOptions) (flags : LoginFlags) (s : LoginSetup) :
    List (List Event × Except Int String) :=
  if flags.paste then
    match promptString sys (s.trace ++ [Event.infof ("Open this URL:\n" ++ s.authURL)])
        "Authorization code: " opts.NoInput with
    | (tr1, .error err) =>
      [(tr1 ++ [Event.errorf ("authorization code required: " ++ err)], .error 2)]
    | (tr1, .ok val) => [(tr1, .ok val)]
  else
    match validateLoopbackRedirect sys.listener.parse s.cfg.RedirectURI with
    | some err =>
      [(s.trace ++ [Event.errorf ("redirect uri invalid for local server: " ++ err),
          Event.errorf "use --paste for manual flow"], .error 2)]
    | none =>
      let tr := s.trace ++ [Event.waitStarted s.cfg.RedirectURI s.state]
      let tr :=
        if !flags.noOpen then openBrowser sys tr s.authURL
        else tr ++ [Event.infof ("Open this URL:\n" ++ s.authURL)]
      (waitForAuthCode sys.listener sys.ctxErr s.cfg.RedirectURI s.state
          sys.serverEvents).map (fun r =>
        match r with
        | .ok code => (tr, .ok code)
        | .error err => (tr ++ [Event.errorf ("auth failed: " ++ err)], .error 1))
      ++ (match sys.ctxErr with
          | some _ => [(tr ++ [Event.errorf "auth timed out"], .error 1)]
          | none => [])

/-- The form of `ExchangeCode`. -/
def exchangeValues (clientID clientSecret redirectURI code : String) : Values :=
  Values.Set (Values.Set (Values.Set (Values.Set (Values.Set [] "grant_type"
    "authorization_code") "code" code) "client_id" clientID) "client_secret" clientSecret)
    "redirect_uri" redirectURI

/-- Go `oura.ExchangeCode`. -/
def ExchangeCode (w : World) (tr : List Event)
    (clientID clientSecret redirectURI code : String) :
    List Event × Except String TokenResponse :=
  postToken w tr (exchangeValues clientID clientSecret redirectURI code)

/-- The token `runAuthLogin` builds from the token response (auth.go lines 208-216), the
clock being read after `k` effects. -/
def loginToken (w : World) (k : Nat) (r : TokenResponse) : Token :=
  let token : Token :=
    { AccessToken := r.AccessToken, RefreshToken := r.RefreshToken, ExpiresAt := "",
      TokenType := r.TokenType }
  if r.ExpiresIn > 0 then
    { token with ExpiresAt := w.formatRFC3339 (expiryInstant (w.now k) r.ExpiresIn) }
  else token

/-- The last third of `runAuthLogin` (auth.go lines 201-229): the exchange of the code and
the saving of the token. The exit code and the trace. -/
def loginStore (sys : Sys) (path : String) (cfg : Config) (tr : List Event) (code : String) :
    Int × List Event :=
  match ExchangeCode sys.world tr cfg.ClientID cfg.ClientSecret cfg.RedirectURI code with
  | (tr1, .error err) => (1, tr1 ++ [Event.errorf ("token exchange failed: " ++ err)])
  | (tr1, .ok tokenResp) =>
    let token := loginToken sys.world tr1.length tokenResp
    let cfg1 : Config := { cfg with Token := some token }
    let tr2 := tr1 ++ [Event.save path cfg1]
    match sys.world.configSave (saveCalls tr1) path cfg1 with
    | some err => (1, tr2 ++ [Event.errorf ("config save failed: " ++ err)])
    | none =>
      let tr3 := tr2 ++ [Event.infof "auth complete; token saved"]
      if token.ExpiresAt ≠ "" then
        (0, tr3 ++ [Event.infof ("token expires at " ++ token.ExpiresAt)])
      else (0, tr3)

/-- Go `runAuthLogin`: every possible course, as exit code and trace. -/
def runAuthLogin (sys : Sys) (opts : GlobalOptions) (flags : LoginFlags) :
    List (Int × List Event) :=
  match loginSetup sys opts flags with
  | .error out => [out]
  | .ok s =>
    (loginAwaitCode sys opts flags s).map fun course =>
      match course with
      | (tr, .error code) => (code, tr)
      | (tr, .ok code) => loginStore sys s.path s.cfg tr code

/-- The fields that `encoding/json` writes for a `config.Token`: all four are tagged
`omitempty`, so an empty string is left out. -/
def Token.jsonFields (t : Token) : List (String × String) :=
  (if t.AccessToken ≠ "" then [("access_token", t.AccessToken)] else []) ++
  (if t.RefreshToken ≠ "" then [("refresh_token", t.RefreshToken)] else []) ++
  (if t.ExpiresAt ≠ "" then [("expires_at", t.ExpiresAt)] else []) ++
  (if t.TokenType ≠ "" then [("token_type", t.TokenType)] else [])

/-! ## internal/oura/resources.go and internal/app/list.go -/

/-- Go `QueryKind`, an `int`. -/
abbrev QueryKind := Int

/-- The kind of a resource without query parameters. -/
def QueryNone : QueryKind := 0

/-- The kind of a resource filtered by dates. -/
def QueryDate : QueryKind := 1

/-- The kind of a resource filtered by date-times. -/
def QueryDateTime : QueryKind := 2

/-- The kind of a resource that takes a `next_token` only. -/
def QueryNextTokenOnly : QueryKind := 3

/-- Go `oura.Resource`. -/
structure Resource where
  Key : String
  PathSegment : String
  SupportsList : Bool
  SupportsGet : Bool
  Query : QueryKind
  deriving DecidableEq, Repr

/-- A resource that can be listed and fetched, its path segment being its key. -/
def listed (key : String) (kind : QueryKind) : Resource :=
  { Key := key, PathSegment := key, SupportsList := true, SupportsGet := true, Query := kind }

/-- The table `resources`. -/
def resources : List Resource :=
  [ { Key := "personal_info", PathSegment := "personal_info", SupportsList := false,
      SupportsGet := true, Query := QueryNone },
    listed "daily_activity" QueryDate,
    listed "daily_cardiovascular_age" QueryDate,
    listed "daily_readiness" QueryDate,
    listed "daily_resilience" QueryDate,
    listed "daily_sleep" QueryDate,
    listed "daily_spo2" QueryDate,
    listed "daily_stress" QueryDate,
    listed "sleep" QueryDate,
    listed "sleep_time" QueryDate,
    listed "session" QueryDate,
    listed "workout" QueryDate,
    listed "tag" QueryDate,
    listed "enhanced_tag" QueryDate,
    listed "rest_mode_period" QueryDate,
    { Key := "vo2_max", PathSegment := "vO2_max", SupportsList := true, SupportsGet := true,
      Query := QueryDate },
    listed "ring_configuration" QueryNextTokenOnly,
    { Key := "heartrate", PathSegment := "heartrate", SupportsList := true,
      SupportsGet := false, Query := QueryDateTime } ]

/-- Go `LookupResource`: the index maps the lowered key of each resource to it, a later
resource replacing an earlier one under the same key; `toLower` is `strings.ToLower`. -/
def LookupResource (toLower : String → String) (name : String) : Option Resource :=
  resources.reverse.find? fun r => toLower r.Key == toLower name

/-- Go `oura.BuildPath`. -/
def BuildPath (sandbox : Bool) (segment : String) : String :=
  if sandbox then "/v2/sandbox/usercollection/" ++ segment
  else "/v2/usercollection/" ++ segment

/-- Go `oura.BuildQuery`, the map being given as the list of its entries. -/
def BuildQuery (params : List (String × String)) : Values :=
  params.foldl
    (fun values kv => if TrimSpace kv.2 = "" then values else Values.Set values kv.1 kv.2) []

/-- Go `buildListQuery`. -/
def buildListQuery (sys : Sys) (resource : Resource)
    (startDate endDate startDateTime endDateTime nextToken : String) : Except String Values :=
  let params : List (String × String) :=
    if nextToken ≠ "" then [("next_token", nextToken)] else []
  if resource.Query = QueryNone then
    if startDate ≠ "" ∨ endDate ≠ "" ∨ startDateTime ≠ "" ∨ endDateTime ≠ "" then
      .error "resource does not accept date filters"
    else .ok (BuildQuery params)
  else if resource.Query = QueryNextTokenOnly then
    if startDate ≠ "" ∨ endDate ≠ "" ∨ startDateTime ≠ "" ∨ endDateTime ≠ "" then
      .error "resource only accepts next_token"
    else .ok (BuildQuery params)
  else if resource.Query = QueryDate then
    if startDateTime ≠ "" ∨ endDateTime ≠ "" then
      .error "use --start-date/--end-date for this resource"
    else if startDate = "" ∧ endDate = "" then .ok (BuildQuery params)
    else if startDate = "" ∨ endDate = "" then
      .error "start-date and end-date must both be set"
    else
      match sys.parseDate startDate with
      | .error err => .error err
      | .ok start =>
        match sys.parseDate endDate with
        | .error err => .error err
        | .ok stop =>
          if stop.unixNano < start.unixNano then .error "end-date must be after start-date"
          else
            .ok (BuildQuery (params ++ [("start_date", sys.formatDate start),
              ("end_date", sys.formatDate stop)]))
  else if resource.Query = QueryDateTime then
    if startDate ≠ "" ∨ endDate ≠ "" then
      .error "use --start-datetime/--end-datetime for this resource"
    else if startDateTime = "" ∧ endDateTime = "" then .ok (BuildQuery params)
    else if startDateTime = "" ∨ endDateTime = "" then
      .error "start-datetime and end-datetime must both be set"
    else
      match sys.parseDateTime startDateTime with
      | .error err => .error err
      | .ok start =>
        match sys.parseDateTime endDateTime with
        | .error err => .error err
        | .ok stop =>
          if stop.unixNano < start.unixNano then
            .error "end-datetime must be after start-datetime"
          else
            .ok (BuildQuery (params ++ [("start_datetime", sys.formatDateTime start),
              ("end_datetime", sys.formatDateTime stop)]))
  else .error "unknown query type"

/-- Go `listUsage`. -/
def listUsage : String :=
  "Usage:\n  oura list <resource> [flags]\n\nFlags:\n" ++
  "  --start-date <YYYY-MM-DD>\n  --end-date <YYYY-MM-DD>\n" ++
  "  --start-datetime <RFC3339>\n  --end-datetime <RFC3339>\n" ++
  "  --next-token <token>\n  --sandbox\n"

/-- Go `apiErrorMessage`. -/
def apiErrorMessage (sys : Sys) (body : String) : String :=
  let text := TrimSpace body
  if text = "" then ""
  else
    match sys.jsonObject body with
    | none => text
    | some payload =>
      match payload "message" with
      | some msg => if msg ≠ "" then msg else
        match payload "error" with
        | some msg2 => if msg2 ≠ "" then msg2 else text
        | none => text
      | none =>
        match payload "error" with
        | some msg2 => if msg2 ≠ "" then msg2 else text
        | none => text

/-- The flags and arguments of `list` as `fs.Parse(args)` leaves them, with its error. -/
structure ListFlags where
  parseErr : Option String
  startDate : String
  endDate : String
  startDateTime : String
  endDateTime : String
  nextToken : String
  sandbox : Bool
  help : Bool
  rest : List String
  deriving DecidableEq, Repr

/-- Go `runList`: the exit code and the trace; `none` when `fuel` nested calls of
`Client.do` do not suffice. -/
def runList (sys : Sys) (fuel : Nat) (opts : GlobalOptions) (flags : ListFlags) :
    Option (Int × List Event) :=
  match flags.parseErr with
  | some err =>
    some (2, [Event.errorf ("flag error: " ++ err), Event.writeErr "\n",
      Event.writeErr listUsage])
  | none =>
    if flags.help then some (0, [Event.write listUsage])
    else
      match flags.rest with
      | [] =>
        some (2, [Event.errorf "resource required", Event.writeErr "\n",
          Event.writeErr listUsage])
      | name :: _ =>
        match LookupResource sys.toLower name with
        | none => some (2, [Event.errorf ("unknown resource: " ++ name)])
        | some resource =>
          if !resource.SupportsList then
            some (2, [Event.errorf ("resource is not listable: " ++ resource.Key)])
          else
            match buildListQuery sys resource flags.startDate flags.endDate
                flags.startDateTime flags.endDateTime flags.nextToken with
            | .error err => some (2, [Event.errorf ("invalid query: " ++ err)])
            | .ok query =>
              match loadClient sys opts [] with
              | (tr, .error (code, err)) =>
                some (code, tr ++ [Event.errorf ("auth required: " ++ err)])
              | (_, .ok client) =>
                match Client.Get sys.world fuel client
                    (BuildPath flags.sandbox resource.PathSegment) query with
                | none => none
                | some (c, .error err) =>
                  some (4, c.trace ++ [Event.errorf ("request failed: " ++ err)])
                | some (c, .ok resp) =>
                  if resp.Status ≥ 400 then
                    some (exitCodeForStatus resp.Status,
                      c.trace ++ [Event.errorf ("api error (" ++ toString resp.Status
                        ++ "): " ++ apiErrorMessage sys resp.Body)])
                  else
                    match sys.printJSON resp.Body with
                    | some err =>
                      some (1, c.trace ++ [Event.printJSON resp.Body,
                        Event.errorf ("output failed: " ++ err)])
                    | none => some (0, c.trace ++ [Event.printJSON resp.Body])

/-- The requests to the token endpoint in a trace, in their order. -/
def tokenRequests (tr : List Event) : List TokenPost :=
  tr.filterMap fun e =>
    match e with
    | .tokenCall req => some req
    | _ => none

/-- The token endpoint answers `req`, the request number `n` it gets, in the way `postToken`
accepts, and the answer decodes to `r`: a status below 400 and a body that `json.Unmarshal`
turns into `r`. -/
def World.grants (w : World) (n : Nat) (req : TokenPost) (r : TokenResponse) : Prop :=
  ∃ status body, w.tokenDo n req = .response status body ∧ status < 400 ∧
    w.jsonUnmarshal body = .ok r


/-! ## Vocabulary of the statements -/

/-- The POST that `RefreshToken` sends. -/
def refreshPost (clientID clientSecret refreshToken : String) : TokenPost :=
  tokenPost (refreshValues clientID clientSecret refreshToken)

/-- The answers of the token endpoint on which `postToken` returns an error: a transport
error, an unreadable body, a status of 400 or more, or a body that does not decode. -/
def tokenAnswerFails (w : World) : HttpResult → Bool
  | .transportError _ => true
  | .readError _ _ => true
  | .response status body =>
    decide (status ≥ 400) ||
      (match w.jsonUnmarshal body with
        | .error _ => true
        | .ok _ => false)

/-- The listener is up for a callback: the redirect URI parses, its host and port can be
bound, and the mux hands a request with this path to the handler. -/
def Listener.delivers (l : Listener) (redirectURI path : String) : Bool :=
  match l.parse redirectURI with
  | .error _ => false
  | .ok u => (l.listen u.Host).isNone && l.routes (callbackPath u) path

/-- The key-value pairs of `Values.Encode`, in its order. -/
def Values.pairs (v : Values) : List (String × String) :=
  (sortByKey v).flatMap fun kv => kv.2.map fun x => (kv.1, x)

/-- The bytes of a list of key-value pairs. -/
def pairBytes (ps : List (String × String)) : List (List Nat × List Nat) :=
  ps.map fun p => (strBytes p.1, strBytes p.2)

/-- Go `strings.Contains` on the characters of two strings. -/
def containsChars : List Char → List Char → Bool
  | [], sub => sub.isEmpty
  | c :: cs, sub => sub.isPrefixOf (c :: cs) || containsChars cs sub

/-- Go `strings.Contains`. -/
def Contains (s substr : String) : Bool := containsChars s.data substr.data

/-- Does the event load the config or go to the network? -/
def Event.loadsOrCalls : Event → Bool
  | .loadConfig _ => true
  | .apiCall _ => true
  | .tokenCall _ => true
  | _ => false

/-- Does the event start the loopback listener or a browser? -/
def Event.startsListenerOrBrowser : Event → Bool
  | .waitStarted _ _ => true
  | .startCmd _ _ => true
  | _ => false

/-- The tokens of the configs that the trace saves. -/
def savedTokens (tr : List Event) : List (Option Token) :=
  tr.filterMap fun e =>
    match e with
    | .save _ cfg => some cfg.Token
    | _ => none

/-- The first code in a sequence of offers of the handler. -/
def firstCode : List (Except String String) → Option String
  | [] => none
  | .ok code :: _ => some code
  | .error _ :: rest => firstCode rest

/-- The first error in a sequence of offers of the handler. -/
def firstError : List (Except String String) → Option String
  | [] => none
  | .error err :: _ => some err
  | .ok _ :: rest => firstError rest

/-- The offers of the handler for a sequence of requests, in the order of the requests. -/
def callbackOffers (state : String) (reqs : List (String × Values)) :
    List (Except String String) :=
  reqs.map fun r => (callbackDecision state r.2).2

/-- Is the offer a code? -/
def isCode : Except String String → Bool
  | .ok _ => true
  | .error _ => false

/-- The requests as events at the listener. -/
def requestEvents (reqs : List (String × Values)) : List ServerEvent :=
  reqs.map fun r => ServerEvent.request r.1 r.2

/-- The client right after `do` has sent its request with the access token of `tok`. -/
def Client.sent (c : Client) (method path : String) (query : Values) (tok : Token) : Client :=
  c.record [Event.debugf (method ++ " " ++ requestURL path query),
    Event.apiCall (apiRequest method path query tok.AccessToken)]

/-- The config a successful refresh with response `r` leaves in memory: only the token
changes; the clock is read right after the token request. -/
def Client.refreshedCfg (w : World) (c : Client) (tok : Token) (r : TokenResponse) : Config :=
  { c.cfg with Token := some (refreshedToken tok r
      (w.formatRFC3339 (expiryInstant (w.now (c.trace.length + 1)) r.ExpiresIn))) }

/-! ## Example worlds and clients -/

/-- Two decimal digits. -/
def twoDigits (n : Nat) : String :=
  ⟨[Char.ofNat (48 + n / 10 % 10), Char.ofNat (48 + n % 10)]⟩

/-- Four decimal digits. -/
def fourDigits (n : Nat) : String :=
  ⟨[Char.ofNat (48 + n / 1000 % 10), Char.ofNat (48 + n / 100 % 10),
    Char.ofNat (48 + n / 10 % 10), Char.ofNat (48 + n % 10)]⟩

/-- The rendering `Time.UTC().Format(time.RFC3339)` of an instant given in Unix
nanoseconds, for the years 0000 to 9999 of the proleptic Gregorian calendar. -/
def rfc3339 (ns : Int) : String :=
  let secs := ns / 1000000000
  let rem := (secs % 86400).toNat
  let z := secs / 86400 + 719468
  let era := z / 146097
  let doe := (z % 146097).toNat
  let yoe := (doe - doe / 1460 + doe / 36524 - doe / 146096) / 365
  let doy := doe - (365 * yoe + yoe / 4 - yoe / 100)
  let mp := (5 * doy + 2) / 153
  let d := doy - (153 * mp + 2) / 5 + 1
  let m := if mp < 10 then mp + 3 else mp - 9
  let y := (yoe : Int) + era * 400 + (if m ≤ 2 then 1 else 0)
  fourDigits y.toNat ++ "-" ++ twoDigits m ++ "-" ++ twoDigits d ++ "T" ++
    twoDigits (rem / 3600) ++ ":" ++ twoDigits (rem / 60 % 60) ++ ":" ++ twoDigits (rem % 60)
    ++ "Z"

/-- The instant 2026-11-04T12:00:00Z in Unix nanoseconds. -/
def exampleNow : Int := 1793793600000000000

/-- The body `{"access_token":"t1"}` of a token response. -/
def tokenBody : String := "\x7b\"access_token\":\"t1\"\x7d"

/-- The body `{"access_token":"t1","expires_in":9223372037}` of a token response. -/
def longLivedBody : String := "\x7b\"access_token\":\"t1\",\"expires_in\":9223372037\x7d"

/-- A JSON decoder on the bodies used here: `tokenBody` and `longLivedBody` decode,
anything else does not. -/
def exampleUnmarshal (body : String) : Except String TokenResponse :=
  if body = tokenBody then
    .ok { AccessToken := "t1", RefreshToken := "", ExpiresIn := 0, TokenType := "", Scope := "" }
  else if body = longLivedBody then
    .ok { AccessToken := "t1", RefreshToken := "", ExpiresIn := 9223372037, TokenType := "",
          Scope := "" }
  else .error "invalid character"

/-- A world whose resource API answers 401 to its first `k` requests and 200 afterwards,
and whose token endpoint grants the first `m` refreshes and answers 400 afterwards. -/
def exampleWorld (k m : Nat) : World :=
  { newRequest := fun _ _ => none
    apiDo := fun n _ => if n < k then .response 401 "denied" else .response 200 "data"
    tokenDo := fun n _ => if n < m then .response 200 tokenBody else .response 400 "invalid_grant"
    jsonUnmarshal := exampleUnmarshal
    now := fun _ => exampleNow
    formatRFC3339 := rfc3339
    configSave := fun _ _ _ => none }

/-- A world whose token endpoint grants a token with `expires_in = 9223372037`. -/
def longLivedWorld : World :=
  { exampleWorld 1 1 with tokenDo := fun _ _ => .response 200 longLivedBody }

/-- A stored token with a refresh token. -/
def exampleToken : Token :=
  { AccessToken := "t0", RefreshToken := "r0", ExpiresAt := "", TokenType := "Bearer" }

/-- A client with client credentials and a refreshable token. -/
def exampleClient : Client :=
  { cfg := { ClientID := "id", ClientSecret := "secret", RedirectURI := "", Scopes := [],
             Token := some exampleToken }
    cfgPath := "config.json", envOverrides := noOverrides, trace := [] }

/-- The same client without client credentials. -/
def clientWithoutCredentials : Client :=
  { exampleClient with cfg := { exampleClient.cfg with ClientID := "", ClientSecret := "" } }

/-- The same client with the access token taken from `OURA_ACCESS_TOKEN`. -/
def clientWithEnvToken : Client :=
  { exampleClient with envOverrides := { noOverrides with AccessToken := true } }

/-- The same client with no refresh token stored. -/
def clientWithoutRefreshToken : Client :=
  { exampleClient with
    cfg := { exampleClient.cfg with Token := some { exampleToken with RefreshToken := "" } } }

/-- A callback that reports `error=access_denied`. -/
def deniedCallback : String × Values := ("/callback", [("error", ["access_denied"])])

/-- A callback that carries the code `XYZ` and the state `S1`. -/
def codeCallback : String × Values := ("/callback", [("code", ["XYZ"]), ("state", ["S1"])])

/-- The redirect URI of the examples. -/
def exampleRedirect : String := "http://127.0.0.1:8797/callback"

/-- The parsed redirect URI of the examples. -/
def exampleURL : RedirectURL :=
  { Scheme := "http", Host := "127.0.0.1:8797", Path := "/callback" }

/-- A listener for the redirect URI of the examples: the URI parses, the port is free and
the mux routes by equality of paths. -/
def exampleListener : Listener :=
  { parse := fun s => if s = exampleRedirect then .ok exampleURL else .error "parse error"
    listen := fun _ => none
    routes := fun pattern path => pattern == path }

/-- A client whose config holds no token. -/
def clientWithoutToken : Client :=
  { exampleClient with cfg := { exampleClient.cfg with Token := none } }

/-- A world whose token endpoint answers 304 with a body that decodes. -/
def notModifiedWorld : World :=
  { exampleWorld 1 1 with tokenDo := fun _ _ => .response 304 tokenBody }

/-- A world whose token endpoint answers 400 with white space around the message. -/
def paddedErrorWorld : World :=
  { exampleWorld 1 1 with tokenDo := fun _ _ => .response 400 "  invalid_grant\n" }

/-- An environment that sets the scopes and the refresh token only. -/
def exampleEnv (name : String) : String :=
  if name = "OURA_SCOPES" then "daily, heartrate\tdaily"
  else if name = "OURA_REFRESH_TOKEN" then "r-env"
  else ""

/-- A redirect URI that is not a loopback address. -/
def remoteRedirect : String := "https://example.com/callback"

/-- A listener whose `url.Parse` knows the two redirect URIs of the examples. -/
def remoteListener : Listener :=
  { exampleListener with
    parse := fun s =>
      if s = exampleRedirect then .ok exampleURL
      else if s = remoteRedirect then
        .ok { Scheme := "https", Host := "example.com", Path := "/callback" }
      else .error "parse error" }

/-- Go `strings.ToLower` on ASCII text. -/
def asciiLower (s : String) : String := ⟨s.data.map Char.toLower⟩

/-- A machine for the examples: the stored config is the config of `exampleClient`, no
`OURA_*` variable is set, there is no terminal, and one callback with the code `XYZ`
reaches the loopback listener. -/
def exampleSys : Sys :=
  { world := exampleWorld 1 1
    listener := remoteListener
    defaultPath := .ok "/home/u/.config/oura/config.json"
    loadFile := fun _ => .ok exampleClient.cfg
    getenv := fun _ => ""
    readFile := fun _ => .error "no such file"
    stdinTTY := false
    readLine := fun _ => .error "EOF"
    readPassword := fun _ => .error "EOF"
    randomState := .ok "S1"
    goos := "linux"
    startCmd := fun _ _ => none
    serverEvents := requestEvents [codeCallback]
    ctxErr := none
    toLower := asciiLower
    printJSON := fun _ => none
    jsonObject := fun _ => none
    parseDate := fun _ => .error "cannot parse"
    parseDateTime := fun _ => .error "cannot parse"
    formatDate := fun _ => ""
    formatDateTime := fun _ => "" }

/-- The same machine with a token endpoint that grants `expires_in = 9223372037`. -/
def longLivedSys : Sys := { exampleSys with world := longLivedWorld }

/-- The flags of a plain `oura auth login`. -/
def plainLogin : LoginFlags :=
  { parseErr := none, clientID := "", clientSecretFile := "", redirectURI := "", scopes := "",
    noOpen := false, paste := false, help := false }

/-- The flags of `oura auth login --redirect-uri https://example.com/callback`. -/
def remoteLogin : LoginFlags := { plainLogin with redirectURI := remoteRedirect }

/-- The options of the examples. -/
def exampleOpts : GlobalOptions := { ConfigPath := "", NoInput := true }

/-- The flags of `oura list --start-date 2024-01-01 ring_configuration`. -/
def ringList : ListFlags :=
  { parseErr := none, startDate := "2024-01-01", endDate := "", startDateTime := "",
    endDateTime := "", nextToken := "", sandbox := false, help := false,
    rest := ["ring_configuration"] }

/-- The setup that `oura auth login --redirect-uri https://example.com/callback` reaches
on the machine of the examples. -/
def remoteSetup : LoginSetup :=
  { path := "/home/u/.config/oura/config.json"
    cfg := { ClientID := "id", ClientSecret := "secret", RedirectURI := remoteRedirect,
             Scopes := ["daily"], Token := some exampleToken }
    state := "S1"
    authURL := "https://cloud.ouraring.com/oauth/authorize?client_id=id&redirect_uri=https%3A%2F%2Fexample.com%2Fcallback&response_type=code&scope=daily&state=S1"
    trace := [Event.loadConfig "/home/u/.config/oura/config.json"] }

/-- The token response `{"access_token":"A","expires_in":3600}`. -/
def hourResponse : TokenResponse :=
  { AccessToken := "A", RefreshToken := "", ExpiresIn := 3600, TokenType := "", Scope := "" }

/-- The body `{"error":"invalid_grant"}` of a token response. -/
def errorBody : String := "\x7b\"error\":\"invalid_grant\"\x7d"

/-- A world whose token endpoint answers 200 with the body `{"error":"invalid_grant"}`,
which `json.Unmarshal` decodes into the zero `TokenResponse`: the body is a JSON object and
none of its fields is one of the struct. -/
def errorGrantWorld : World :=
  { exampleWorld 1 1 with
    tokenDo := fun _ _ => .response 200 errorBody
    jsonUnmarshal := fun body =>
      if body = errorBody then
        .ok { AccessToken := "", RefreshToken := "", ExpiresIn := 0, TokenType := "",
              Scope := "" }
      else exampleUnmarshal body }

/-- The machine of the examples with that token endpoint. -/
def errorGrantSys : Sys := { exampleSys with world := errorGrantWorld }


/-- The token that the login of the examples saves. -/
def exampleLoginToken : Token :=
  { AccessToken := "t1", RefreshToken := "", ExpiresAt := "", TokenType := "" }

/-- The course of `oura auth login` on the machine of the examples: exit code 0 after the
config is loaded, the listener and the browser are started, the code is exchanged and the
token is saved. -/
def exampleLoginCourse : Int × List Event :=
  (0,
   [Event.loadConfig "/home/u/.config/oura/config.json",
    Event.waitStarted "http://127.0.0.1:8797/callback" "S1",
    Event.startCmd "xdg-open"
      "https://cloud.ouraring.com/oauth/authorize?client_id=id&redirect_uri=http%3A%2F%2F127.0.0.1%3A8797%2Fcallback&response_type=code&scope=daily&state=S1",
    Event.tokenCall
      { url := "https://api.ouraring.com/oauth/token",
        contentType := "application/x-www-form-urlencoded",
        body := "client_id=id&client_secret=secret&code=XYZ&grant_type=authorization_code&redirect_uri=http%3A%2F%2F127.0.0.1%3A8797%2Fcallback" },
    Event.save "/home/u/.config/oura/config.json"
      { ClientID := "id", ClientSecret := "secret",
        RedirectURI := "http://127.0.0.1:8797/callback", Scopes := ["daily"],
        Token := some exampleLoginToken },
    Event.infof "auth complete; token saved"])


/-- The instant 2024-01-01T00:00:00Z, in UTC. -/
def newYear : GoTime := { unixNano := 1704067200000000000, offset := 0 }

/-- The instant 2024-01-02T00:00:00Z, in UTC. -/
def secondOfJanuary : GoTime := { unixNano := 1704153600000000000, offset := 0 }

/-- The instant 2024-01-01T06:00:00Z, in UTC. -/
def newYearMorning : GoTime := { unixNano := 1704088800000000000, offset := 0 }

/-- The machine of the examples with a `time.Parse` that knows two days and two instants of
January 2024, and a `Format` for times in UTC. -/
def dateSys : Sys :=
  { exampleSys with
    parseDate := fun s =>
      if s = "2024-01-01" then .ok newYear
      else if s = "2024-01-02" then .ok secondOfJanuary
      else .error "cannot parse"
    parseDateTime := fun s =>
      if s = "2024-01-01T00:00:00Z" then .ok newYear
      else if s = "2024-01-01T06:00:00Z" then .ok newYearMorning
      else .error "cannot parse"
    formatDate := fun t => ⟨(rfc3339 t.unixNano).data.take 10⟩
    formatDateTime := fun t => rfc3339 t.unixNano }


/-- A callback with the state `S1` and neither `error` nor `code`. -/
def missingCodeCallback : String × Values := ("/callback", [("state", ["S1"])])

/-! ## Lemmas on traces, `postToken` and `tryRefresh` -/

theorem apiCalls_append (a b : List Event) : apiCalls (a ++ b) = apiCalls a + apiCalls b := by
  simp [apiCalls, List.countP_append]

theorem tokenCalls_append (a b : List Event) :
    tokenCalls (a ++ b) = tokenCalls a + tokenCalls b := by
  simp [tokenCalls, List.countP_append]

theorem saveCalls_append (a b : List Event) :
    saveCalls (a ++ b) = saveCalls a + saveCalls b := by
  simp [saveCalls, List.countP_append]

theorem apiCalls_request (m : String) (q : ApiRequest) :
    apiCalls [Event.debugf m, Event.apiCall q] = 1 := rfl

theorem tokenCalls_request (m : String) (q : ApiRequest) :
    tokenCalls [Event.debugf m, Event.apiCall q] = 0 := rfl

theorem apiCalls_tokenCall (q : TokenPost) : apiCalls [Event.tokenCall q] = 0 := rfl

theorem tokenCalls_tokenCall (q : TokenPost) : tokenCalls [Event.tokenCall q] = 1 := rfl

theorem sent_counts (c : Client) (method path : String) (query : Values) (tok : Token) :
    apiCalls (c.sent method path query tok).trace = apiCalls c.trace + 1 ∧
    tokenCalls (c.sent method path query tok).trace = tokenCalls c.trace ∧
    saveCalls (c.sent method path query tok).trace = saveCalls c.trace := by
  simp [Client.sent, Client.record, apiCalls, tokenCalls, saveCalls, List.countP_append,
    List.countP_cons, Event.isApiCall, Event.isTokenCall, Event.isSave]

theorem postToken_counts (w : World) (tr : List Event) (values : Values) :
    apiCalls (postToken w tr values).1 = apiCalls tr ∧
    saveCalls (postToken w tr values).1 = saveCalls tr ∧
    tokenCalls tr ≤ tokenCalls (postToken w tr values).1 ∧
    tokenCalls (postToken w tr values).1 ≤ tokenCalls tr + 1 ∧
    (∀ r, (postToken w tr values).2 = .ok r →
      tokenCalls (postToken w tr values).1 = tokenCalls tr + 1) := by
  have hc : ∀ q : TokenPost, apiCalls (tr ++ [Event.tokenCall q]) = apiCalls tr ∧
      saveCalls (tr ++ [Event.tokenCall q]) = saveCalls tr ∧
      tokenCalls (tr ++ [Event.tokenCall q]) = tokenCalls tr + 1 := by
    intro q
    simp [apiCalls, saveCalls, tokenCalls, List.countP_append, Event.isApiCall, Event.isSave,
      Event.isTokenCall]
  unfold postToken
  cases w.newRequest "POST" tokenURL with
  | some e => simp
  | none =>
    dsimp only
    cases w.tokenDo (tokenCalls tr) _ with
    | transportError e => simp [hc]
    | readError st e => simp [hc]
    | response st body =>
      dsimp only
      split
      · simp [hc]
      · cases w.jsonUnmarshal body <;> simp [hc]

theorem postToken_ok (w : World) (tr : List Event) (values : Values) (st : Int)
    (body : String) (r : TokenResponse) (hN : w.newRequest "POST" tokenURL = none)
    (hAns : w.tokenDo (tokenCalls tr) (tokenPost values) = .response st body)
    (hst : st < 400) (hj : w.jsonUnmarshal body = .ok r) :
    postToken w tr values = (tr ++ [Event.tokenCall (tokenPost values)], .ok r) := by
  have : ¬ st ≥ 400 := by omega
  simp [postToken, hN, hAns, this, hj]

theorem postToken_fail (w : World) (tr : List Event) (values : Values)
    (hN : w.newRequest "POST" tokenURL = none)
    (hAns : tokenAnswerFails w (w.tokenDo (tokenCalls tr) (tokenPost values)) = true) :
    ∃ e, postToken w tr values = (tr ++ [Event.tokenCall (tokenPost values)], .error e) := by
  unfold postToken
  simp only [hN]
  cases hA : w.tokenDo (tokenCalls tr) (tokenPost values) with
  | transportError e => exact ⟨e, by simp⟩
  | readError st e => exact ⟨e, by simp⟩
  | response st body =>
    rw [hA] at hAns
    by_cases hst : st ≥ 400
    · exact ⟨"token exchange failed: " ++ TrimSpace body, by simp [hst]⟩
    · cases hj : w.jsonUnmarshal body with
      | error e => exact ⟨e, by simp [hst, hj]⟩
      | ok r => simp [tokenAnswerFails, hst, hj] at hAns

theorem tryRefresh_counts (w : World) (c : Client) :
    apiCalls (c.tryRefresh w).1.trace = apiCalls c.trace ∧
    tokenCalls c.trace ≤ tokenCalls (c.tryRefresh w).1.trace ∧
    tokenCalls (c.tryRefresh w).1.trace ≤ tokenCalls c.trace + 1 ∧
    ((c.tryRefresh w).2 = (true, none) →
      tokenCalls (c.tryRefresh w).1.trace = tokenCalls c.trace + 1) := by
  unfold Client.tryRefresh
  cases c.cfg.Token with
  | none => simp
  | some tok =>
    dsimp only
    split
    · simp
    · split
      · simp
      · have hp := postToken_counts w c.trace
          (refreshValues c.cfg.ClientID c.cfg.ClientSecret tok.RefreshToken)
        unfold RefreshToken
        rcases hpt : postToken w c.trace
          (refreshValues c.cfg.ClientID c.cfg.ClientSecret tok.RefreshToken) with ⟨tr, res⟩
        rw [hpt] at hp
        cases res with
        | error e => simp at hp ⊢; omega
        | ok r =>
          simp at hp
          dsimp only
          split
          · split <;>
              simp [Client.record, apiCalls, tokenCalls, List.countP_append, Event.isApiCall,
                Event.isTokenCall] <;> simp [apiCalls, tokenCalls] at hp <;> omega
          · simp; omega

theorem tryRefresh_no_refresh_token (w : World) (c : Client) (tok : Token)
    (hT : c.cfg.Token = some tok) (hR : tok.RefreshToken = "") :
    c.tryRefresh w = (c, false, none) := by
  simp [Client.tryRefresh, hT, hR]

theorem tryRefresh_missing_credentials (w : World) (c : Client) (tok : Token)
    (hT : c.cfg.Token = some tok) (hR : tok.RefreshToken ≠ "")
    (hC : c.cfg.ClientID = "" ∨ c.cfg.ClientSecret = "") :
    c.tryRefresh w = (c, false, some "missing client credentials for token refresh") := by
  simp [Client.tryRefresh, hT, hR, hC]

theorem tryRefresh_fail (w : World) (c : Client) (tok : Token)
    (hT : c.cfg.Token = some tok) (hR : tok.RefreshToken ≠ "")
    (hI : c.cfg.ClientID ≠ "") (hS : c.cfg.ClientSecret ≠ "")
    (hN : w.newRequest "POST" tokenURL = none)
    (hAns : tokenAnswerFails w (w.tokenDo (tokenCalls c.trace)
      (refreshPost c.cfg.ClientID c.cfg.ClientSecret tok.RefreshToken)) = true) :
    ∃ e, c.tryRefresh w =
      (c.record [Event.tokenCall
        (refreshPost c.cfg.ClientID c.cfg.ClientSecret tok.RefreshToken)], false, some e) := by
  obtain ⟨e, he⟩ := postToken_fail w c.trace _ hN hAns
  refine ⟨e, ?_⟩
  simp [Client.tryRefresh, hT, hR, hI, hS, RefreshToken, he, Client.record, refreshPost]

theorem apiRequest_url (method path : String) (query : Values) (a : String) :
    (apiRequest method path query a).url = requestURL path query := rfl

/-- The `do` step on a 401: what remains is the refresh and, after it, the nested call. -/
theorem doFuel_401 (w : World) (method path : String) (query : Values) (fuel : Nat)
    (c : Client) (tok : Token) (body : String)
    (hT : c.cfg.Token = some tok) (hA : tok.AccessToken ≠ "")
    (hN : w.newRequest method (requestURL path query) = none)
    (h401 : w.apiDo (apiCalls c.trace) (apiRequest method path query tok.AccessToken)
      = .response 401 body) :
    Client.doFuel w method path query (fuel + 1) c =
      match (c.sent method path query tok).tryRefresh w with
      | (c2, true, none) => Client.doFuel w method path query fuel c2
      | (c2, _, _) => some (c2, .ok { Status := 401, Body := body }) := by
  simp [Client.doFuel, hT, hA, hN, h401, Client.sent, apiRequest_url]

/-- The `do` step on any other status. -/
theorem doFuel_other (w : World) (method path : String) (query : Values) (fuel : Nat)
    (c : Client) (tok : Token) (status : Int) (body : String)
    (hT : c.cfg.Token = some tok) (hA : tok.AccessToken ≠ "")
    (hN : w.newRequest method (requestURL path query) = none)
    (hResp : w.apiDo (apiCalls c.trace) (apiRequest method path query tok.AccessToken)
      = .response status body) (hst : status ≠ 401) :
    Client.doFuel w method path query (fuel + 1) c =
      some (c.sent method path query tok, .ok { Status := status, Body := body }) := by
  simp [Client.doFuel, hT, hA, hN, hResp, hst, Client.sent, apiRequest_url]

theorem sent_cfg (c : Client) (method path : String) (query : Values) (tok : Token) :
    (c.sent method path query tok).cfg = c.cfg := rfl

theorem sent_trace (c : Client) (method path : String) (query : Values) (tok : Token) :
    (c.sent method path query tok).trace =
      c.trace ++ [Event.debugf (method ++ " " ++ requestURL path query),
        Event.apiCall (apiRequest method path query tok.AccessToken)] := rfl

theorem refreshedToken_access (tok : Token) (r : TokenResponse) (e : String) :
    (refreshedToken tok r e).AccessToken = r.AccessToken := by
  unfold refreshedToken
  dsimp only
  split_ifs <;> rfl

theorem tryRefresh_ok (w : World) (c : Client) (tok : Token) (st : Int) (body : String)
    (r : TokenResponse)
    (hT : c.cfg.Token = some tok) (hR : tok.RefreshToken ≠ "")
    (hI : c.cfg.ClientID ≠ "") (hS : c.cfg.ClientSecret ≠ "")
    (hN : w.newRequest "POST" tokenURL = none)
    (hAns : w.tokenDo (tokenCalls c.trace)
      (refreshPost c.cfg.ClientID c.cfg.ClientSecret tok.RefreshToken) = .response st body)
    (hst : st < 400) (hj : w.jsonUnmarshal body = .ok r) :
    ∃ evs, c.tryRefresh w =
        ({ cfg := c.refreshedCfg w tok r, cfgPath := c.cfgPath, envOverrides := c.envOverrides,
           trace := c.trace ++
            [Event.tokenCall (refreshPost c.cfg.ClientID c.cfg.ClientSecret tok.RefreshToken)]
            ++ evs }, true, none) ∧
      apiCalls evs = 0 ∧ tokenCalls evs = 0 ∧
      saveCalls evs = (if c.persistAllowed then 1 else 0) ∧
      (∀ e ∈ evs, e.isSave = true → e = Event.save c.cfgPath (c.refreshedCfg w tok r)) := by
  have hp := postToken_ok w c.trace _ st body r hN hAns hst hj
  unfold Client.tryRefresh
  simp only [hT, hR, hI, hS, RefreshToken, hp, if_false, or_self]
  by_cases hpa : c.persistAllowed = true
  · have hpa2 : Client.persistAllowed
        { cfg := c.refreshedCfg w tok r, cfgPath := c.cfgPath,
          envOverrides := c.envOverrides,
          trace := c.trace ++ [Event.tokenCall (tokenPost
            (refreshValues c.cfg.ClientID c.cfg.ClientSecret tok.RefreshToken))] } = true := hpa
    cases hsv : w.configSave (saveCalls (c.trace ++ [Event.tokenCall (tokenPost
        (refreshValues c.cfg.ClientID c.cfg.ClientSecret tok.RefreshToken))])) c.cfgPath
        (c.refreshedCfg w tok r) with
    | none =>
      refine ⟨[Event.save c.cfgPath (c.refreshedCfg w tok r)], ?_, ?_⟩
      · simp [Client.refreshedCfg, Client.record, refreshPost] at hpa2 hsv ⊢
        simp [hpa2, hsv]
      · simp [apiCalls, tokenCalls, saveCalls, Event.isApiCall, Event.isTokenCall,
          Event.isSave, hpa]
    | some err =>
      refine ⟨[Event.save c.cfgPath (c.refreshedCfg w tok r),
        Event.debugf ("token refresh save failed: " ++ err)], ?_, ?_⟩
      · simp [Client.refreshedCfg, Client.record, refreshPost] at hpa2 hsv ⊢
        simp [hpa2, hsv]
      · simp [apiCalls, tokenCalls, saveCalls, Event.isApiCall, Event.isTokenCall,
          Event.isSave, hpa]
  · have hpa2 : ¬ Client.persistAllowed
        { cfg := c.refreshedCfg w tok r, cfgPath := c.cfgPath,
          envOverrides := c.envOverrides,
          trace := c.trace ++ [Event.tokenCall (tokenPost
            (refreshValues c.cfg.ClientID c.cfg.ClientSecret tok.RefreshToken))] } = true := hpa
    refine ⟨[], ?_, ?_⟩
    · simp [Client.refreshedCfg, refreshPost] at hpa2 ⊢
      simp [hpa2]
    · simp [apiCalls, tokenCalls, saveCalls, hpa]

/-- The call counts of every `do` that returns: a token request only after a resource
request, a further resource request only after a token request. -/
theorem doFuel_counts (w : World) (method path : String) (query : Values) :
    ∀ (fuel : Nat) (c c' : Client) (res : Except String Response),
      Client.doFuel w method path query fuel c = some (c', res) →
      tokenCalls c'.trace + apiCalls c.trace ≤ apiCalls c'.trace + tokenCalls c.trace ∧
      apiCalls c'.trace + tokenCalls c.trace ≤ tokenCalls c'.trace + apiCalls c.trace + 1 ∧
      apiCalls c.trace ≤ apiCalls c'.trace ∧ tokenCalls c.trace ≤ tokenCalls c'.trace := by
  intro fuel
  induction fuel with
  | zero => intro c c' res h; simp [Client.doFuel] at h
  | succ n ih =>
    intro c c' res h
    unfold Client.doFuel at h
    cases hT : c.cfg.Token with
    | none =>
      simp [hT] at h
      obtain ⟨rfl, -⟩ := h
      omega
    | some tok =>
      simp only [hT] at h
      split at h
      · simp at h
        obtain ⟨rfl, -⟩ := h
        omega
      · cases hN : w.newRequest method (requestURL path query) with
        | some e =>
          simp [hN] at h
          obtain ⟨rfl, -⟩ := h
          omega
        | none =>
          simp only [hN, apiRequest_url] at h
          have hsc := sent_counts c method path query tok
          simp only [Client.sent] at hsc
          cases hA : w.apiDo (apiCalls c.trace)
              (apiRequest method path query tok.AccessToken) with
          | transportError e =>
            simp [hA] at h
            obtain ⟨rfl, -⟩ := h
            omega
          | readError st e =>
            simp [hA] at h
            obtain ⟨rfl, -⟩ := h
            omega
          | response st body =>
            simp only [hA] at h
            split at h
            · have ht := tryRefresh_counts w (c.sent method path query tok)
              simp only [Client.sent] at ht
              split at h
              · rename_i c2 heq
                rw [heq] at ht
                have := ih _ _ _ h
                simp at ht
                omega
              · rename_i c2 b e hne heq
                rw [heq] at ht
                simp at h
                obtain ⟨rfl, -⟩ := h
                simp at ht
                omega
            · simp at h
              obtain ⟨rfl, -⟩ := h
              omega

/-- No wrap-around of the nanosecond duration for `expires_in` up to 9223372036. -/
theorem expiryInstant_exact (now expiresIn : Int) (h0 : 0 < expiresIn)
    (h1 : expiresIn ≤ 9223372036) :
    expiryInstant now expiresIn = now + expiresIn * 1000000000 := by
  unfold expiryInstant wrapInt64
  omega

/-- What a successful refresh leaves in memory, field by field: the access token of the
response; its refresh token and token type unless they are empty; the rendering of the
expiry when `expires_in > 0`, which is `now + expires_in` seconds as long as the duration
fits `int64` nanoseconds; no change to the other fields of the config. -/
theorem tryRefresh_fields (w : World) (c : Client) (tok : Token) (st : Int) (body : String)
    (r : TokenResponse)
    (hT : c.cfg.Token = some tok) (hR : tok.RefreshToken ≠ "")
    (hI : c.cfg.ClientID ≠ "") (hS : c.cfg.ClientSecret ≠ "")
    (hN : w.newRequest "POST" tokenURL = none)
    (hAns : w.tokenDo (tokenCalls c.trace)
      (refreshPost c.cfg.ClientID c.cfg.ClientSecret tok.RefreshToken) = .response st body)
    (hst : st < 400) (hj : w.jsonUnmarshal body = .ok r) :
    ∃ tok' : Token,
      (c.tryRefresh w).1.cfg = { c.cfg with Token := some tok' } ∧
      (c.tryRefresh w).2 = (true, none) ∧
      tok'.AccessToken = r.AccessToken ∧
      tok'.RefreshToken = (if r.RefreshToken ≠ "" then r.RefreshToken else tok.RefreshToken) ∧
      tok'.TokenType = (if r.TokenType ≠ "" then r.TokenType else tok.TokenType) ∧
      tok'.ExpiresAt = (if r.ExpiresIn > 0 then
          w.formatRFC3339 (expiryInstant (w.now (c.trace.length + 1)) r.ExpiresIn)
        else tok.ExpiresAt) ∧
      (0 < r.ExpiresIn → r.ExpiresIn ≤ 9223372036 →
        tok'.ExpiresAt =
          w.formatRFC3339 (w.now (c.trace.length + 1) + r.ExpiresIn * 1000000000)) := by
  obtain ⟨evs, hev, -⟩ := tryRefresh_ok w c tok st body r hT hR hI hS hN hAns hst hj
  refine ⟨refreshedToken tok r
    (w.formatRFC3339 (expiryInstant (w.now (c.trace.length + 1)) r.ExpiresIn)),
    by rw [hev]; rfl, by rw [hev], refreshedToken_access _ _ _, ?_, ?_, ?_, ?_⟩
  · unfold refreshedToken
    dsimp only
    split_ifs <;> rfl
  · unfold refreshedToken
    dsimp only
    split_ifs <;> rfl
  · unfold refreshedToken
    dsimp only
    split_ifs <;> rfl
  · intro h0 h1
    rw [← expiryInstant_exact _ _ h0 h1]
    unfold refreshedToken
    dsimp only
    split_ifs <;> rfl

/-! ## The claims on `Client.Get` -/

/-- Counterexample to C1: the resource API answers 401 twice and then 200 while every
refresh is granted. One `Get` call refreshes twice, sends three resource requests and
returns the 200: the second 401 is not returned to the caller. -/
theorem Get_refreshes_twice :
    (exampleWorld 2 2).apiDo 0 (apiRequest "GET" "/v2/usercollection/personal_info" [] "t0")
      = .response 401 "denied" ∧
    (exampleWorld 2 2).apiDo 1 (apiRequest "GET" "/v2/usercollection/personal_info" [] "t1")
      = .response 401 "denied" ∧
    (Client.Get (exampleWorld 2 2) 3 exampleClient "/v2/usercollection/personal_info" []).map
        (fun out => (out.2, tokenCalls out.1.trace, apiCalls out.1.trace))
      = some (.ok { Status := 200, Body := "data" }, 2, 3) :=
  ⟨rfl, rfl, rfl⟩

/-- C1 (amended): after a first response of 401 and a successful refresh, `Get` goes on as
a whole new `Get` on the client holding the new access token, one token request and one
resource request later; so a retried 401 is followed by a further refresh attempt. Every
`Get` call that returns has made at most as many token requests as resource requests, and
at most one resource request more than token requests. -/
theorem Get_refreshes_after_every_401 (w : World) (c : Client) (path : String)
    (query : Values) (tok : Token) (body1 : String) (st : Int) (tbody : String)
    (r : TokenResponse)
    (hT : c.cfg.Token = some tok) (hA : tok.AccessToken ≠ "") (hR : tok.RefreshToken ≠ "")
    (hI : c.cfg.ClientID ≠ "") (hS : c.cfg.ClientSecret ≠ "")
    (hGet : w.newRequest "GET" (requestURL path query) = none)
    (hPost : w.newRequest "POST" tokenURL = none)
    (h401 : w.apiDo (apiCalls c.trace) (apiRequest "GET" path query tok.AccessToken)
      = .response 401 body1)
    (hAns : w.tokenDo (tokenCalls c.trace)
      (refreshPost c.cfg.ClientID c.cfg.ClientSecret tok.RefreshToken) = .response st tbody)
    (hst : st < 400) (hj : w.jsonUnmarshal tbody = .ok r) :
    (∃ c2 : Client,
      c2.cfg.Token.map Token.AccessToken = some r.AccessToken ∧
      tokenCalls c2.trace = tokenCalls c.trace + 1 ∧
      apiCalls c2.trace = apiCalls c.trace + 1 ∧
      ∀ fuel : Nat, Client.Get w (fuel + 1) c path query = Client.Get w fuel c2 path query) ∧
    (∀ (fuel : Nat) (c' : Client) (res : Except String Response),
      Client.Get w fuel c path query = some (c', res) →
      tokenCalls c'.trace - tokenCalls c.trace ≤ apiCalls c'.trace - apiCalls c.trace ∧
      apiCalls c'.trace - apiCalls c.trace ≤ tokenCalls c'.trace - tokenCalls c.trace + 1) := by
  have hsc := sent_counts c "GET" path query tok
  obtain ⟨evs, hev, ha, ht, -, -⟩ := tryRefresh_ok w (c.sent "GET" path query tok) tok st tbody r
    hT hR hI hS hPost (by rw [hsc.2.1]; exact hAns) hst hj
  refine ⟨⟨((c.sent "GET" path query tok).tryRefresh w).1, ?_, ?_, ?_, fun fuel => ?_⟩,
    fun fuel c' res h => ?_⟩
  · rw [hev]
    simp [Client.refreshedCfg, refreshedToken_access]
  · rw [hev]
    simp only [tokenCalls_append, ht, hsc.2.1, tokenCalls_tokenCall]
  · rw [hev]
    simp only [apiCalls_append, ha, hsc.1, apiCalls_tokenCall]
  · unfold Client.Get
    rw [doFuel_401 w "GET" path query fuel c tok body1 hT hA hGet h401, hev]
  · have := doFuel_counts w "GET" path query fuel c c' res h
    omega

/-- Witness of C1 (amended), in the world of the counterexample. -/
theorem Get_refreshes_after_every_401_witness :
    (∃ c2 : Client,
      c2.cfg.Token.map Token.AccessToken = some "t1" ∧
      tokenCalls c2.trace = tokenCalls exampleClient.trace + 1 ∧
      apiCalls c2.trace = apiCalls exampleClient.trace + 1 ∧
      ∀ fuel : Nat,
        Client.Get (exampleWorld 2 2) (fuel + 1) exampleClient
            "/v2/usercollection/personal_info" []
          = Client.Get (exampleWorld 2 2) fuel c2 "/v2/usercollection/personal_info" []) ∧
    (∀ (fuel : Nat) (c' : Client) (res : Except String Response),
      Client.Get (exampleWorld 2 2) fuel exampleClient "/v2/usercollection/personal_info" []
        = some (c', res) →
      tokenCalls c'.trace - tokenCalls exampleClient.trace
        ≤ apiCalls c'.trace - apiCalls exampleClient.trace ∧
      apiCalls c'.trace - apiCalls exampleClient.trace
        ≤ tokenCalls c'.trace - tokenCalls exampleClient.trace + 1) :=
  Get_refreshes_after_every_401 (exampleWorld 2 2) exampleClient
    "/v2/usercollection/personal_info" [] exampleToken "denied" 200 tokenBody
    { AccessToken := "t1", RefreshToken := "", ExpiresIn := 0, TokenType := "", Scope := "" }
    rfl (by decide) (by decide) (by decide) (by decide) rfl rfl rfl rfl (by decide) rfl

/-- Counterexample to C2: a refresh token is stored, the client credentials are empty and
the response is 401; `Get` returns that 401 response and no error. -/
theorem Get_missing_credentials_returns_401 :
    clientWithoutCredentials.cfg.ClientID = "" ∧
    (clientWithoutCredentials.cfg.Token.map Token.RefreshToken) = some "r0" ∧
    Client.Get (exampleWorld 1 1) 1 clientWithoutCredentials
        "/v2/usercollection/personal_info" []
      = some (clientWithoutCredentials.sent "GET" "/v2/usercollection/personal_info" []
          exampleToken, .ok { Status := 401, Body := "denied" }) :=
  ⟨rfl, rfl, rfl⟩

/-- C2 (amended): on a 401 with a refresh token stored and an empty client id or client
secret, `tryRefresh` reports the missing-client-credentials error without contacting the
token endpoint, and `do` drops that error: `Get` returns the original 401 response (status
and body) with no error, no token request, no retry and an unchanged config. -/
theorem Get_401_missing_client_credentials (w : World) (c : Client) (path : String)
    (query : Values) (fuel : Nat) (tok : Token) (body : String)
    (hT : c.cfg.Token = some tok) (hA : tok.AccessToken ≠ "") (hR : tok.RefreshToken ≠ "")
    (hC : c.cfg.ClientID = "" ∨ c.cfg.ClientSecret = "")
    (hGet : w.newRequest "GET" (requestURL path query) = none)
    (h401 : w.apiDo (apiCalls c.trace) (apiRequest "GET" path query tok.AccessToken)
      = .response 401 body) :
    (c.sent "GET" path query tok).tryRefresh w
      = (c.sent "GET" path query tok, false,
          some "missing client credentials for token refresh") ∧
    ∃ c' : Client,
      Client.Get w (fuel + 1) c path query = some (c', .ok { Status := 401, Body := body }) ∧
      c'.cfg = c.cfg ∧
      tokenCalls c'.trace = tokenCalls c.trace ∧
      apiCalls c'.trace = apiCalls c.trace + 1 := by
  have hsc := sent_counts c "GET" path query tok
  have htr := tryRefresh_missing_credentials w (c.sent "GET" path query tok) tok hT hR hC
  refine ⟨htr, c.sent "GET" path query tok, ?_, rfl, hsc.2.1, hsc.1⟩
  unfold Client.Get
  rw [doFuel_401 w "GET" path query fuel c tok body hT hA hGet h401, htr]

/-- Witness of C2 (amended). -/
theorem Get_401_missing_client_credentials_witness :
    ∃ c' : Client,
      Client.Get (exampleWorld 1 1) 1 clientWithoutCredentials
          "/v2/usercollection/personal_info" []
        = some (c', .ok { Status := 401, Body := "denied" }) ∧
      c'.cfg = clientWithoutCredentials.cfg ∧
      tokenCalls c'.trace = tokenCalls clientWithoutCredentials.trace ∧
      apiCalls c'.trace = apiCalls clientWithoutCredentials.trace + 1 :=
  (Get_401_missing_client_credentials (exampleWorld 1 1) clientWithoutCredentials
    "/v2/usercollection/personal_info" [] 0 exampleToken "denied"
    rfl (by decide) (by decide) (Or.inl rfl) rfl rfl).2

/-- C3: with a stored refresh token and client credentials, a first response of 401, a
refresh that succeeds with a non-empty access token and a retried response that is not 401,
`Get` (given fuel for two calls of `do`) makes exactly one token request, then exactly one
retried request to the same URL with `Authorization: Bearer <new access token>`, and
returns the status and body of the retried response. Nothing is assumed about
`config.Save`, so this holds whether or not saving succeeded. -/
theorem Get_refresh_then_retry (w : World) (c : Client) (path : String) (query : Values)
    (fuel : Nat) (tok : Token) (body1 : String) (st : Int) (tbody : String)
    (r : TokenResponse) (status : Int) (body : String)
    (hT : c.cfg.Token = some tok) (hA : tok.AccessToken ≠ "") (hR : tok.RefreshToken ≠ "")
    (hI : c.cfg.ClientID ≠ "") (hS : c.cfg.ClientSecret ≠ "")
    (hGet : w.newRequest "GET" (requestURL path query) = none)
    (hPost : w.newRequest "POST" tokenURL = none)
    (h401 : w.apiDo (apiCalls c.trace) (apiRequest "GET" path query tok.AccessToken)
      = .response 401 body1)
    (hAns : w.tokenDo (tokenCalls c.trace)
      (refreshPost c.cfg.ClientID c.cfg.ClientSecret tok.RefreshToken) = .response st tbody)
    (hst : st < 400) (hj : w.jsonUnmarshal tbody = .ok r) (hNew : r.AccessToken ≠ "")
    (hRetry : w.apiDo (apiCalls c.trace + 1) (apiRequest "GET" path query r.AccessToken)
      = .response status body)
    (hNot401 : status ≠ 401) :
    ∃ (c' : Client) (evs : List Event),
      Client.Get w (fuel + 2) c path query
        = some (c', .ok { Status := status, Body := body }) ∧
      c'.trace = c.trace ++
        [Event.debugf ("GET" ++ " " ++ requestURL path query),
         Event.apiCall (apiRequest "GET" path query tok.AccessToken),
         Event.tokenCall (refreshPost c.cfg.ClientID c.cfg.ClientSecret tok.RefreshToken)]
        ++ evs ++
        [Event.debugf ("GET" ++ " " ++ requestURL path query),
         Event.apiCall (apiRequest "GET" path query r.AccessToken)] ∧
      apiCalls evs = 0 ∧ tokenCalls evs = 0 ∧
      tokenCalls c'.trace = tokenCalls c.trace + 1 ∧
      apiCalls c'.trace = apiCalls c.trace + 2 ∧
      (apiRequest "GET" path query r.AccessToken).url
        = (apiRequest "GET" path query tok.AccessToken).url ∧
      (apiRequest "GET" path query r.AccessToken).authorization
        = "Bearer " ++ r.AccessToken := by
  have hsc := sent_counts c "GET" path query tok
  obtain ⟨evs, hev, ha, ht, -, -⟩ := tryRefresh_ok w (c.sent "GET" path query tok) tok st tbody r
    hT hR hI hS hPost (by rw [hsc.2.1]; exact hAns) hst hj
  simp only [sent_cfg, sent_trace] at hev
  have hstep := doFuel_401 w "GET" path query (fuel + 1) c tok body1 hT hA hGet h401
  rw [hev] at hstep
  simp only at hstep
  have hcnt : apiCalls (c.trace ++
      [Event.debugf ("GET" ++ " " ++ requestURL path query),
        Event.apiCall (apiRequest "GET" path query tok.AccessToken)] ++
      [Event.tokenCall (refreshPost c.cfg.ClientID c.cfg.ClientSecret tok.RefreshToken)]
      ++ evs) = apiCalls c.trace + 1 := by
    simp only [apiCalls_append, ha, apiCalls_request, apiCalls_tokenCall]
  let c2 : Client :=
    { cfg := (c.sent "GET" path query tok).refreshedCfg w tok r, cfgPath := c.cfgPath,
      envOverrides := c.envOverrides,
      trace := c.trace ++
        [Event.debugf ("GET" ++ " " ++ requestURL path query),
          Event.apiCall (apiRequest "GET" path query tok.AccessToken)] ++
        [Event.tokenCall (refreshPost c.cfg.ClientID c.cfg.ClientSecret tok.RefreshToken)]
        ++ evs }
  let tok2 : Token := refreshedToken tok r (w.formatRFC3339 (expiryInstant
      (w.now ((c.sent "GET" path query tok).trace.length + 1)) r.ExpiresIn))
  have hnext := doFuel_other w "GET" path query fuel c2 tok2
    status body rfl (by rw [refreshedToken_access]; exact hNew) hGet
    (by rw [refreshedToken_access]; simp only [c2, hcnt]; exact hRetry) hNot401
  refine ⟨c2.sent "GET" path query tok2, evs, ?_, ?_, ha, ht, ?_, ?_, rfl, rfl⟩
  · unfold Client.Get
    rw [hstep]
    exact hnext
  · simp [c2, tok2, Client.sent, Client.record, refreshedToken_access]
  · simp only [c2, Client.sent, Client.record, tokenCalls_append, ht, tokenCalls_request,
      tokenCalls_tokenCall]
  · simp only [c2, Client.sent, Client.record, apiCalls_append, ha, apiCalls_request,
      apiCalls_tokenCall]

/-- Witness of C3: the first request is refused, the refresh is granted, the retry gets 200. -/
theorem Get_refresh_then_retry_witness :
    ∃ c' : Client,
      Client.Get (exampleWorld 1 1) 2 exampleClient "/v2/usercollection/personal_info" []
        = some (c', .ok { Status := 200, Body := "data" }) ∧
      tokenCalls c'.trace = 1 ∧ apiCalls c'.trace = 2 :=
  let ⟨c', _, h, _, _, _, ht, ha, _, _⟩ :=
    Get_refresh_then_retry (exampleWorld 1 1) exampleClient "/v2/usercollection/personal_info"
      [] 0 exampleToken "denied" 200 tokenBody
      { AccessToken := "t1", RefreshToken := "", ExpiresIn := 0, TokenType := "", Scope := "" }
      200 "data" rfl (by decide) (by decide) (by decide) (by decide) rfl rfl rfl rfl
      (by decide) rfl (by decide) rfl (by decide)
  ⟨c', h, ht, ha⟩

/-- C4: with a non-empty access token and no refresh token stored, a 401 is returned as it
is (status 401 and the original body, no error); no token request and no further resource
request is made, nothing is saved and the in-memory config is unchanged. -/
theorem Get_401_without_refresh_token (w : World) (c : Client) (path : String)
    (query : Values) (fuel : Nat) (tok : Token) (body : String)
    (hT : c.cfg.Token = some tok) (hA : tok.AccessToken ≠ "") (hR : tok.RefreshToken = "")
    (hGet : w.newRequest "GET" (requestURL path query) = none)
    (h401 : w.apiDo (apiCalls c.trace) (apiRequest "GET" path query tok.AccessToken)
      = .response 401 body) :
    ∃ c' : Client,
      Client.Get w (fuel + 1) c path query = some (c', .ok { Status := 401, Body := body }) ∧
      c'.cfg = c.cfg ∧
      tokenCalls c'.trace = tokenCalls c.trace ∧
      apiCalls c'.trace = apiCalls c.trace + 1 ∧
      saveCalls c'.trace = saveCalls c.trace := by
  have hsc := sent_counts c "GET" path query tok
  refine ⟨c.sent "GET" path query tok, ?_, rfl, hsc.2.1, hsc.1, hsc.2.2⟩
  unfold Client.Get
  rw [doFuel_401 w "GET" path query fuel c tok body hT hA hGet h401,
    tryRefresh_no_refresh_token w (c.sent "GET" path query tok) tok hT hR]

/-- Witness of C4. -/
theorem Get_401_without_refresh_token_witness :
    ∃ c' : Client,
      Client.Get (exampleWorld 1 1) 1 clientWithoutRefreshToken
          "/v2/usercollection/personal_info" []
        = some (c', .ok { Status := 401, Body := "denied" }) ∧
      c'.cfg = clientWithoutRefreshToken.cfg ∧
      tokenCalls c'.trace = tokenCalls clientWithoutRefreshToken.trace ∧
      apiCalls c'.trace = apiCalls clientWithoutRefreshToken.trace + 1 ∧
      saveCalls c'.trace = saveCalls clientWithoutRefreshToken.trace :=
  Get_401_without_refresh_token (exampleWorld 1 1) clientWithoutRefreshToken
    "/v2/usercollection/personal_info" [] 0 { exampleToken with RefreshToken := "" } "denied"
    rfl (by decide) rfl rfl rfl

/-- C5: when the response is 401 and the refresh call fails (transport error, unreadable
body, a status of 400 or more, or a body that does not decode), `Get` returns the original
401 response with no error, sends no retried request, saves nothing and leaves the config,
hence every field of the token, as it was. -/
theorem Get_401_refresh_fails (w : World) (c : Client) (path : String)
    (query : Values) (fuel : Nat) (tok : Token) (body : String)
    (hT : c.cfg.Token = some tok) (hA : tok.AccessToken ≠ "") (hR : tok.RefreshToken ≠ "")
    (hI : c.cfg.ClientID ≠ "") (hS : c.cfg.ClientSecret ≠ "")
    (hGet : w.newRequest "GET" (requestURL path query) = none)
    (hPost : w.newRequest "POST" tokenURL = none)
    (h401 : w.apiDo (apiCalls c.trace) (apiRequest "GET" path query tok.AccessToken)
      = .response 401 body)
    (hFail : tokenAnswerFails w (w.tokenDo (tokenCalls c.trace)
      (refreshPost c.cfg.ClientID c.cfg.ClientSecret tok.RefreshToken)) = true) :
    ∃ c' : Client,
      Client.Get w (fuel + 1) c path query = some (c', .ok { Status := 401, Body := body }) ∧
      c'.cfg = c.cfg ∧
      apiCalls c'.trace = apiCalls c.trace + 1 ∧
      tokenCalls c'.trace = tokenCalls c.trace + 1 ∧
      saveCalls c'.trace = saveCalls c.trace := by
  have hsc := sent_counts c "GET" path query tok
  obtain ⟨e, he⟩ := tryRefresh_fail w (c.sent "GET" path query tok) tok hT hR hI hS hPost
    (by rw [hsc.2.1]; exact hFail)
  refine ⟨(c.sent "GET" path query tok).record [Event.tokenCall
    (refreshPost c.cfg.ClientID c.cfg.ClientSecret tok.RefreshToken)], ?_, rfl, ?_, ?_, ?_⟩
  · unfold Client.Get
    rw [doFuel_401 w "GET" path query fuel c tok body hT hA hGet h401, he]
    rfl
  · simp only [Client.record, apiCalls_append, hsc.1, apiCalls_tokenCall]
  · simp only [Client.record, tokenCalls_append, hsc.2.1, tokenCalls_tokenCall]
  · simp only [Client.record, saveCalls_append, hsc.2.2]
    rfl

/-- Witness of C5: the token endpoint answers 400. -/
theorem Get_401_refresh_fails_witness :
    ∃ c' : Client,
      Client.Get (exampleWorld 1 0) 1 exampleClient "/v2/usercollection/personal_info" []
        = some (c', .ok { Status := 401, Body := "denied" }) ∧
      c'.cfg = exampleClient.cfg ∧
      apiCalls c'.trace = apiCalls exampleClient.trace + 1 ∧
      tokenCalls c'.trace = tokenCalls exampleClient.trace + 1 ∧
      saveCalls c'.trace = saveCalls exampleClient.trace :=
  Get_401_refresh_fails (exampleWorld 1 0) exampleClient "/v2/usercollection/personal_info"
    [] 0 exampleToken "denied" rfl (by decide) (by decide) (by decide) (by decide) rfl rfl
    rfl rfl

/-- C6: after a successful refresh `config.Save` has been invoked once if neither the
access-token nor the refresh-token override flag is set, and not at all if either is set.
The decision `persistAllowed` ignores the ClientID, ClientSecret, RedirectURI and Scopes
flags. -/
theorem tryRefresh_saves_unless_token_overridden (w : World) (c : Client)
    (h : (c.tryRefresh w).2 = (true, none)) :
    saveCalls (c.tryRefresh w).1.trace
      = saveCalls c.trace +
        (if c.envOverrides.AccessToken = false ∧ c.envOverrides.RefreshToken = false
          then 1 else 0) ∧
    ∀ a b d e : Bool,
      Client.persistAllowed
        { c with envOverrides :=
          { AccessToken := c.envOverrides.AccessToken
            RefreshToken := c.envOverrides.RefreshToken
            ClientID := a
            ClientSecret := b
            RedirectURI := d
            Scopes := e } }
        = c.persistAllowed := by
  refine ⟨?_, fun a b d e => rfl⟩
  unfold Client.tryRefresh at h ⊢
  cases hT : c.cfg.Token with
  | none => simp [hT] at h
  | some tok =>
    simp only [hT] at h ⊢
    split at h
    · simp at h
    · rename_i hR
      split at h
      · simp at h
      · rename_i hC
        simp only [hR, hC, if_false]
        have hp := postToken_counts w c.trace
          (refreshValues c.cfg.ClientID c.cfg.ClientSecret tok.RefreshToken)
        unfold RefreshToken at h ⊢
        rcases hpt : postToken w c.trace
          (refreshValues c.cfg.ClientID c.cfg.ClientSecret tok.RefreshToken) with ⟨tr, res⟩
        rw [hpt] at hp h
        cases res with
        | error e => simp at h
        | ok r =>
          simp only [Client.persistAllowed]
          have hs : saveCalls tr = saveCalls c.trace := hp.2.1
          by_cases hAT : c.envOverrides.AccessToken = true
          · simp [hAT, hs]
          · by_cases hRT : c.envOverrides.RefreshToken = true
            · simp [hAT, hRT, hs]
            · simp only [Bool.not_eq_true] at hAT hRT
              simp only [hAT, hRT]
              cases w.configSave (saveCalls tr) c.cfgPath
                  { c.cfg with Token := some (refreshedToken tok r
                      (w.formatRFC3339 (expiryInstant (w.now tr.length) r.ExpiresIn))) } <;>
                simp [Client.record, saveCalls_append, hs] <;> rfl

/-- Witness of C6: the refreshed token is saved once for a client without overrides and
not at all for a client whose access token comes from the environment. -/
theorem tryRefresh_saves_unless_token_overridden_witness :
    saveCalls (exampleClient.tryRefresh (exampleWorld 1 1)).1.trace = 1 ∧
    saveCalls (clientWithEnvToken.tryRefresh (exampleWorld 1 1)).1.trace = 0 :=
  ⟨(tryRefresh_saves_unless_token_overridden (exampleWorld 1 1) exampleClient rfl).1,
   (tryRefresh_saves_unless_token_overridden (exampleWorld 1 1) clientWithEnvToken rfl).1⟩

/-- C7, at the failing input `expires_in = 9223372037`: `time.Duration(expires_in) *
time.Second` wraps around to a negative number of nanoseconds, so the refresh at
2026-11-04T12:00:00Z stores an `expires_at` in the year 1734 where now + expires_in seconds
is in the year 2319. -/
theorem tryRefresh_expiry_wraps :
    (exampleClient.tryRefresh longLivedWorld).2 = (true, none) ∧
    (exampleClient.tryRefresh longLivedWorld).1.cfg.Token.map Token.ExpiresAt
      = some "1734-07-26T12:12:43Z" ∧
    rfc3339 (exampleNow + 9223372037 * 1000000000) = "2319-02-14T11:47:17Z" ∧
    expiryInstant exampleNow 9223372037 = exampleNow - 9223372036709551616 :=
  ⟨rfl, rfl, rfl, rfl⟩

/-! ## The claims on the loopback callback -/

/-- The send of the handler on fresh channels: an error goes to `errCh`, a code to
`codeCh`, and the `select` that follows has exactly that one case ready. -/
theorem selectResult_fresh (state : String) (q : Values) :
    selectResult (callbackHandler state AuthChans.fresh q).1 none
      = [(callbackDecision state q).2] := by
  unfold callbackHandler
  rcases hd : callbackDecision state q with ⟨resp, offer⟩
  cases offer <;> simp [selectResult, AuthChans.fresh, trySend]

/-- The response of the handler is the response of its decision. -/
theorem callbackHandler_response (state : String) (chans : AuthChans) (q : Values) :
    (callbackHandler state chans q).2 = (callbackDecision state q).1 := by
  unfold callbackHandler
  rcases hd : callbackDecision state q with ⟨resp, offer⟩
  cases offer <;> rfl

/-- The handler puts a code on `codeCh` only when its decision offers one. -/
theorem callbackHandler_codeCh (state : String) (chans : AuthChans) (q : Values) (e : String)
    (h : (callbackDecision state q).2 = .error e) :
    (callbackHandler state chans q).1.codeCh = chans.codeCh := by
  unfold callbackHandler
  rcases hd : callbackDecision state q with ⟨resp, offer⟩
  rw [hd] at h
  cases offer with
  | error e => rfl
  | ok code => cases h

/-- With a single callback delivered to the handler, `waitForAuthCode` ends in the
`select` over the channels as the handler leaves them. -/
theorem waitForAuthCode_delivered (l : Listener) (ctxErr : Option String)
    (redirectURI state path : String) (q : Values)
    (hd : l.delivers redirectURI path = true) :
    waitForAuthCode l ctxErr redirectURI state [.request path q]
      = selectResult (callbackHandler state AuthChans.fresh q).1 ctxErr := by
  unfold Listener.delivers at hd
  unfold waitForAuthCode
  cases hp : l.parse redirectURI with
  | error e => simp [hp] at hd
  | ok u =>
    simp only [hp, Bool.and_eq_true, Option.isNone_iff_eq_none] at hd
    simp only [hd.1, serve, hd.2, if_true]

/-- A single callback delivered to the handler decides what `waitForAuthCode` returns
when the context is not done. -/
theorem waitForAuthCode_single (l : Listener) (redirectURI state path : String) (q : Values)
    (hd : l.delivers redirectURI path = true) :
    waitForAuthCode l none redirectURI state [.request path q]
      = [(callbackDecision state q).2] := by
  rw [waitForAuthCode_delivered l none redirectURI state path q hd]
  exact selectResult_fresh state q

/-- Counterexample to C9, on a bound listener with a single callback: a matching state
without `code` resolves with the missing-code error and not with a code; a mismatching
state next to an `error` parameter resolves with the authorization error and not with the
state-mismatch error; with an empty expected state a callback whose state differs resolves
with its code. -/
theorem callback_state_not_decisive :
    waitForAuthCode exampleListener none exampleRedirect "S1"
        [.request "/callback" [("state", ["S1"])]]
      = [.error "missing code"] ∧
    waitForAuthCode exampleListener none exampleRedirect "S1"
        [.request "/callback" [("error", ["access_denied"]), ("state", ["S2"])]]
      = [.error "authorization error: access_denied"] ∧
    waitForAuthCode exampleListener none exampleRedirect ""
        [.request "/callback" [("code", ["XYZ"]), ("state", ["S2"])]]
      = [.ok "XYZ"] :=
  ⟨rfl, rfl, rfl⟩

/-- C9 (amended): on a bound listener, for a first callback without a non-empty `error`
parameter: if the expected state is non-empty and the callback's `state` differs from it,
the handler answers 400, offers no code and `waitForAuthCode` returns the state-mismatch
error; and `waitForAuthCode` returns a code exactly when the expected state is empty or
equal to the callback's `state` and `code` is non-empty, the code returned being the value
of `code`. -/
theorem callback_state_check (l : Listener) (redirectURI state path : String) (q : Values)
    (hd : l.delivers redirectURI path = true) (hE : q.Get "error" = "") :
    (state ≠ "" → q.Get "state" ≠ state →
      (∀ chans : AuthChans,
        (callbackHandler state chans q).2 = httpError "state mismatch" 400 ∧
        (callbackHandler state chans q).1.codeCh = chans.codeCh) ∧
      waitForAuthCode l none redirectURI state [.request path q]
        = [.error "state mismatch"]) ∧
    (∀ code : String,
      waitForAuthCode l none redirectURI state [.request path q] = [.ok code] ↔
        (state = "" ∨ q.Get "state" = state) ∧ q.Get "code" ≠ "" ∧ code = q.Get "code") := by
  rw [waitForAuthCode_single l redirectURI state path q hd]
  constructor
  · intro hs hne
    have hdec : callbackDecision state q
        = (httpError "state mismatch" 400, .error "state mismatch") := by
      simp [callbackDecision, hE, hs, hne]
    refine ⟨fun chans => ⟨?_, ?_⟩, by rw [hdec]⟩
    · rw [callbackHandler_response, hdec]
    · exact callbackHandler_codeCh state chans q _ (by rw [hdec])
  · intro code
    by_cases hs : state ≠ "" ∧ q.Get "state" ≠ state
    · have hdec : callbackDecision state q
          = (httpError "state mismatch" 400, .error "state mismatch") := by
        simp [callbackDecision, hE, hs.1, hs.2]
      rw [hdec]
      simp [hs.1, hs.2]
    · by_cases hc : q.Get "code" = ""
      · have hdec : callbackDecision state q
            = (httpError "missing code" 400, .error "missing code") := by
          simp only [callbackDecision, hE, hs, hc]
          simp
        rw [hdec]
        simp [hc]
      · have hdec : (callbackDecision state q).2 = .ok (q.Get "code") := by
          simp only [callbackDecision, hE, hs, hc]
          simp
        rw [hdec]
        have hs' : state = "" ∨ q.Get "state" = state := by
          by_cases h1 : state = ""
          · exact Or.inl h1
          · right
            by_contra h2
            exact hs ⟨h1, h2⟩
        constructor
        · intro h
          simp only [List.cons.injEq, Except.ok.injEq, and_true] at h
          exact ⟨hs', hc, h.symm⟩
        · rintro ⟨-, -, rfl⟩
          rfl

/-- Witness of C9 (amended): a callback whose state is not the expected one. -/
theorem callback_state_check_witness :
    waitForAuthCode exampleListener none exampleRedirect "S1"
        [.request "/callback" [("code", ["XYZ"]), ("state", ["S2"])]]
      = [.error "state mismatch"] :=
  ((callback_state_check exampleListener exampleRedirect "S1" "/callback"
    [("code", ["XYZ"]), ("state", ["S2"])] rfl rfl).1 (by decide) (by decide)).2

/-- C10: on a bound listener, for a first callback without a non-empty `error` parameter
and with an accepted state (the expected state is empty or equal to the callback's
`state`): if `code` is missing or empty the handler answers 400 and `waitForAuthCode`
returns the missing-code error; otherwise it answers 200 and `waitForAuthCode` returns
exactly the value of `code`. For every callback the status is 200 exactly when the handler
offers a code. -/
theorem callback_code (l : Listener) (redirectURI state path : String) (q : Values)
    (hd : l.delivers redirectURI path = true)
    (hE : q.Get "error" = "") (hS : state = "" ∨ q.Get "state" = state) :
    (q.Get "code" = "" →
      (∀ chans : AuthChans, (callbackHandler state chans q).2 = httpError "missing code" 400) ∧
      waitForAuthCode l none redirectURI state [.request path q] = [.error "missing code"]) ∧
    (q.Get "code" ≠ "" →
      (∀ chans : AuthChans,
        (callbackHandler state chans q).2.status = 200 ∧
        (callbackHandler state chans q).2.contentType = "text/plain") ∧
      waitForAuthCode l none redirectURI state [.request path q] = [.ok (q.Get "code")]) ∧
    (∀ (state' : String) (q' : Values),
      (callbackDecision state' q').1.status = 200 ↔
        ∃ code, (callbackDecision state' q').2 = .ok code) := by
  have hs : ¬ (state ≠ "" ∧ q.Get "state" ≠ state) := by
    rintro ⟨h1, h2⟩
    rcases hS with h | h
    · exact h1 h
    · exact h2 h
  rw [waitForAuthCode_single l redirectURI state path q hd]
  refine ⟨fun hc => ?_, fun hc => ?_, fun state' q' => ?_⟩
  · have hdec : callbackDecision state q
        = (httpError "missing code" 400, .error "missing code") := by
      simp only [callbackDecision, hE, hs, hc]
      simp
    refine ⟨fun chans => ?_, by rw [hdec]⟩
    rw [callbackHandler_response, hdec]
  · have hdec : callbackDecision state q
        = ({ status := 200, contentType := "text/plain",
             body := "Authorization complete. You can close this window.\n" },
           .ok (q.Get "code")) := by
      simp only [callbackDecision, hE, hs, hc]
      simp
    refine ⟨fun chans => ?_, by rw [hdec]⟩
    rw [callbackHandler_response, hdec]
    exact ⟨rfl, rfl⟩
  · unfold callbackDecision
    dsimp only
    split_ifs <;> simp [httpError]

/-- Witness of C10: `/callback?code=XYZ&state=S1` with the expected state `S1` resolves to
the code `XYZ`. -/
theorem callback_code_witness :
    waitForAuthCode exampleListener none exampleRedirect "S1"
        [.request "/callback" [("code", ["XYZ"]), ("state", ["S1"])]]
      = [.ok "XYZ"] :=
  ((callback_code exampleListener exampleRedirect "S1" "/callback"
    [("code", ["XYZ"]), ("state", ["S1"])] rfl rfl (Or.inr rfl)).2.1 (by decide)).2

/-! ## The claims on the callback sequence, the token exchange and the exit codes -/

/-- C17: with no token or an empty access token `Get` fails with the missing-access-token
error and returns the client as it was: nothing is added to the trace (no resource
request, no token request, no save) and the config is unchanged. -/
theorem Get_without_access_token (w : World) (c : Client) (path : String) (query : Values)
    (fuel : Nat)
    (h : c.cfg.Token = none ∨ ∃ tok, c.cfg.Token = some tok ∧ tok.AccessToken = "") :
    Client.Get w (fuel + 1) c path query = some (c, .error "missing access token") := by
  unfold Client.Get Client.doFuel
  rcases h with h | ⟨tok, h, ht⟩
  · simp [h]
  · simp [h, ht]

/-- Witness of C17: a config without token. -/
theorem Get_without_access_token_witness :
    Client.Get (exampleWorld 0 0) 1 clientWithoutToken "/v2/usercollection/personal_info" []
      = some (clientWithoutToken, .error "missing access token") :=
  Get_without_access_token (exampleWorld 0 0) clientWithoutToken
    "/v2/usercollection/personal_info" [] 0 (Or.inl rfl)

/-- Counterexample to C15: a 304 answer whose body decodes makes `postToken` succeed, and
the detail of a failure is the body with the surrounding white space removed, behind a
fixed text, not the body as it came. -/
theorem postToken_not_2xx :
    (postToken notModifiedWorld [] (refreshValues "id" "secret" "r0")).2
      = .ok { AccessToken := "t1", RefreshToken := "", ExpiresIn := 0, TokenType := "",
              Scope := "" } ∧
    (postToken paddedErrorWorld [] (refreshValues "id" "secret" "r0")).2
      = .error "token exchange failed: invalid_grant" :=
  ⟨rfl, rfl⟩

/-- C15 (amended): once the token endpoint has answered with a status and a body,
`postToken` fails for every status of 400 or more, the error being the text
`token exchange failed: ` followed by the body without its leading and trailing white
space; for a status below 400 its result is the result of decoding the body. -/
theorem postToken_status (w : World) (tr : List Event) (values : Values) (st : Int)
    (body : String) (hN : w.newRequest "POST" tokenURL = none)
    (hAns : w.tokenDo (tokenCalls tr) (tokenPost values) = .response st body) :
    (st ≥ 400 →
      (postToken w tr values).2 = .error ("token exchange failed: " ++ TrimSpace body)) ∧
    (st < 400 → (postToken w tr values).2 = w.jsonUnmarshal body) := by
  constructor
  · intro h
    simp [postToken, hN, hAns, h]
  · intro h
    have h' : ¬ st ≥ 400 := by omega
    simp only [postToken, hN, hAns, h', if_false]
    cases w.jsonUnmarshal body <;> rfl

/-- Witness of C15 (amended): the token endpoint answers 400. -/
theorem postToken_status_witness :
    (postToken paddedErrorWorld [] (refreshValues "id" "secret" "r0")).2
      = .error ("token exchange failed: " ++ TrimSpace "  invalid_grant\n") :=
  (postToken_status paddedErrorWorld [] (refreshValues "id" "secret" "r0") 400
    "  invalid_grant\n" rfl rfl).1 (by decide)

/-- Counterexample to C19: the status 429 gives the exit code 5. -/
theorem exitCodeForStatus_429 : exitCodeForStatus 429 = 5 := by
  decide

/-- C19 (amended): the exit code of a status is one of 0, 1, 2, 3, 5: 0 below 400, 2 for
400, 3 for 401, 5 for 429 and 1 for every other status of 400 or above. -/
theorem exitCodeForStatus_cases (status : Int) :
    (status < 400 → exitCodeForStatus status = 0) ∧
    exitCodeForStatus 400 = 2 ∧
    exitCodeForStatus 401 = 3 ∧
    exitCodeForStatus 429 = 5 ∧
    (status ≥ 400 → status ≠ 400 → status ≠ 401 → status ≠ 429 →
      exitCodeForStatus status = 1) ∧
    exitCodeForStatus status ∈ ([0, 1, 2, 3, 5] : List Int) := by
  refine ⟨fun h => ?_, by decide, by decide, by decide, fun h0 h1 h2 h3 => ?_, ?_⟩
  · unfold exitCodeForStatus
    have h1 : status ≠ 400 := by omega
    have h2 : status ≠ 401 := by omega
    have h3 : status ≠ 429 := by omega
    have h4 : ¬ status ≥ 400 := by omega
    simp [h1, h2, h3, h4]
  · unfold exitCodeForStatus
    simp [h0, h1, h2, h3]
  · unfold exitCodeForStatus
    split_ifs <;> simp

/-- A witness of C19 (amended): the status 503 gives the exit code 1. -/
theorem exitCodeForStatus_cases_witness : exitCodeForStatus 503 = 1 :=
  (exitCodeForStatus_cases 503).2.2.2.2.1 (by decide) (by decide) (by decide) (by decide)

/-- The channels after a run of routed requests: each channel keeps what it held, an empty
channel holds the first offer of its kind. -/
theorem serve_requests (routes : String → String → Bool) (pattern state : String) :
    ∀ (reqs : List (String × Values)) (chans : AuthChans),
      (∀ r ∈ reqs, routes pattern r.1 = true) →
      serve routes pattern state chans (requestEvents reqs) =
        { codeCh := chans.codeCh <|> firstCode (callbackOffers state reqs),
          errCh := chans.errCh <|> firstError (callbackOffers state reqs) } := by
  intro reqs
  induction reqs with
  | nil =>
    intro chans _
    cases chans with
    | mk a b => cases a <;> cases b <;> simp [serve, requestEvents, callbackOffers, firstCode, firstError]
  | cons r rest ih =>
    intro chans h
    have hr : routes pattern r.1 = true := h r (List.mem_cons_self _ _)
    have hrest : ∀ x ∈ rest, routes pattern x.1 = true :=
      fun x hx => h x (List.mem_cons_of_mem _ hx)
    have := ih (callbackHandler state chans r.2).1 hrest
    simp only [requestEvents, List.map_cons, serve, hr, if_true] at this ⊢
    rw [this]
    unfold callbackHandler
    simp only [callbackOffers, List.map_cons]
    rcases hd : callbackDecision state r.2 with ⟨resp, offer⟩
    cases chans with
    | mk a b =>
      cases offer <;> cases a <;> cases b <;> simp [trySend, firstCode, firstError]

theorem firstCode_append (a b : List (Except String String)) :
    firstCode (a ++ b) = (firstCode a <|> firstCode b) := by
  induction a with
  | nil => simp [firstCode]
  | cons x xs ih => cases x <;> simp [firstCode, ih]

theorem firstError_append (a b : List (Except String String)) :
    firstError (a ++ b) = (firstError a <|> firstError b) := by
  induction a with
  | nil => simp [firstError]
  | cons x xs ih => cases x <;> simp [firstError, ih]

theorem firstError_all_codes (a : List (Except String String))
    (h : ∀ x ∈ a, isCode x = true) : firstError a = none := by
  induction a with
  | nil => rfl
  | cons x xs ih =>
    cases x with
    | error e => have := h (.error e) (List.mem_cons_self _ _); simp [isCode] at this
    | ok c => simpa [firstError] using ih fun y hy => h y (List.mem_cons_of_mem _ hy)

theorem firstCode_all_errors (a : List (Except String String))
    (h : ∀ x ∈ a, isCode x = false) : firstCode a = none := by
  induction a with
  | nil => rfl
  | cons x xs ih =>
    cases x with
    | ok c => have := h (.ok c) (List.mem_cons_self _ _); simp [isCode] at this
    | error e => simpa [firstCode] using ih fun y hy => h y (List.mem_cons_of_mem _ hy)

/-- What `waitForAuthCode` can return after a run of routed requests, the context not being
done: the first code offered and the first error offered. -/
theorem waitForAuthCode_requests (l : Listener) (redirectURI state : String)
    (u : RedirectURL) (reqs : List (String × Values))
    (hp : l.parse redirectURI = .ok u) (hl : l.listen u.Host = none)
    (hr : ∀ r ∈ reqs, l.routes (callbackPath u) r.1 = true) :
    waitForAuthCode l none redirectURI state (requestEvents reqs)
      = (firstCode (callbackOffers state reqs)).toList.map Except.ok
        ++ (firstError (callbackOffers state reqs)).toList.map Except.error := by
  unfold waitForAuthCode
  simp only [hp, hl]
  rw [serve_requests l.routes (callbackPath u) state reqs AuthChans.fresh hr]
  simp only [AuthChans.fresh, selectResult]
  cases firstCode (callbackOffers state reqs) <;>
    cases firstError (callbackOffers state reqs) <;> simp

/-- Counterexample to C11: an error callback followed by a callback with a code fills both
channels, and the `select` of `waitForAuthCode` may return the code of the second callback
instead of the error of the first. -/
theorem second_callback_can_win :
    waitForAuthCode exampleListener none exampleRedirect "S1"
        (requestEvents [deniedCallback])
      = [.error "authorization error: access_denied"] ∧
    waitForAuthCode exampleListener none exampleRedirect "S1"
        (requestEvents [deniedCallback, codeCallback])
      = [.ok "XYZ", .error "authorization error: access_denied"] :=
  ⟨rfl, rfl⟩

/-- C11 (amended): for every sequence of callbacks that a bound listener hands to the
handler before the `select` of `waitForAuthCode` runs (the context not being done), no
callback blocks and `waitForAuthCode` returns the first code offered or the first error
offered in the sequence, either of the two when both exist. The outcome of the first
callback is always among these; it is the only one when all later callbacks offer the same
kind of outcome (all codes or all errors) as the first; and callbacks added at the end of
the sequence take nothing away from what can be returned. -/
theorem callbacks_first_of_each_kind (l : Listener) (redirectURI state : String)
    (u : RedirectURL) (reqs : List (String × Values))
    (hp : l.parse redirectURI = .ok u) (hl : l.listen u.Host = none)
    (hr : ∀ r ∈ reqs, l.routes (callbackPath u) r.1 = true) :
    waitForAuthCode l none redirectURI state (requestEvents reqs)
      = (firstCode (callbackOffers state reqs)).toList.map Except.ok
        ++ (firstError (callbackOffers state reqs)).toList.map Except.error ∧
    (∀ (r0 : String × Values) (rest : List (String × Values)), reqs = r0 :: rest →
      (callbackDecision state r0.2).2
        ∈ waitForAuthCode l none redirectURI state (requestEvents reqs)) ∧
    (∀ (r0 : String × Values) (rest : List (String × Values)), reqs = r0 :: rest →
      (∀ r ∈ rest, isCode (callbackDecision state r.2).2
        = isCode (callbackDecision state r0.2).2) →
      waitForAuthCode l none redirectURI state (requestEvents reqs)
        = [(callbackDecision state r0.2).2]) ∧
    (∀ more : List (String × Values),
      (∀ r ∈ more, l.routes (callbackPath u) r.1 = true) →
      ∀ x ∈ waitForAuthCode l none redirectURI state (requestEvents reqs),
        x ∈ waitForAuthCode l none redirectURI state (requestEvents (reqs ++ more))) := by
  have hw := waitForAuthCode_requests l redirectURI state u reqs hp hl hr
  refine ⟨hw, ?_, ?_, ?_⟩
  · intro r0 rest hreqs
    rw [hw, hreqs]
    simp only [callbackOffers, List.map_cons]
    cases (callbackDecision state r0.2).2 <;> simp [firstCode, firstError]
  · intro r0 rest hreqs hsame
    rw [hw, hreqs]
    simp only [callbackOffers, List.map_cons]
    cases h0 : (callbackDecision state r0.2).2 with
    | error e =>
      rw [h0] at hsame
      have : firstCode (rest.map fun r => (callbackDecision state r.2).2) = none := by
        apply firstCode_all_errors
        intro x hx
        obtain ⟨r, hr', rfl⟩ := List.mem_map.1 hx
        simpa [isCode] using hsame r hr'
      simp [firstCode, firstError, this]
    | ok c =>
      rw [h0] at hsame
      have : firstError (rest.map fun r => (callbackDecision state r.2).2) = none := by
        apply firstError_all_codes
        intro x hx
        obtain ⟨r, hr', rfl⟩ := List.mem_map.1 hx
        simpa [isCode] using hsame r hr'
      simp [firstCode, firstError, this]
  · intro more hmore x hx
    have hall : ∀ r ∈ reqs ++ more, l.routes (callbackPath u) r.1 = true := by
      intro r hr'
      rcases List.mem_append.1 hr' with h | h
      · exact hr r h
      · exact hmore r h
    rw [waitForAuthCode_requests l redirectURI state u (reqs ++ more) hp hl hall]
    rw [hw] at hx
    simp only [callbackOffers, List.map_append, firstCode_append, firstError_append]
    simp only [callbackOffers] at hx
    cases hc : firstCode (reqs.map fun r => (callbackDecision state r.2).2) <;>
      cases he : firstError (reqs.map fun r => (callbackDecision state r.2).2) <;>
      simp [hc, he] at hx ⊢
    · exact Or.inr hx
    · exact Or.inl hx
    · exact hx

/-- Witness of C11 (amended): an error callback followed by a callback with a code. -/
theorem callbacks_first_of_each_kind_witness :
    waitForAuthCode exampleListener none exampleRedirect "S1"
        (requestEvents [deniedCallback, codeCallback])
      = [.ok "XYZ", .error "authorization error: access_denied"] :=
  (callbacks_first_of_each_kind exampleListener exampleRedirect "S1" exampleURL
    [deniedCallback, codeCallback] rfl rfl (by decide)).1

/-! ## The claim on callbacks with an `error` parameter -/

/-- What `waitForAuthCode` can return after a run of routed requests: the first code
offered, the first error offered, and the error of the context if it is done. -/
theorem waitForAuthCode_requests_done (l : Listener) (ctxErr : Option String)
    (redirectURI state : String) (u : RedirectURL) (reqs : List (String × Values))
    (hp : l.parse redirectURI = .ok u) (hl : l.listen u.Host = none)
    (hr : ∀ r ∈ reqs, l.routes (callbackPath u) r.1 = true) :
    waitForAuthCode l ctxErr redirectURI state (requestEvents reqs)
      = (firstCode (callbackOffers state reqs)).toList.map Except.ok
        ++ (firstError (callbackOffers state reqs)).toList.map Except.error
        ++ ctxErr.toList.map Except.error := by
  unfold waitForAuthCode
  simp only [hp, hl]
  rw [serve_requests l.routes (callbackPath u) state reqs AuthChans.fresh hr]
  simp only [AuthChans.fresh, selectResult]
  cases firstCode (callbackOffers state reqs) <;>
    cases firstError (callbackOffers state reqs) <;> cases ctxErr <;> simp

/-- Counterexample to C8: after a callback with `error=access_denied` and a callback with
a code the wait can resolve with the code; after a callback without code and a callback
with `error=access_denied` it resolves with the missing-code error, not with the
authorization error of the first callback that has an `error` parameter. -/
theorem error_callback_not_decisive :
    Except.ok "XYZ" ∈ waitForAuthCode exampleListener none exampleRedirect "S1"
        (requestEvents [deniedCallback, codeCallback]) ∧
    waitForAuthCode exampleListener none exampleRedirect "S1"
        (requestEvents [missingCodeCallback, deniedCallback])
      = [.error "missing code"] := by
  refine ⟨?_, rfl⟩
  rw [show waitForAuthCode exampleListener none exampleRedirect "S1"
      (requestEvents [deniedCallback, codeCallback])
    = [.ok "XYZ", .error "authorization error: access_denied"] from rfl]
  exact List.mem_cons_self _ _

/-- C8 (amended): a callback with a non-empty `error` parameter gets a 400 whatever its
`state` and `code` are; the handler puts no code on `codeCh` and offers the authorization
error carrying the value of `error` to `errCh`, which takes it only when it is empty. In a
sequence of callbacks that a bound listener hands to the handler before the `select` of
`waitForAuthCode` runs: when no earlier callback of the sequence offered an error, the wait
resolves with that authorization error, or with the first code offered in the sequence if
a callback offers one, or with the error of the context if it is done; it resolves with a
code only when a callback of the sequence offers one, and with the authorization error
alone when the callback is the first of the sequence, no callback offers a code and the
context is not done. -/
theorem callback_error_parameter (l : Listener) (ctxErr : Option String)
    (redirectURI state : String) (u : RedirectURL) (before after : List (String × Values))
    (path : String) (q : Values)
    (hp : l.parse redirectURI = .ok u) (hl : l.listen u.Host = none)
    (hr : ∀ r ∈ before ++ (path, q) :: after, l.routes (callbackPath u) r.1 = true)
    (h : q.Get "error" ≠ "") :
    (∀ chans : AuthChans,
      (callbackHandler state chans q).2 = httpError "authorization failed" 400 ∧
      (callbackHandler state chans q).2.status = 400 ∧
      (callbackHandler state chans q).1.codeCh = chans.codeCh ∧
      (callbackHandler state chans q).1.errCh
        = (match chans.errCh with
            | none => some ("authorization error: " ++ q.Get "error")
            | some held => some held)) ∧
    ((∀ r ∈ before, isCode (callbackDecision state r.2).2 = true) →
      waitForAuthCode l ctxErr redirectURI state (requestEvents (before ++ (path, q) :: after))
        = (firstCode (callbackOffers state (before ++ after))).toList.map Except.ok
          ++ [.error ("authorization error: " ++ q.Get "error")]
          ++ ctxErr.toList.map Except.error) ∧
    (∀ code : String,
      Except.ok code ∈ waitForAuthCode l ctxErr redirectURI state
          (requestEvents (before ++ (path, q) :: after))
        ↔ firstCode (callbackOffers state (before ++ after)) = some code) ∧
    (before = [] → (∀ r ∈ after, isCode (callbackDecision state r.2).2 = false) →
      waitForAuthCode l none redirectURI state (requestEvents (before ++ (path, q) :: after))
        = [.error ("authorization error: " ++ q.Get "error")]) := by
  have hdec : callbackDecision state q
      = (httpError "authorization failed" 400,
          .error ("authorization error: " ++ q.Get "error")) := by
    simp [callbackDecision, h]
  have hw := waitForAuthCode_requests_done l ctxErr redirectURI state u
    (before ++ (path, q) :: after) hp hl hr
  have hoff : callbackOffers state (before ++ (path, q) :: after)
      = callbackOffers state before
        ++ .error ("authorization error: " ++ q.Get "error") :: callbackOffers state after := by
    simp [callbackOffers, hdec]
  have hcode : firstCode (callbackOffers state (before ++ (path, q) :: after))
      = firstCode (callbackOffers state (before ++ after)) := by
    rw [hoff, firstCode_append]
    simp only [firstCode]
    rw [← firstCode_append]
    simp [callbackOffers]
  refine ⟨fun chans => ⟨?_, ?_, ?_, ?_⟩, fun hfirst => ?_, fun code => ?_,
    fun hb hafter => ?_⟩
  · rw [callbackHandler_response, hdec]
  · rw [callbackHandler_response, hdec]
    rfl
  · exact callbackHandler_codeCh state chans q _ (by rw [hdec])
  · unfold callbackHandler
    rw [hdec]
    cases chans with
    | mk a b => cases b <;> rfl
  · have herr : firstError (callbackOffers state (before ++ (path, q) :: after))
        = some ("authorization error: " ++ q.Get "error") := by
      rw [hoff, firstError_append]
      have : firstError (callbackOffers state before) = none := by
        apply firstError_all_codes
        intro x hx
        obtain ⟨r, hr', rfl⟩ := List.mem_map.1 hx
        exact hfirst r hr'
      simp [this, firstError]
    rw [hw, hcode, herr]
    rfl
  · rw [hw, hcode]
    cases firstCode (callbackOffers state (before ++ after)) <;>
      cases firstError (callbackOffers state (before ++ (path, q) :: after)) <;>
      cases ctxErr <;> simp [eq_comm]
  · subst hb
    have hw0 := waitForAuthCode_requests_done l none redirectURI state u
      ([] ++ (path, q) :: after) hp hl hr
    rw [hw0, hcode]
    have hnone : firstCode (callbackOffers state ([] ++ after)) = none := by
      apply firstCode_all_errors
      intro x hx
      obtain ⟨r, hr', rfl⟩ := List.mem_map.1 hx
      exact hafter r (by simpa using hr')
    rw [hnone, hoff]
    simp [callbackOffers, firstError]

/-- Witness of C8 (amended): `error=access_denied` together with a matching state and a
code, followed by a callback without code and by a callback with the code `XYZ`; and the
same callback followed by the callback without code alone. -/
theorem callback_error_parameter_witness :
    waitForAuthCode exampleListener none exampleRedirect "S1"
        (requestEvents [("/callback", [("error", ["access_denied"]), ("state", ["S1"]),
          ("code", ["ABC"])]), missingCodeCallback, codeCallback])
      = [.ok "XYZ", .error "authorization error: access_denied"] ∧
    waitForAuthCode exampleListener none exampleRedirect "S1"
        (requestEvents [("/callback", [("error", ["access_denied"]), ("state", ["S1"]),
          ("code", ["ABC"])]), missingCodeCallback])
      = [.error "authorization error: access_denied"] :=
  ⟨(callback_error_parameter exampleListener none exampleRedirect "S1" exampleURL []
      [missingCodeCallback, codeCallback] "/callback"
      [("error", ["access_denied"]), ("state", ["S1"]), ("code", ["ABC"])] rfl rfl
      (by decide) (by decide)).2.1 (by simp),
   (callback_error_parameter exampleListener none exampleRedirect "S1" exampleURL []
      [missingCodeCallback] "/callback"
      [("error", ["access_denied"]), ("state", ["S1"]), ("code", ["ABC"])] rfl rfl
      (by decide) (by decide)).2.2.2 rfl (by decide)⟩

/-! ## The claim on `ApplyEnv` -/

/-- C20: `ApplyEnv` sets each override flag exactly when its `OURA_*` variable is
non-empty; a flagged field takes the value of the variable (the scopes its split list);
every other field keeps its loaded value, a token field of an absent token being empty;
and the token stays absent exactly when it was absent and neither token variable is
set. -/
theorem ApplyEnv_flags_and_fields (getenv : String → String) (cfg : Config) :
    ((ApplyEnv getenv cfg).2.ClientID = true ↔ getenv "OURA_CLIENT_ID" ≠ "") ∧
    ((ApplyEnv getenv cfg).2.ClientSecret = true ↔ getenv "OURA_CLIENT_SECRET" ≠ "") ∧
    ((ApplyEnv getenv cfg).2.RedirectURI = true ↔ getenv "OURA_REDIRECT_URI" ≠ "") ∧
    ((ApplyEnv getenv cfg).2.Scopes = true ↔ getenv "OURA_SCOPES" ≠ "") ∧
    ((ApplyEnv getenv cfg).2.AccessToken = true ↔ getenv "OURA_ACCESS_TOKEN" ≠ "") ∧
    ((ApplyEnv getenv cfg).2.RefreshToken = true ↔ getenv "OURA_REFRESH_TOKEN" ≠ "") ∧
    (ApplyEnv getenv cfg).1.ClientID
      = (if getenv "OURA_CLIENT_ID" ≠ "" then getenv "OURA_CLIENT_ID" else cfg.ClientID) ∧
    (ApplyEnv getenv cfg).1.ClientSecret
      = (if getenv "OURA_CLIENT_SECRET" ≠ "" then getenv "OURA_CLIENT_SECRET"
          else cfg.ClientSecret) ∧
    (ApplyEnv getenv cfg).1.RedirectURI
      = (if getenv "OURA_REDIRECT_URI" ≠ "" then getenv "OURA_REDIRECT_URI"
          else cfg.RedirectURI) ∧
    (ApplyEnv getenv cfg).1.Scopes
      = (if getenv "OURA_SCOPES" ≠ "" then splitScopes (getenv "OURA_SCOPES")
          else cfg.Scopes) ∧
    (tokenOrEmpty (ApplyEnv getenv cfg).1.Token).AccessToken
      = (if getenv "OURA_ACCESS_TOKEN" ≠ "" then getenv "OURA_ACCESS_TOKEN"
          else (tokenOrEmpty cfg.Token).AccessToken) ∧
    (tokenOrEmpty (ApplyEnv getenv cfg).1.Token).RefreshToken
      = (if getenv "OURA_REFRESH_TOKEN" ≠ "" then getenv "OURA_REFRESH_TOKEN"
          else (tokenOrEmpty cfg.Token).RefreshToken) ∧
    (tokenOrEmpty (ApplyEnv getenv cfg).1.Token).ExpiresAt
      = (tokenOrEmpty cfg.Token).ExpiresAt ∧
    (tokenOrEmpty (ApplyEnv getenv cfg).1.Token).TokenType
      = (tokenOrEmpty cfg.Token).TokenType ∧
    ((ApplyEnv getenv cfg).1.Token = none ↔
      cfg.Token = none ∧ getenv "OURA_ACCESS_TOKEN" = ""
        ∧ getenv "OURA_REFRESH_TOKEN" = "") := by
  unfold ApplyEnv
  dsimp only
  split_ifs <;> simp_all [tokenOrEmpty, noOverrides]

/-! ## Lemmas on the encoding and decoding of queries -/

set_option maxRecDepth 100000 in
theorem escapeByte_plain : ∀ b, b < 256 → shouldEscape b = false →
    (Char.ofNat b ≠ '%' ∧ Char.ofNat b ≠ '+' ∧ utf8Bytes (Char.ofNat b) = [b]) := by
  decide

set_option maxRecDepth 100000 in
theorem escapeByte_safe : ∀ b, b < 256 →
    (escapeByte b).all (fun c => c != '&' && c != '=' && c != ';') = true := by
  decide

set_option maxRecDepth 100000 in
theorem unhex_upperhex : ∀ n, n < 16 → unhex (upperhex n) = some n := by
  decide

theorem utf8Bytes_lt (c : Char) : ∀ b ∈ utf8Bytes c, b < 256 := by
  have hv : c.toNat < 1114112 := by
    have := c.valid
    unfold Char.toNat
    rcases this with h | ⟨_, h⟩ <;> omega
  intro b hb
  unfold utf8Bytes at hb
  dsimp only at hb
  split_ifs at hb <;> simp at hb <;> omega

theorem strBytes_lt (s : String) : ∀ b ∈ strBytes s, b < 256 := by
  intro b hb
  unfold strBytes at hb
  obtain ⟨c, -, hc⟩ := List.mem_flatMap.1 hb
  exact utf8Bytes_lt c b hc

theorem unescapeChars_percent (a b : Char) (rest : List Char) (x y : Nat)
    (ha : unhex a = some x) (hb : unhex b = some y) :
    unescapeChars ('%' :: a :: b :: rest)
      = (unescapeChars rest).map fun bs => (16 * x + y) :: bs := by
  simp [unescapeChars, ha, hb]

theorem unescapeChars_plus (rest : List Char) :
    unescapeChars ('+' :: rest) = (unescapeChars rest).map fun bs => 32 :: bs := by
  conv_lhs => unfold unescapeChars
  simp

theorem unescapeChars_other (c : Char) (rest : List Char) (h1 : c ≠ '%') (h2 : c ≠ '+') :
    unescapeChars (c :: rest) = (unescapeChars rest).map fun bs => utf8Bytes c ++ bs := by
  conv_lhs => unfold unescapeChars
  simp [h1, h2]

theorem unescapeChars_escapeByte (b : Nat) (hb : b < 256) (rest : List Char) :
    unescapeChars (escapeByte b ++ rest) = (unescapeChars rest).map fun bs => b :: bs := by
  unfold escapeByte
  by_cases hs : shouldEscape b = true
  · by_cases h32 : b = 32
    · subst h32
      simp only [hs, if_true, List.cons_append, List.nil_append]
      exact unescapeChars_plus rest
    · simp only [hs, h32, if_true, if_false, List.cons_append, List.nil_append]
      rw [unescapeChars_percent _ _ _ (b / 16) (b % 16)
        (unhex_upperhex _ (by omega)) (unhex_upperhex _ (by omega))]
      have : 16 * (b / 16) + b % 16 = b := by omega
      rw [this]
  · have hp := escapeByte_plain b hb (by simpa using hs)
    simp only [hs, if_false, List.cons_append, List.nil_append, Bool.false_eq_true]
    rw [unescapeChars_other _ _ hp.1 hp.2.1, hp.2.2]
    rfl

theorem unescapeChars_escape (bs : List Nat) (h : ∀ b ∈ bs, b < 256) (rest : List Char) :
    unescapeChars (bs.flatMap escapeByte ++ rest)
      = (unescapeChars rest).map fun out => bs ++ out := by
  induction bs with
  | nil => simp
  | cons b bs ih =>
    have hb : b < 256 := h b (List.mem_cons_self _ _)
    have hbs : ∀ x ∈ bs, x < 256 := fun x hx => h x (List.mem_cons_of_mem _ hx)
    simp only [List.flatMap_cons, List.append_assoc]
    rw [unescapeChars_escapeByte b hb, ih hbs]
    cases unescapeChars rest <;> simp

/-- Unescaping an escaped string gives back its bytes. -/
theorem unescapeChars_QueryEscape (s : String) :
    unescapeChars (QueryEscape s).data = some (strBytes s) := by
  have := unescapeChars_escape (strBytes s) (strBytes_lt s) []
  simpa [QueryEscape, unescapeChars] using this

/-- An escaped string has none of the characters that structure a query. -/
theorem QueryEscape_safe (s : String) :
    ∀ c ∈ (QueryEscape s).data, c ≠ '&' ∧ c ≠ '=' ∧ c ≠ ';' := by
  intro c hc
  unfold QueryEscape at hc
  obtain ⟨b, hb, hcb⟩ := List.mem_flatMap.1 hc
  have := escapeByte_safe b (strBytes_lt s b hb)
  rw [List.all_eq_true] at this
  have := this c hcb
  simp only [Bool.and_eq_true, bne_iff_ne, ne_eq] at this
  exact ⟨this.1.1, this.1.2, this.2⟩

theorem splitOnChar_safe (sep : Char) (xs : List Char) (h : sep ∉ xs) :
    splitOnChar sep xs = [xs] := by
  induction xs with
  | nil => rfl
  | cons c cs ih =>
    have hc : c ≠ sep := fun e => h (e ▸ List.mem_cons_self _ _)
    have hcs : sep ∉ cs := fun e => h (List.mem_cons_of_mem _ e)
    simp [splitOnChar, hc, ih hcs]

theorem splitOnChar_append (sep : Char) (xs ys : List Char) (h : sep ∉ xs) :
    splitOnChar sep (xs ++ sep :: ys) = xs :: splitOnChar sep ys := by
  induction xs with
  | nil => simp [splitOnChar]
  | cons c cs ih =>
    have hc : c ≠ sep := fun e => h (e ▸ List.mem_cons_self _ _)
    have hcs : sep ∉ cs := fun e => h (List.mem_cons_of_mem _ e)
    simp [splitOnChar, hc, ih hcs]

theorem cutAt_append (sep : Char) (xs ys : List Char) (h : sep ∉ xs) :
    cutAt sep (xs ++ sep :: ys) = (xs, ys) := by
  induction xs with
  | nil => simp [cutAt]
  | cons c cs ih =>
    have hc : c ≠ sep := fun e => h (e ▸ List.mem_cons_self _ _)
    have hcs : sep ∉ cs := fun e => h (List.mem_cons_of_mem _ e)
    simp [cutAt, hc, ih hcs]

/-- The characters of one `key=value` piece of an encoded query. -/
theorem pair_data (k v : String) :
    (QueryEscape k ++ "=" ++ QueryEscape v).data
      = (QueryEscape k).data ++ '=' :: (QueryEscape v).data := by
  simp [String.data_append]

theorem parsePair_encoded (k v : String) :
    parsePair ((QueryEscape k).data ++ '=' :: (QueryEscape v).data)
      = some (strBytes k, strBytes v) := by
  have hk := QueryEscape_safe k
  have hv := QueryEscape_safe v
  have h1 : ';' ∉ (QueryEscape k).data ++ '=' :: (QueryEscape v).data := by
    intro hmem
    rcases List.mem_append.1 hmem with h | h
    · exact (hk _ h).2.2 rfl
    · rcases List.mem_cons.1 h with h | h
      · exact absurd h (by decide)
      · exact (hv _ h).2.2 rfl
  have h2 : (QueryEscape k).data ++ '=' :: (QueryEscape v).data ≠ [] := by simp
  have h3 : '=' ∉ (QueryEscape k).data := fun h => (hk _ h).2.1 rfl
  unfold parsePair
  rw [if_neg h1, if_neg h2, cutAt_append _ _ _ h3]
  simp only [unescapeChars_QueryEscape]

theorem pair_no_amp (k v : String) :
    '&' ∉ (QueryEscape k).data ++ '=' :: (QueryEscape v).data := by
  intro hmem
  rcases List.mem_append.1 hmem with h | h
  · exact (QueryEscape_safe k _ h).1 rfl
  · rcases List.mem_cons.1 h with h | h
    · exact absurd h (by decide)
    · exact (QueryEscape_safe v _ h).1 rfl

theorem intercalate_go_data (as : List String) (acc : String) :
    (String.intercalate.go acc "&" as).data
      = acc.data ++ as.flatMap fun a => '&' :: a.data := by
  induction as generalizing acc with
  | nil => simp [String.intercalate.go]
  | cons a as ih =>
    simp [String.intercalate.go, ih, String.data_append]

theorem parse_joined (ps : List (String × String)) (k v : String) :
    (splitOnChar '&' (((QueryEscape k).data ++ '=' :: (QueryEscape v).data) ++
        (ps.map fun p => QueryEscape p.1 ++ "=" ++ QueryEscape p.2).flatMap
          fun a => '&' :: a.data)).filterMap parsePair
      = pairBytes ((k, v) :: ps) := by
  induction ps generalizing k v with
  | nil =>
    simp only [List.map_nil, List.flatMap_nil, List.append_nil]
    rw [splitOnChar_safe _ _ (pair_no_amp k v)]
    simp [parsePair_encoded, pairBytes]
  | cons p ps ih =>
    simp only [List.map_cons, List.flatMap_cons, List.cons_append]
    rw [splitOnChar_append _ _ _ (pair_no_amp k v)]
    simp only [List.filterMap_cons, parsePair_encoded, pair_data]
    rw [ih p.1 p.2]
    simp [pairBytes]

/-- Decoding an encoded query gives back its pairs, in the order of the encoding. -/
theorem ParseQuery_Encode (v : Values) :
    ParseQuery v.Encode = pairBytes (Values.pairs v) := by
  have henc : v.Encode = "&".intercalate
      ((Values.pairs v).map fun p => QueryEscape p.1 ++ "=" ++ QueryEscape p.2) := by
    simp [Values.Encode, Values.pairs, List.map_flatMap, List.map_map, Function.comp_def]
  rw [henc]
  unfold ParseQuery
  cases hps : Values.pairs v with
  | nil => simp [String.intercalate, splitOnChar, parsePair, pairBytes]
  | cons p ps =>
    simp only [List.map_cons, String.intercalate]
    rw [intercalate_go_data, pair_data]
    exact parse_joined ps p.1 p.2

/-! ## The claims on `BuildAuthURL` -/

/-- The pairs that `BuildAuthURL` encodes: the three fixed parameters, then the scope if
there are scopes, then the state if it is not empty. -/
theorem authQuery_pairs (clientID redirectURI state : String) (scopes : List String) :
    Values.pairs (authQuery clientID redirectURI state scopes)
      = [("client_id", clientID), ("redirect_uri", redirectURI), ("response_type", "code")]
        ++ (if scopes.length > 0 then [("scope", Join scopes " ")] else [])
        ++ (if state ≠ "" then [("state", state)] else []) := by
  unfold authQuery
  have h0 : ¬ ([] : List String).length > 0 := by simp
  by_cases hs : state = ""
  · have hs' : ¬ state ≠ "" := by simp [hs]
    cases scopes with
    | nil =>
      simp only [if_neg h0, if_neg hs']
      rfl
    | cons a as =>
      have h1 : (a :: as).length > 0 := by simp
      simp only [if_pos h1, if_neg hs']
      rfl
  · have hs' : state ≠ "" := hs
    cases scopes with
    | nil =>
      simp only [if_neg h0, if_pos hs']
      rfl
    | cons a as =>
      have h1 : (a :: as).length > 0 := by simp
      simp only [if_pos h1, if_pos hs']
      rfl

/-- Counterexample to C12: with the state `S1` the URL has `response_type=code` between
the redirect URI and the scope, so the substring of the claim does not occur in it. -/
theorem authURL_substring_absent :
    BuildAuthURL "abc" "http://127.0.0.1:8797/callback" "S1" ["daily", "heartrate"]
      = .ok "https://cloud.ouraring.com/oauth/authorize?client_id=abc&redirect_uri=http%3A%2F%2F127.0.0.1%3A8797%2Fcallback&response_type=code&scope=daily+heartrate&state=S1" ∧
    Contains "https://cloud.ouraring.com/oauth/authorize?client_id=abc&redirect_uri=http%3A%2F%2F127.0.0.1%3A8797%2Fcallback&response_type=code&scope=daily+heartrate&state=S1"
      "client_id=abc&redirect_uri=http%3A%2F%2F127.0.0.1%3A8797%2Fcallback&scope=daily+heartrate"
      = false :=
  ⟨rfl, by decide⟩

/-- C12 (amended): for a non-empty state `s` the URL is the authorization endpoint followed
by `?client_id=abc&redirect_uri=http%3A%2F%2F127.0.0.1%3A8797%2Fcallback&response_type=code&scope=daily+heartrate&state=`
and the escaped `s`: the parameters come in the order of their keys, with
`response_type=code` between the redirect URI and the scope, and the query decodes to these
five parameters, the state being `s`. -/
theorem authURL_example (s : String) (hs : s ≠ "") :
    BuildAuthURL "abc" "http://127.0.0.1:8797/callback" s ["daily", "heartrate"]
      = .ok (authorizeURL ++ "?" ++
          ("client_id=abc&redirect_uri=http%3A%2F%2F127.0.0.1%3A8797%2Fcallback&response_type=code&scope=daily+heartrate&state="
            ++ QueryEscape s)) ∧
    Contains
      ("client_id=abc&redirect_uri=http%3A%2F%2F127.0.0.1%3A8797%2Fcallback&response_type=code&scope=daily+heartrate&state="
        ++ QueryEscape s)
      "client_id=abc&redirect_uri=http%3A%2F%2F127.0.0.1%3A8797%2Fcallback&response_type=code&scope=daily+heartrate"
      = true ∧
    ParseQuery
      ("client_id=abc&redirect_uri=http%3A%2F%2F127.0.0.1%3A8797%2Fcallback&response_type=code&scope=daily+heartrate&state="
        ++ QueryEscape s)
      = pairBytes [("client_id", "abc"), ("redirect_uri", "http://127.0.0.1:8797/callback"),
          ("response_type", "code"), ("scope", "daily heartrate"), ("state", s)] := by
  have hq : (authQuery "abc" "http://127.0.0.1:8797/callback" s ["daily", "heartrate"]).Encode
      = "client_id=abc&redirect_uri=http%3A%2F%2F127.0.0.1%3A8797%2Fcallback&response_type=code&scope=daily+heartrate&state="
        ++ QueryEscape s := by
    unfold authQuery
    have h1 : ["daily", "heartrate"].length > 0 := by decide
    simp only [if_pos hs, if_pos h1]
    rfl
  refine ⟨?_, rfl, ?_⟩
  · unfold BuildAuthURL
    rw [hq]
    rfl
  · have h1 : ["daily", "heartrate"].length > 0 := by decide
    rw [← hq, ParseQuery_Encode, authQuery_pairs, if_pos hs, if_pos h1]
    rfl

/-- Witness of C12 (amended): the state `S1`. -/
theorem authURL_example_witness :
    BuildAuthURL "abc" "http://127.0.0.1:8797/callback" "S1" ["daily", "heartrate"]
      = .ok "https://cloud.ouraring.com/oauth/authorize?client_id=abc&redirect_uri=http%3A%2F%2F127.0.0.1%3A8797%2Fcallback&response_type=code&scope=daily+heartrate&state=S1" :=
  (authURL_example "S1" (by decide)).1

/-- C13: `BuildAuthURL` fails exactly when the client id or the redirect URI is empty;
otherwise it returns the authorization endpoint, `?` and a query that decodes to exactly
`client_id`, `redirect_uri`, `response_type=code`, then `scope` (the scopes joined by single
spaces) if there are scopes, then `state` if the state is not empty. -/
theorem BuildAuthURL_result (clientID redirectURI state : String) (scopes : List String) :
    ((∃ err, BuildAuthURL clientID redirectURI state scopes = .error err)
      ↔ clientID = "" ∨ redirectURI = "") ∧
    (clientID ≠ "" → redirectURI ≠ "" →
      ∃ query : String,
        BuildAuthURL clientID redirectURI state scopes
          = .ok (authorizeURL ++ "?" ++ query) ∧
        ParseQuery query = pairBytes
          ([("client_id", clientID), ("redirect_uri", redirectURI),
              ("response_type", "code")]
            ++ (if scopes.length > 0 then [("scope", " ".intercalate scopes)] else [])
            ++ (if state ≠ "" then [("state", state)] else []))) := by
  constructor
  · unfold BuildAuthURL
    by_cases h1 : clientID = ""
    · simp [h1]
    · by_cases h2 : redirectURI = ""
      · simp [h1, h2]
      · simp [h1, h2]
  · intro h1 h2
    refine ⟨(authQuery clientID redirectURI state scopes).Encode, ?_, ?_⟩
    · simp [BuildAuthURL, h1, h2]
    · rw [ParseQuery_Encode, authQuery_pairs]
      rfl

/-- Witness of C13: the login of the examples. -/
theorem BuildAuthURL_result_witness :
    ∃ query : String,
      BuildAuthURL "abc" "http://127.0.0.1:8797/callback" "S1" ["daily", "heartrate"]
        = .ok (authorizeURL ++ "?" ++ query) ∧
      ParseQuery query = pairBytes
        [("client_id", "abc"), ("redirect_uri", "http://127.0.0.1:8797/callback"),
          ("response_type", "code"), ("scope", "daily heartrate"), ("state", "S1")] :=
  (BuildAuthURL_result "abc" "http://127.0.0.1:8797/callback" "S1" ["daily", "heartrate"]).2
    (by decide) (by decide)

/-! ## The claims on the login and on `list` -/

/-- A trace in which neither the loopback listener nor a browser is started. -/
theorem quiet_append (a b : List Event)
    (ha : ∀ e ∈ a, e.startsListenerOrBrowser = false)
    (hb : ∀ e ∈ b, e.startsListenerOrBrowser = false) :
    ∀ e ∈ a ++ b, e.startsListenerOrBrowser = false := by
  intro e he
  rcases List.mem_append.1 he with h | h
  · exact ha e h
  · exact hb e h

theorem loadConfig_quiet (sys : Sys) (opts : GlobalOptions) :
    ∀ e ∈ (loadConfig sys opts []).1, e.startsListenerOrBrowser = false := by
  unfold loadConfig
  dsimp only
  split
  · simp
  · split <;> simp [Event.startsListenerOrBrowser]

theorem loginSecretFile_quiet (sys : Sys) (flags : LoginFlags) (tr tr1 : List Event)
    (cfg cfg1 : Config) (h : loginSecretFile sys flags tr cfg = .ok (tr1, cfg1))
    (ht : ∀ e ∈ tr, e.startsListenerOrBrowser = false) :
    ∀ e ∈ tr1, e.startsListenerOrBrowser = false := by
  unfold loginSecretFile readSecretFile at h
  split at h
  · split at h
    · cases h
    · rename_i tr2 secret heq
      split at h
      · cases h
      · simp only [Except.ok.injEq, Prod.mk.injEq] at h
        obtain ⟨rfl, -⟩ := h
        split at heq <;> simp only [Prod.mk.injEq] at heq <;> obtain ⟨rfl, -⟩ := heq <;>
          exact quiet_append _ _ ht (by simp [Event.startsListenerOrBrowser])
  · simp only [Except.ok.injEq, Prod.mk.injEq] at h
    obtain ⟨rfl, -⟩ := h
    exact ht

theorem promptString_quiet (sys : Sys) (tr : List Event) (prompt : String) (noInput : Bool)
    (ht : ∀ e ∈ tr, e.startsListenerOrBrowser = false) :
    ∀ e ∈ (promptString sys tr prompt noInput).1, e.startsListenerOrBrowser = false := by
  unfold promptString
  split
  · exact ht
  · split
    · exact ht
    · dsimp only
      split <;> exact quiet_append _ _ ht (by simp [Event.startsListenerOrBrowser])

theorem promptSecret_quiet (sys : Sys) (tr : List Event) (noInput : Bool)
    (ht : ∀ e ∈ tr, e.startsListenerOrBrowser = false) :
    ∀ e ∈ (promptSecret sys tr noInput).1, e.startsListenerOrBrowser = false := by
  unfold promptSecret
  split
  · exact ht
  · split
    · exact ht
    · exact quiet_append _ _ ht (by simp [Event.startsListenerOrBrowser])

theorem loginClientID_quiet (sys : Sys) (opts : GlobalOptions) (tr tr1 : List Event)
    (cfg cfg1 : Config) (h : loginClientID sys opts tr cfg = .ok (tr1, cfg1))
    (ht : ∀ e ∈ tr, e.startsListenerOrBrowser = false) :
    ∀ e ∈ tr1, e.startsListenerOrBrowser = false := by
  unfold loginClientID at h
  split at h
  · have hq := promptString_quiet sys tr "Client ID: " opts.NoInput ht
    split at h
    · cases h
    · rename_i tr2 val heq
      rw [heq] at hq
      split at h
      · cases h
      · simp only [Except.ok.injEq, Prod.mk.injEq] at h
        obtain ⟨rfl, -⟩ := h
        exact hq
  · simp only [Except.ok.injEq, Prod.mk.injEq] at h
    obtain ⟨rfl, -⟩ := h
    exact ht

theorem loginClientSecret_quiet (sys : Sys) (opts : GlobalOptions) (tr tr1 : List Event)
    (cfg cfg1 : Config) (h : loginClientSecret sys opts tr cfg = .ok (tr1, cfg1))
    (ht : ∀ e ∈ tr, e.startsListenerOrBrowser = false) :
    ∀ e ∈ tr1, e.startsListenerOrBrowser = false := by
  unfold loginClientSecret at h
  split at h
  · have hq := promptSecret_quiet sys tr opts.NoInput ht
    split at h
    · cases h
    · rename_i tr2 val heq
      rw [heq] at hq
      split at h
      · cases h
      · simp only [Except.ok.injEq, Prod.mk.injEq] at h
        obtain ⟨rfl, -⟩ := h
        exact hq
  · simp only [Except.ok.injEq, Prod.mk.injEq] at h
    obtain ⟨rfl, -⟩ := h
    exact ht

/-- The setup of the login starts neither the loopback listener nor a browser. -/
theorem loginSetup_quiet (sys : Sys) (opts : GlobalOptions) (flags : LoginFlags)
    (s : LoginSetup) (h : loginSetup sys opts flags = .ok s) :
    ∀ e ∈ s.trace, e.startsListenerOrBrowser = false := by
  unfold loginSetup at h
  split at h
  · cases h
  · split at h
    · cases h
    · have h0 := loadConfig_quiet sys opts
      split at h
      · cases h
      · rename_i tr loaded heq
        rw [heq] at h0
        split at h
        · cases h
        · rename_i tr1 cfg1 h1
          have q1 := loginSecretFile_quiet sys flags tr tr1 _ cfg1 h1 h0
          split at h
          · cases h
          · rename_i tr2 cfg2 h2
            have q2 := loginClientID_quiet sys opts tr1 tr2 _ cfg2 h2 q1
            split at h
            · cases h
            · rename_i tr3 cfg3 h3
              have q3 := loginClientSecret_quiet sys opts tr2 tr3 _ cfg3 h3 q2
              unfold loginAuthURL at h
              split at h
              · cases h
              · split at h
                · cases h
                · simp only [Except.ok.injEq] at h
                  subst h
                  exact q3

/-- C18: `validateLoopbackRedirect` accepts a redirect URI exactly when it parses with the
scheme `http`, the host name `127.0.0.1` or `localhost` and a non-empty port. When it
rejects the redirect URI of a login without `--paste`, the login writes two error messages
after its setup and exits with code 2; neither the listener nor a browser is started. -/
theorem login_rejects_non_loopback (sys : Sys) (opts : GlobalOptions) (flags : LoginFlags)
    (s : LoginSetup) (redirectURI : String) :
    (validateLoopbackRedirect sys.listener.parse redirectURI = none ↔
      ∃ u, sys.listener.parse redirectURI = .ok u ∧ u.Scheme = "http" ∧
        (u.Hostname = "127.0.0.1" ∨ u.Hostname = "localhost") ∧ u.Port ≠ "") ∧
    (flags.paste = false → loginSetup sys opts flags = .ok s →
      ∀ err, validateLoopbackRedirect sys.listener.parse s.cfg.RedirectURI = some err →
        runAuthLogin sys opts flags
          = [(2, s.trace ++
              [Event.errorf ("redirect uri invalid for local server: " ++ err),
               Event.errorf "use --paste for manual flow"])] ∧
        ∀ e ∈ s.trace ++
            [Event.errorf ("redirect uri invalid for local server: " ++ err),
             Event.errorf "use --paste for manual flow"],
          e.startsListenerOrBrowser = false) := by
  constructor
  · unfold validateLoopbackRedirect
    cases hp : sys.listener.parse redirectURI with
    | error e => simp
    | ok u =>
      simp only [Except.ok.injEq, exists_eq_left']
      by_cases h1 : u.Scheme = "http"
      · by_cases h2 : u.Hostname = "127.0.0.1" ∨ u.Hostname = "localhost"
        · by_cases h3 : u.Port = ""
          · have h2' : ¬ (u.Hostname ≠ "127.0.0.1" ∧ u.Hostname ≠ "localhost") := by
              rintro ⟨a, b⟩
              rcases h2 with h | h
              · exact a h
              · exact b h
            simp [h1, h2', h3]
          · have h2' : ¬ (u.Hostname ≠ "127.0.0.1" ∧ u.Hostname ≠ "localhost") := by
              rintro ⟨a, b⟩
              rcases h2 with h | h
              · exact a h
              · exact b h
            simp [h1, h2', h3, h2]
        · have h2' : u.Hostname ≠ "127.0.0.1" ∧ u.Hostname ≠ "localhost" := by
            constructor
            · exact fun h => h2 (Or.inl h)
            · exact fun h => h2 (Or.inr h)
          simp [h1, h2', h2]
      · simp [h1]
  · intro hpaste hs err hv
    refine ⟨?_, quiet_append _ _ (loginSetup_quiet sys opts flags s hs)
      (by simp [Event.startsListenerOrBrowser])⟩
    simp [runAuthLogin, hs, loginAwaitCode, hpaste, hv]

/-- Witness of C18: a login with the redirect URI `https://example.com/callback`. -/
theorem login_rejects_non_loopback_witness :
    runAuthLogin exampleSys exampleOpts remoteLogin
      = [(2, [Event.loadConfig "/home/u/.config/oura/config.json",
          Event.errorf "redirect uri invalid for local server: redirect uri must be http",
          Event.errorf "use --paste for manual flow"])] :=
  ((login_rejects_non_loopback exampleSys exampleOpts remoteLogin remoteSetup
    remoteRedirect).2 rfl rfl "redirect uri must be http" rfl).1

/-- The token that login builds, field by field: the access token, the refresh token and
the token type of the response; no `expires_at` unless `expires_in > 0`; the rendering of
now + `expires_in` seconds as long as the duration fits `int64` nanoseconds. -/
theorem loginToken_fields (w : World) (k : Nat) (r : TokenResponse) :
    (loginToken w k r).AccessToken = r.AccessToken ∧
    (loginToken w k r).RefreshToken = r.RefreshToken ∧
    (loginToken w k r).TokenType = r.TokenType ∧
    (r.ExpiresIn ≤ 0 → (loginToken w k r).ExpiresAt = "") ∧
    (0 < r.ExpiresIn →
      (loginToken w k r).ExpiresAt = w.formatRFC3339 (expiryInstant (w.now k) r.ExpiresIn)) ∧
    (0 < r.ExpiresIn → r.ExpiresIn ≤ 9223372036 →
      (loginToken w k r).ExpiresAt
        = w.formatRFC3339 (w.now k + r.ExpiresIn * 1000000000)) := by
  unfold loginToken
  dsimp only
  refine ⟨?_, ?_, ?_, ?_, ?_, ?_⟩
  · split_ifs <;> rfl
  · split_ifs <;> rfl
  · split_ifs <;> rfl
  · intro h
    have : ¬ r.ExpiresIn > 0 := by omega
    simp [this]
  · intro h
    simp [h]
  · intro h0 h1
    rw [← expiryInstant_exact _ _ h0 h1]
    simp [h0]

/-- The scenario of the spec: `{"access_token":"A","expires_in":3600}` at
2026-11-04T12:00:00Z gives a token that expires at 13:00:00Z, written without a
`refresh_token` field. -/
theorem loginToken_hour :
    loginToken (exampleWorld 1 1) 0 hourResponse
      = { AccessToken := "A", RefreshToken := "", ExpiresAt := "2026-11-04T13:00:00Z",
          TokenType := "" } ∧
    (loginToken (exampleWorld 1 1) 0 hourResponse).jsonFields
      = [("access_token", "A"), ("expires_at", "2026-11-04T13:00:00Z")] :=
  ⟨rfl, rfl⟩

/-- C14, at the failing input `expires_in = 9223372037`: `time.Duration(expires_in) *
time.Second` wraps around to a negative number of nanoseconds, so the login at
2026-11-04T12:00:00Z saves a token whose `expires_at` is in the year 1734 where now +
`expires_in` seconds is in the year 2319. -/
theorem login_expiry_wraps :
    (runAuthLogin longLivedSys exampleOpts plainLogin).map
        (fun out => (out.1, savedTokens out.2))
      = [(0, [some { AccessToken := "t1", RefreshToken := "",
                     ExpiresAt := "1734-07-26T12:12:43Z", TokenType := "" }])] ∧
    rfc3339 (exampleNow + 9223372037 * 1000000000) = "2319-02-14T11:47:17Z" := by
  set_option maxRecDepth 100000 in
  exact ⟨rfl, rfl⟩

/-- A resource without date filters refuses them. -/
theorem buildListQuery_rejects_dates (sys : Sys) (resource : Resource)
    (startDate endDate startDateTime endDateTime nextToken : String)
    (hk : resource.Query = QueryNone ∨ resource.Query = QueryNextTokenOnly)
    (hd : startDate ≠ "" ∨ endDate ≠ "" ∨ startDateTime ≠ "" ∨ endDateTime ≠ "") :
    buildListQuery sys resource startDate endDate startDateTime endDateTime nextToken
      = .error (if resource.Query = QueryNone then "resource does not accept date filters"
          else "resource only accepts next_token") := by
  unfold buildListQuery
  rcases hk with hk | hk
  · simp [hk, hd]
  · have : ¬ QueryNextTokenOnly = QueryNone := by decide
    simp [hk, hd, this]

/-- Counterexample to C16: with `--help` the list of `ring_configuration` with a start
date writes the usage and exits with code 0. -/
theorem list_help_exits_zero :
    runList exampleSys 1 exampleOpts { ringList with help := true }
      = some (0, [Event.write listUsage]) :=
  rfl

/-- C16 (amended): for a list invocation that names a resource of kind `QueryNone` or
`QueryNextTokenOnly` and has a non-empty start or end date or date-time, `buildListQuery`
returns a validation error; `runList` returns for every fuel, loads no config and makes no
request, and exits with code 2, unless the flags parsed and asked for help: then it writes
the usage and exits with code 0. -/
theorem list_rejects_dates (sys : Sys) (fuel : Nat) (opts : GlobalOptions) (flags : ListFlags)
    (name : String) (rest : List String) (resource : Resource)
    (hrest : flags.rest = name :: rest)
    (hl : LookupResource sys.toLower name = some resource)
    (hk : resource.Query = QueryNone ∨ resource.Query = QueryNextTokenOnly)
    (hd : flags.startDate ≠ "" ∨ flags.endDate ≠ "" ∨ flags.startDateTime ≠ ""
      ∨ flags.endDateTime ≠ "") :
    (∃ err, buildListQuery sys resource flags.startDate flags.endDate flags.startDateTime
      flags.endDateTime flags.nextToken = .error err) ∧
    (∃ code tr, runList sys fuel opts flags = some (code, tr) ∧
      (∀ e ∈ tr, e.loadsOrCalls = false) ∧
      (code = 2 ∨ (code = 0 ∧ flags.parseErr = none ∧ flags.help = true)) ∧
      (flags.help = false → code = 2)) ∧
    (flags.parseErr = none → flags.help = true →
      runList sys fuel opts flags = some (0, [Event.write listUsage])) := by
  have hq := buildListQuery_rejects_dates sys resource flags.startDate flags.endDate
    flags.startDateTime flags.endDateTime flags.nextToken hk hd
  refine ⟨⟨_, hq⟩, ?_, ?_⟩
  · unfold runList
    cases hp : flags.parseErr with
    | some err =>
      exact ⟨2, _, rfl, by simp [Event.loadsOrCalls], Or.inl rfl, fun _ => rfl⟩
    | none =>
      by_cases hh : flags.help = true
      · exact ⟨0, [Event.write listUsage], by simp [hh], by simp [Event.loadsOrCalls],
          Or.inr ⟨rfl, rfl, hh⟩, fun h => by simp [hh] at h⟩
      · by_cases hs : resource.SupportsList = true
        · exact ⟨2, [Event.errorf ("invalid query: " ++
              (if resource.Query = QueryNone then "resource does not accept date filters"
                else "resource only accepts next_token"))],
            by simp [hh, hrest, hl, hs, hq], by simp [Event.loadsOrCalls],
            Or.inl rfl, fun _ => rfl⟩
        · exact ⟨2, [Event.errorf ("resource is not listable: " ++ resource.Key)],
            by simp [hh, hrest, hl, hs], by simp [Event.loadsOrCalls],
            Or.inl rfl, fun _ => rfl⟩
  · intro hp hh
    simp [runList, hp, hh]

/-- Witness of C16 (amended): `oura list --start-date 2024-01-01 ring_configuration`. -/
theorem list_rejects_dates_witness :
    ∃ code tr, runList exampleSys 1 exampleOpts ringList = some (code, tr) ∧
      (∀ e ∈ tr, e.loadsOrCalls = false) ∧
      (code = 2 ∨ (code = 0 ∧ ringList.parseErr = none ∧ ringList.help = true)) ∧
      (ringList.help = false → code = 2) :=
  (list_rejects_dates exampleSys 1 exampleOpts ringList "ring_configuration" []
    (listed "ring_configuration" QueryNextTokenOnly) rfl rfl (Or.inr rfl)
    (Or.inl (by decide))).2.1

/-! ## The claim on the stored token -/

theorem savedTokens_append (a b : List Event) :
    savedTokens (a ++ b) = savedTokens a ++ savedTokens b := by
  simp [savedTokens, List.filterMap_append]

theorem postToken_saved (w : World) (tr : List Event) (values : Values) :
    savedTokens (postToken w tr values).1 = savedTokens tr := by
  unfold postToken
  split
  · rfl
  · dsimp only
    split
    · simp [savedTokens_append, savedTokens]
    · simp [savedTokens_append, savedTokens]
    · split
      · simp [savedTokens_append, savedTokens]
      · split <;> simp [savedTokens_append, savedTokens]

theorem tokenRequests_append (a b : List Event) :
    tokenRequests (a ++ b) = tokenRequests a ++ tokenRequests b := by
  simp [tokenRequests, List.filterMap_append]

theorem tokenCalls_eq_length (tr : List Event) : tokenCalls tr = (tokenRequests tr).length := by
  induction tr with
  | nil => rfl
  | cons e rest ih =>
    have h1 : tokenCalls (e :: rest) = tokenCalls [e] + tokenCalls rest :=
      tokenCalls_append [e] rest
    have h2 : tokenRequests (e :: rest) = tokenRequests [e] ++ tokenRequests rest :=
      tokenRequests_append [e] rest
    rw [h1, h2, List.length_append, ih]
    cases e <;> rfl

/-- A `postToken` that returns a token response has sent one request, and the token
endpoint has answered that request with a status below 400 and a body that decodes to the
response returned. -/
theorem postToken_answer (w : World) (tr tr1 : List Event) (values : Values)
    (r : TokenResponse) (h : postToken w tr values = (tr1, .ok r)) :
    w.grants (tokenCalls tr) (tokenPost values) r ∧
    tr1 = tr ++ [Event.tokenCall (tokenPost values)] := by
  unfold postToken at h
  split at h
  · simp at h
  · dsimp only at h
    split at h
    · simp at h
    · simp at h
    · rename_i status body hans
      split at h
      · simp at h
      · rename_i hst
        split at h
        · simp at h
        · rename_i token hj
          simp only [Prod.mk.injEq, Except.ok.injEq] at h
          obtain ⟨rfl, rfl⟩ := h
          exact ⟨⟨status, body, hans, by omega, hj⟩, rfl⟩

/-- The last third of a login that has neither saved a token nor sent a token request so
far: either nothing is saved, or one token request is sent, the first that the token
endpoint gets, its answer is accepted, and one token is saved, with the access token of
that answer. -/
theorem loginStore_saved (sys : Sys) (path : String) (cfg : Config) (tr : List Event)
    (code : String) (htr : savedTokens tr = []) (hq : tokenRequests tr = []) :
    savedTokens (loginStore sys path cfg tr code).2 = [] ∨
    ∃ t req r, savedTokens (loginStore sys path cfg tr code).2 = [some t] ∧
      tokenRequests (loginStore sys path cfg tr code).2 = [req] ∧
      sys.world.grants 0 req r ∧ t.AccessToken = r.AccessToken := by
  have hsv := postToken_saved sys.world tr
    (exchangeValues cfg.ClientID cfg.ClientSecret cfg.RedirectURI code)
  have h0 : tokenCalls tr = 0 := by rw [tokenCalls_eq_length, hq]; rfl
  unfold loginStore ExchangeCode
  split
  · rename_i tr1 err heq
    rw [heq] at hsv
    left
    rw [savedTokens_append, show savedTokens tr1 = [] from hsv.trans htr]
    rfl
  · rename_i tr1 r heq
    rw [heq] at hsv
    obtain ⟨hacc, htr1⟩ := postToken_answer _ _ _ _ _ heq
    rw [h0] at hacc
    have hl := (loginToken_fields sys.world tr1.length r).1
    have h1 : savedTokens tr1 = [] := hsv.trans htr
    have h2 : tokenRequests tr1
        = [tokenPost (exchangeValues cfg.ClientID cfg.ClientSecret cfg.RedirectURI code)] := by
      rw [htr1, tokenRequests_append, hq]
      rfl
    right
    refine ⟨loginToken sys.world tr1.length r, _, r, ?_, ?_, hacc, hl⟩
    · dsimp only
      split
      · simp only [savedTokens_append, h1]
        rfl
      · split <;>
        · simp only [savedTokens_append, h1]
          rfl
    · dsimp only
      split
      · simp only [tokenRequests_append, h2]
        rfl
      · split <;>
        · simp only [tokenRequests_append, h2]
          rfl

theorem loadConfig_saved (sys : Sys) (opts : GlobalOptions) :
    savedTokens (loadConfig sys opts []).1 = [] := by
  unfold loadConfig
  dsimp only
  split
  · rfl
  · split <;> rfl

theorem promptString_saved (sys : Sys) (tr : List Event) (prompt : String) (noInput : Bool) :
    savedTokens (promptString sys tr prompt noInput).1 = savedTokens tr := by
  unfold promptString
  split
  · rfl
  · split
    · rfl
    · dsimp only
      split <;> simp [savedTokens_append, savedTokens]

theorem promptSecret_saved (sys : Sys) (tr : List Event) (noInput : Bool) :
    savedTokens (promptSecret sys tr noInput).1 = savedTokens tr := by
  unfold promptSecret
  split
  · rfl
  · split
    · rfl
    · simp [savedTokens_append, savedTokens]

theorem readSecretFile_saved (sys : Sys) (tr : List Event) (path : String) :
    savedTokens (readSecretFile sys tr path).1 = savedTokens tr := by
  unfold readSecretFile
  split <;> simp [savedTokens_append, savedTokens]

/-- What a stage of the login setup has saved when it ends: the saved tokens of the trace
it leaves, on either exit. -/
theorem loginSecretFile_saved (sys : Sys) (flags : LoginFlags) (tr : List Event)
    (cfg : Config) :
    (∀ out, loginSecretFile sys flags tr cfg = .error out →
      savedTokens out.2 = savedTokens tr) ∧
    (∀ tr1 cfg1, loginSecretFile sys flags tr cfg = .ok (tr1, cfg1) →
      savedTokens tr1 = savedTokens tr) := by
  have hr := readSecretFile_saved sys tr flags.clientSecretFile
  unfold loginSecretFile
  refine ⟨fun out h => ?_, fun tr1 cfg1 h => ?_⟩
  · split at h
    · split at h
      · rename_i tr2 err heq
        rw [heq] at hr
        replace hr : savedTokens tr2 = savedTokens tr := hr
        cases h
        rw [savedTokens_append, hr]
        simp [savedTokens]
      · rename_i tr2 secret heq
        rw [heq] at hr
        replace hr : savedTokens tr2 = savedTokens tr := hr
        split at h
        · cases h
          rw [savedTokens_append, hr]
          simp [savedTokens]
        · cases h
    · cases h
  · split at h
    · split at h
      · cases h
      · rename_i tr2 secret heq
        rw [heq] at hr
        replace hr : savedTokens tr2 = savedTokens tr := hr
        split at h
        · cases h
        · cases h
          exact hr
    · cases h
      rfl

theorem loginClientID_saved (sys : Sys) (opts : GlobalOptions) (tr : List Event)
    (cfg : Config) :
    (∀ out, loginClientID sys opts tr cfg = .error out →
      savedTokens out.2 = savedTokens tr) ∧
    (∀ tr1 cfg1, loginClientID sys opts tr cfg = .ok (tr1, cfg1) →
      savedTokens tr1 = savedTokens tr) := by
  have hr := promptString_saved sys tr "Client ID: " opts.NoInput
  unfold loginClientID
  refine ⟨fun out h => ?_, fun tr1 cfg1 h => ?_⟩
  · split at h
    · split at h
      · rename_i tr2 err heq
        rw [heq] at hr
        replace hr : savedTokens tr2 = savedTokens tr := hr
        cases h
        rw [savedTokens_append, hr]
        simp [savedTokens]
      · rename_i tr2 secret heq
        rw [heq] at hr
        replace hr : savedTokens tr2 = savedTokens tr := hr
        split at h
        · cases h
          rw [savedTokens_append, hr]
          simp [savedTokens]
        · cases h
    · cases h
  · split at h
    · split at h
      · cases h
      · rename_i tr2 secret heq
        rw [heq] at hr
        replace hr : savedTokens tr2 = savedTokens tr := hr
        split at h
        · cases h
        · cases h
          exact hr
    · cases h
      rfl

theorem loginClientSecret_saved (sys : Sys) (opts : GlobalOptions) (tr : List Event)
    (cfg : Config) :
    (∀ out, loginClientSecret sys opts tr cfg = .error out →
      savedTokens out.2 = savedTokens tr) ∧
    (∀ tr1 cfg1, loginClientSecret sys opts tr cfg = .ok (tr1, cfg1) →
      savedTokens tr1 = savedTokens tr) := by
  have hr := promptSecret_saved sys tr opts.NoInput
  unfold loginClientSecret
  refine ⟨fun out h => ?_, fun tr1 cfg1 h => ?_⟩
  · split at h
    · split at h
      · rename_i tr2 err heq
        rw [heq] at hr
        replace hr : savedTokens tr2 = savedTokens tr := hr
        cases h
        rw [savedTokens_append, hr]
        simp [savedTokens]
      · rename_i tr2 secret heq
        rw [heq] at hr
        replace hr : savedTokens tr2 = savedTokens tr := hr
        split at h
        · cases h
          rw [savedTokens_append, hr]
          simp [savedTokens]
        · cases h
    · cases h
  · split at h
    · split at h
      · cases h
      · rename_i tr2 secret heq
        rw [heq] at hr
        replace hr : savedTokens tr2 = savedTokens tr := hr
        split at h
        · cases h
        · cases h
          exact hr
    · cases h
      rfl

theorem loginAuthURL_saved (sys : Sys) (path : String) (tr : List Event) (cfg : Config) :
    (∀ out, loginAuthURL sys path tr cfg = .error out →
      savedTokens out.2 = savedTokens tr) ∧
    (∀ s, loginAuthURL sys path tr cfg = .ok s → savedTokens s.trace = savedTokens tr) := by
  unfold loginAuthURL
  refine ⟨fun out h => ?_, fun s h => ?_⟩
  · split at h
    · cases h
      simp [savedTokens_append, savedTokens]
    · split at h
      · cases h
        simp [savedTokens_append, savedTokens]
      · cases h
  · split at h
    · cases h
    · split at h
      · cases h
      · cases h
        rfl
theorem loginSetup_saved (sys : Sys) (opts : GlobalOptions) (flags : LoginFlags) :
    (∀ out, loginSetup sys opts flags = .error out → savedTokens out.2 = []) ∧
    (∀ s, loginSetup sys opts flags = .ok s → savedTokens s.trace = []) := by
  have h0 := loadConfig_saved sys opts
  unfold loginSetup
  split
  · exact ⟨fun out h => by cases h; rfl, fun s h => by cases h⟩
  · split
    · exact ⟨fun out h => by cases h; rfl, fun s h => by cases h⟩
    · split
      · rename_i tr err heq
        rw [heq] at h0
        replace h0 : savedTokens tr = [] := h0
        refine ⟨fun out h => ?_, fun s h => by cases h⟩
        cases h
        rw [savedTokens_append, h0]
        rfl
      · rename_i tr loaded heq
        rw [heq] at h0
        replace h0 : savedTokens tr = [] := h0
        have h1 := loginSecretFile_saved sys flags tr (loginFlagsConfig flags loaded.Cfg)
        split
        · rename_i out1 e1
          exact ⟨fun out h => by cases h; exact (h1.1 _ e1).trans h0, fun s h => by cases h⟩
        · rename_i tr1 cfg1 e1
          have q1 : savedTokens tr1 = [] := (h1.2 _ _ e1).trans h0
          have h2 := loginClientID_saved sys opts tr1 (loginDefaults cfg1)
          split
          · rename_i out2 e2
            exact ⟨fun out h => by cases h; exact (h2.1 _ e2).trans q1,
              fun s h => by cases h⟩
          · rename_i tr2 cfg2 e2
            have q2 : savedTokens tr2 = [] := (h2.2 _ _ e2).trans q1
            have h3 := loginClientSecret_saved sys opts tr2 cfg2
            split
            · rename_i out3 e3
              exact ⟨fun out h => by cases h; exact (h3.1 _ e3).trans q2,
                fun s h => by cases h⟩
            · rename_i tr3 cfg3 e3
              have q3 : savedTokens tr3 = [] := (h3.2 _ _ e3).trans q2
              have h4 := loginAuthURL_saved sys loaded.Path tr3 cfg3
              exact ⟨fun out h => (h4.1 _ h).trans q3, fun s h => (h4.2 _ h).trans q3⟩

theorem openBrowser_saved (sys : Sys) (tr : List Event) (url : String) :
    savedTokens (openBrowser sys tr url) = savedTokens tr := by
  unfold openBrowser
  split
  · split <;> (rw [savedTokens_append]; simp [savedTokens])
  · split
    · split <;> (rw [savedTokens_append]; simp [savedTokens])
    · rw [savedTokens_append]
      simp [savedTokens]

theorem loginAwaitCode_saved (sys : Sys) (opts : GlobalOptions) (flags : LoginFlags)
    (s : LoginSetup) :
    ∀ course ∈ loginAwaitCode sys opts flags s, savedTokens course.1 = savedTokens s.trace := by
  have hp := promptString_saved sys (s.trace ++ [Event.infof ("Open this URL:\n" ++ s.authURL)])
    "Authorization code: " opts.NoInput
  rw [savedTokens_append] at hp
  have hi : ∀ m, savedTokens [Event.infof m] = [] := fun _ => rfl
  have he : ∀ m, savedTokens [Event.errorf m] = [] := fun _ => rfl
  rw [hi, List.append_nil] at hp
  unfold loginAwaitCode
  intro course hc
  split at hc
  · split at hc
    · rename_i tr1 err heq
      rw [heq] at hp
      simp only [List.mem_singleton] at hc
      subst hc
      show savedTokens (tr1 ++ _) = _
      rw [savedTokens_append, he, List.append_nil]
      exact hp
    · rename_i tr1 val heq
      rw [heq] at hp
      simp only [List.mem_singleton] at hc
      subst hc
      exact hp
  · split at hc
    · simp only [List.mem_singleton] at hc
      subst hc
      show savedTokens (s.trace ++ _) = _
      rw [savedTokens_append]
      simp [savedTokens]
    · dsimp only at hc
      have hw : savedTokens (s.trace ++ [Event.waitStarted s.cfg.RedirectURI s.state])
          = savedTokens s.trace := by
        rw [savedTokens_append]
        simp [savedTokens]
      have ht : savedTokens
          (if (!flags.noOpen) = true then
            openBrowser sys (s.trace ++ [Event.waitStarted s.cfg.RedirectURI s.state]) s.authURL
          else s.trace ++ [Event.waitStarted s.cfg.RedirectURI s.state] ++
            [Event.infof ("Open this URL:\n" ++ s.authURL)]) = savedTokens s.trace := by
        split
        · rw [openBrowser_saved, hw]
        · rw [savedTokens_append, hw, hi, List.append_nil]
      rcases List.mem_append.1 hc with hc | hc
      · obtain ⟨r, -, hr⟩ := List.mem_map.1 hc
        subst hr
        cases r with
        | ok code => exact ht
        | error err =>
          show savedTokens (_ ++ _) = _
          rw [savedTokens_append, he, List.append_nil]
          exact ht
      · split at hc
        · simp only [List.mem_singleton] at hc
          subst hc
          show savedTokens (_ ++ _) = _
          rw [savedTokens_append, he, List.append_nil]
          exact ht
        · simp at hc

theorem loadConfig_posts (sys : Sys) (opts : GlobalOptions) :
    tokenRequests (loadConfig sys opts []).1 = [] := by
  unfold loadConfig
  dsimp only
  split
  · rfl
  · split <;> rfl

theorem promptString_posts (sys : Sys) (tr : List Event) (prompt : String) (noInput : Bool) :
    tokenRequests (promptString sys tr prompt noInput).1 = tokenRequests tr := by
  unfold promptString
  split
  · rfl
  · split
    · rfl
    · dsimp only
      split <;> simp [tokenRequests_append, tokenRequests]

theorem promptSecret_posts (sys : Sys) (tr : List Event) (noInput : Bool) :
    tokenRequests (promptSecret sys tr noInput).1 = tokenRequests tr := by
  unfold promptSecret
  split
  · rfl
  · split
    · rfl
    · simp [tokenRequests_append, tokenRequests]

theorem readSecretFile_posts (sys : Sys) (tr : List Event) (path : String) :
    tokenRequests (readSecretFile sys tr path).1 = tokenRequests tr := by
  unfold readSecretFile
  split <;> simp [tokenRequests_append, tokenRequests]

theorem loginSecretFile_posts (sys : Sys) (flags : LoginFlags) (tr : List Event)
    (cfg : Config) :
    (∀ out, loginSecretFile sys flags tr cfg = .error out →
      tokenRequests out.2 = tokenRequests tr) ∧
    (∀ tr1 cfg1, loginSecretFile sys flags tr cfg = .ok (tr1, cfg1) →
      tokenRequests tr1 = tokenRequests tr) := by
  have hr := readSecretFile_posts sys tr flags.clientSecretFile
  unfold loginSecretFile
  refine ⟨fun out h => ?_, fun tr1 cfg1 h => ?_⟩
  · split at h
    · split at h
      · rename_i tr2 err heq
        rw [heq] at hr
        replace hr : tokenRequests tr2 = tokenRequests tr := hr
        cases h
        rw [tokenRequests_append, hr]
        simp [tokenRequests]
      · rename_i tr2 secret heq
        rw [heq] at hr
        replace hr : tokenRequests tr2 = tokenRequests tr := hr
        split at h
        · cases h
          rw [tokenRequests_append, hr]
          simp [tokenRequests]
        · cases h
    · cases h
  · split at h
    · split at h
      · cases h
      · rename_i tr2 secret heq
        rw [heq] at hr
        replace hr : tokenRequests tr2 = tokenRequests tr := hr
        split at h
        · cases h
        · cases h
          exact hr
    · cases h
      rfl

theorem loginClientID_posts (sys : Sys) (opts : GlobalOptions) (tr : List Event)
    (cfg : Config) :
    (∀ out, loginClientID sys opts tr cfg = .error out →
      tokenRequests out.2 = tokenRequests tr) ∧
    (∀ tr1 cfg1, loginClientID sys opts tr cfg = .ok (tr1, cfg1) →
      tokenRequests tr1 = tokenRequests tr) := by
  have hr := promptString_posts sys tr "Client ID: " opts.NoInput
  unfold loginClientID
  refine ⟨fun out h => ?_, fun tr1 cfg1 h => ?_⟩
  · split at h
    · split at h
      · rename_i tr2 err heq
        rw [heq] at hr
        replace hr : tokenRequests tr2 = tokenRequests tr := hr
        cases h
        rw [tokenRequests_append, hr]
        simp [tokenRequests]
      · rename_i tr2 secret heq
        rw [heq] at hr
        replace hr : tokenRequests tr2 = tokenRequests tr := hr
        split at h
        · cases h
          rw [tokenRequests_append, hr]
          simp [tokenRequests]
        · cases h
    · cases h
  · split at h
    · split at h
      · cases h
      · rename_i tr2 secret heq
        rw [heq] at hr
        replace hr : tokenRequests tr2 = tokenRequests tr := hr
        split at h
        · cases h
        · cases h
          exact hr
    · cases h
      rfl

theorem loginClientSecret_posts (sys : Sys) (opts : GlobalOptions) (tr : List Event)
    (cfg : Config) :
    (∀ out, loginClientSecret sys opts tr cfg = .error out →
      tokenRequests out.2 = tokenRequests tr) ∧
    (∀ tr1 cfg1, loginClientSecret sys opts tr cfg = .ok (tr1, cfg1) →
      tokenRequests tr1 = tokenRequests tr) := by
  have hr := promptSecret_posts sys tr opts.NoInput
  unfold loginClientSecret
  refine ⟨fun out h => ?_, fun tr1 cfg1 h => ?_⟩
  · split at h
    · split at h
      · rename_i tr2 err heq
        rw [heq] at hr
        replace hr : tokenRequests tr2 = tokenRequests tr := hr
        cases h
        rw [tokenRequests_append, hr]
        simp [tokenRequests]
      · rename_i tr2 secret heq
        rw [heq] at hr
        replace hr : tokenRequests tr2 = tokenRequests tr := hr
        split at h
        · cases h
          rw [tokenRequests_append, hr]
          simp [tokenRequests]
        · cases h
    · cases h
  · split at h
    · split at h
      · cases h
      · rename_i tr2 secret heq
        rw [heq] at hr
        replace hr : tokenRequests tr2 = tokenRequests tr := hr
        split at h
        · cases h
        · cases h
          exact hr
    · cases h
      rfl

theorem loginAuthURL_posts (sys : Sys) (path : String) (tr : List Event) (cfg : Config) :
    (∀ out, loginAuthURL sys path tr cfg = .error out →
      tokenRequests out.2 = tokenRequests tr) ∧
    (∀ s, loginAuthURL sys path tr cfg = .ok s → tokenRequests s.trace = tokenRequests tr) := by
  unfold loginAuthURL
  refine ⟨fun out h => ?_, fun s h => ?_⟩
  · split at h
    · cases h
      simp [tokenRequests_append, tokenRequests]
    · split at h
      · cases h
        simp [tokenRequests_append, tokenRequests]
      · cases h
  · split at h
    · cases h
    · split at h
      · cases h
      · cases h
        rfl
theorem loginSetup_posts (sys : Sys) (opts : GlobalOptions) (flags : LoginFlags) :
    (∀ out, loginSetup sys opts flags = .error out → tokenRequests out.2 = []) ∧
    (∀ s, loginSetup sys opts flags = .ok s → tokenRequests s.trace = []) := by
  have h0 := loadConfig_posts sys opts
  unfold loginSetup
  split
  · exact ⟨fun out h => by cases h; rfl, fun s h => by cases h⟩
  · split
    · exact ⟨fun out h => by cases h; rfl, fun s h => by cases h⟩
    · split
      · rename_i tr err heq
        rw [heq] at h0
        replace h0 : tokenRequests tr = [] := h0
        refine ⟨fun out h => ?_, fun s h => by cases h⟩
        cases h
        rw [tokenRequests_append, h0]
        rfl
      · rename_i tr loaded heq
        rw [heq] at h0
        replace h0 : tokenRequests tr = [] := h0
        have h1 := loginSecretFile_posts sys flags tr (loginFlagsConfig flags loaded.Cfg)
        split
        · rename_i out1 e1
          exact ⟨fun out h => by cases h; exact (h1.1 _ e1).trans h0, fun s h => by cases h⟩
        · rename_i tr1 cfg1 e1
          have q1 : tokenRequests tr1 = [] := (h1.2 _ _ e1).trans h0
          have h2 := loginClientID_posts sys opts tr1 (loginDefaults cfg1)
          split
          · rename_i out2 e2
            exact ⟨fun out h => by cases h; exact (h2.1 _ e2).trans q1,
              fun s h => by cases h⟩
          · rename_i tr2 cfg2 e2
            have q2 : tokenRequests tr2 = [] := (h2.2 _ _ e2).trans q1
            have h3 := loginClientSecret_posts sys opts tr2 cfg2
            split
            · rename_i out3 e3
              exact ⟨fun out h => by cases h; exact (h3.1 _ e3).trans q2,
                fun s h => by cases h⟩
            · rename_i tr3 cfg3 e3
              have q3 : tokenRequests tr3 = [] := (h3.2 _ _ e3).trans q2
              have h4 := loginAuthURL_posts sys loaded.Path tr3 cfg3
              exact ⟨fun out h => (h4.1 _ h).trans q3, fun s h => (h4.2 _ h).trans q3⟩

theorem openBrowser_posts (sys : Sys) (tr : List Event) (url : String) :
    tokenRequests (openBrowser sys tr url) = tokenRequests tr := by
  unfold openBrowser
  split
  · split <;> (rw [tokenRequests_append]; simp [tokenRequests])
  · split
    · split <;> (rw [tokenRequests_append]; simp [tokenRequests])
    · rw [tokenRequests_append]
      simp [tokenRequests]

theorem loginAwaitCode_posts (sys : Sys) (opts : GlobalOptions) (flags : LoginFlags)
    (s : LoginSetup) :
    ∀ course ∈ loginAwaitCode sys opts flags s, tokenRequests course.1 = tokenRequests s.trace := by
  have hp := promptString_posts sys (s.trace ++ [Event.infof ("Open this URL:\n" ++ s.authURL)])
    "Authorization code: " opts.NoInput
  rw [tokenRequests_append] at hp
  have hi : ∀ m, tokenRequests [Event.infof m] = [] := fun _ => rfl
  have he : ∀ m, tokenRequests [Event.errorf m] = [] := fun _ => rfl
  rw [hi, List.append_nil] at hp
  unfold loginAwaitCode
  intro course hc
  split at hc
  · split at hc
    · rename_i tr1 err heq
      rw [heq] at hp
      simp only [List.mem_singleton] at hc
      subst hc
      show tokenRequests (tr1 ++ _) = _
      rw [tokenRequests_append, he, List.append_nil]
      exact hp
    · rename_i tr1 val heq
      rw [heq] at hp
      simp only [List.mem_singleton] at hc
      subst hc
      exact hp
  · split at hc
    · simp only [List.mem_singleton] at hc
      subst hc
      show tokenRequests (s.trace ++ _) = _
      rw [tokenRequests_append]
      simp [tokenRequests]
    · dsimp only at hc
      have hw : tokenRequests (s.trace ++ [Event.waitStarted s.cfg.RedirectURI s.state])
          = tokenRequests s.trace := by
        rw [tokenRequests_append]
        simp [tokenRequests]
      have ht : tokenRequests
          (if (!flags.noOpen) = true then
            openBrowser sys (s.trace ++ [Event.waitStarted s.cfg.RedirectURI s.state]) s.authURL
          else s.trace ++ [Event.waitStarted s.cfg.RedirectURI s.state] ++
            [Event.infof ("Open this URL:\n" ++ s.authURL)]) = tokenRequests s.trace := by
        split
        · rw [openBrowser_posts, hw]
        · rw [tokenRequests_append, hw, hi, List.append_nil]
      rcases List.mem_append.1 hc with hc | hc
      · obtain ⟨r, -, hr⟩ := List.mem_map.1 hc
        subst hr
        cases r with
        | ok code => exact ht
        | error err =>
          show tokenRequests (_ ++ _) = _
          rw [tokenRequests_append, he, List.append_nil]
          exact ht
      · split at hc
        · simp only [List.mem_singleton] at hc
          subst hc
          show tokenRequests (_ ++ _) = _
          rw [tokenRequests_append, he, List.append_nil]
          exact ht
        · simp at hc

/-- Counterexample to C21: the token endpoint answers 200 with `{"error":"invalid_grant"}`.
The login exits with code 0 and has saved a token whose access token is empty; the refresh
succeeds, and leaves and saves a token whose access token is empty. -/
theorem empty_access_token_stored :
    (runAuthLogin errorGrantSys exampleOpts plainLogin).map
        (fun out => (out.1, savedTokens out.2))
      = [(0, [some { AccessToken := "", RefreshToken := "", ExpiresAt := "",
                     TokenType := "" }])] ∧
    (exampleClient.tryRefresh errorGrantWorld).2 = (true, none) ∧
    (exampleClient.tryRefresh errorGrantWorld).1.cfg.Token
      = some { AccessToken := "", RefreshToken := "r0", ExpiresAt := "",
               TokenType := "Bearer" } ∧
    savedTokens (exampleClient.tryRefresh errorGrantWorld).1.trace
      = [some { AccessToken := "", RefreshToken := "r0", ExpiresAt := "",
                TokenType := "Bearer" }] := by
  set_option maxRecDepth 100000 in
  exact ⟨rfl, rfl, rfl, rfl⟩

/-- C21 (amended): a login, on any of its courses, either saves nothing or sends one token
request, the first that the token endpoint gets, and saves one token, whose access token
is the `access_token` of the answer to that request, an answer the code accepted: a status
below 400 and a body that decodes. A successful refresh has sent the refresh request, and
the token it leaves in memory and saves (once, unless a token override forbids it) has the
`access_token` of the answer to that request, accepted in the same way. The stored access
token is therefore non-empty exactly when the accepted answer carries a non-empty
`access_token`; the code does not look at it. -/
theorem stored_token_has_response_access_token (sys : Sys) (opts : GlobalOptions)
    (flags : LoginFlags) (w : World) (c : Client) :
    (∀ out ∈ runAuthLogin sys opts flags,
      savedTokens out.2 = [] ∨
      ∃ t req r, savedTokens out.2 = [some t] ∧ tokenRequests out.2 = [req] ∧
        sys.world.grants 0 req r ∧ t.AccessToken = r.AccessToken) ∧
    ((c.tryRefresh w).2 = (true, none) →
      ∃ tok t r, c.cfg.Token = some tok ∧
        tokenRequests (c.tryRefresh w).1.trace = tokenRequests c.trace ++
          [refreshPost c.cfg.ClientID c.cfg.ClientSecret tok.RefreshToken] ∧
        w.grants (tokenCalls c.trace)
          (refreshPost c.cfg.ClientID c.cfg.ClientSecret tok.RefreshToken) r ∧
        (c.tryRefresh w).1.cfg.Token = some t ∧
        t.AccessToken = r.AccessToken ∧
        savedTokens (c.tryRefresh w).1.trace
          = savedTokens c.trace ++ (if c.persistAllowed then [some t] else [])) := by
  refine ⟨?_, fun h => ?_⟩
  · clear w c
    have hs := loginSetup_saved sys opts flags
    have hq := loginSetup_posts sys opts flags
    unfold runAuthLogin
    intro out ho
    split at ho
    · rename_i out1 e1
      simp only [List.mem_singleton] at ho
      subst ho
      exact Or.inl (hs.1 _ e1)
    · rename_i s e1
      obtain ⟨course, hc, rfl⟩ := List.mem_map.1 ho
      have ha := (loginAwaitCode_saved sys opts flags s course hc).trans (hs.2 _ e1)
      have hb := (loginAwaitCode_posts sys opts flags s course hc).trans (hq.2 _ e1)
      rcases course with ⟨tr, res⟩
      cases res with
      | error code => exact Or.inl ha
      | ok code => exact loginStore_saved sys s.path s.cfg tr code ha hb
  · clear sys opts flags
    unfold Client.tryRefresh at h ⊢
    cases hT : c.cfg.Token with
    | none => simp [hT] at h
    | some tok =>
      simp only [hT] at h ⊢
      split at h
      · simp at h
      · rename_i hR
        split at h
        · simp at h
        · rename_i hC
          simp only [hR, hC, if_false]
          have hp := postToken_saved w c.trace
            (refreshValues c.cfg.ClientID c.cfg.ClientSecret tok.RefreshToken)
          unfold RefreshToken at h ⊢
          rcases hpt : postToken w c.trace
            (refreshValues c.cfg.ClientID c.cfg.ClientSecret tok.RefreshToken) with ⟨tr, res⟩
          rw [hpt] at hp h
          replace hp : savedTokens tr = savedTokens c.trace := hp
          cases res with
          | error e => simp at h
          | ok r =>
            obtain ⟨hacc, htr⟩ := postToken_answer _ _ _ _ _ hpt
            have hreq : tokenRequests tr = tokenRequests c.trace ++
                [refreshPost c.cfg.ClientID c.cfg.ClientSecret tok.RefreshToken] := by
              rw [htr, tokenRequests_append]
              rfl
            refine ⟨tok, refreshedToken tok r
              (w.formatRFC3339 (expiryInstant (w.now tr.length) r.ExpiresIn)), r, rfl, ?_,
              hacc, ?_, refreshedToken_access _ _ _, ?_⟩
            · dsimp only
              split
              · split <;> simp [Client.record, tokenRequests_append, hreq] <;>
                  simp [tokenRequests]
              · exact hreq
            · dsimp only
              split
              · split <;> rfl
              · rfl
            · simp only [Client.persistAllowed]
              by_cases hAT : c.envOverrides.AccessToken = true
              · simp [hAT, hp]
              · by_cases hRT : c.envOverrides.RefreshToken = true
                · simp [hAT, hRT, hp]
                · simp only [Bool.not_eq_true] at hAT hRT
                  simp only [hAT, hRT]
                  cases w.configSave (saveCalls tr) c.cfgPath
                      { c.cfg with Token := some (refreshedToken tok r
                          (w.formatRFC3339 (expiryInstant (w.now tr.length) r.ExpiresIn))) } <;>
                    simp [Client.record, savedTokens_append, hp] <;> simp [savedTokens]

/-- Witness of C21 (amended): the login and the refresh of the examples, whose token
endpoint answers 200 with `{"access_token":"t1"}`. -/
theorem stored_token_has_response_access_token_witness :
    (savedTokens exampleLoginCourse.2 = [] ∨
      ∃ t req r, savedTokens exampleLoginCourse.2 = [some t] ∧
        tokenRequests exampleLoginCourse.2 = [req] ∧
        exampleSys.world.grants 0 req r ∧ t.AccessToken = r.AccessToken) ∧
    (∃ tok t r, exampleClient.cfg.Token = some tok ∧
      tokenRequests (exampleClient.tryRefresh (exampleWorld 1 1)).1.trace
        = tokenRequests exampleClient.trace ++
          [refreshPost exampleClient.cfg.ClientID exampleClient.cfg.ClientSecret
            tok.RefreshToken] ∧
      (exampleWorld 1 1).grants (tokenCalls exampleClient.trace)
        (refreshPost exampleClient.cfg.ClientID exampleClient.cfg.ClientSecret
          tok.RefreshToken) r ∧
      (exampleClient.tryRefresh (exampleWorld 1 1)).1.cfg.Token = some t ∧
      t.AccessToken = r.AccessToken ∧
      savedTokens (exampleClient.tryRefresh (exampleWorld 1 1)).1.trace
        = savedTokens exampleClient.trace ++
          (if exampleClient.persistAllowed then [some t] else [])) := by
  set_option maxRecDepth 100000 in
  exact ⟨(stored_token_has_response_access_token exampleSys exampleOpts plainLogin
      (exampleWorld 1 1) exampleClient).1 exampleLoginCourse (List.mem_singleton_self _),
    (stored_token_has_response_access_token exampleSys exampleOpts plainLogin
      (exampleWorld 1 1) exampleClient).2 rfl⟩

/-! ## The claim on the order of the dates of `list` -/

/-- Counterexample to C22: the same day as start and end date, and the same instant as
start and end date-time, are accepted, and a reversed pair of dates given together with a
date-time filter fails with another message. -/
theorem equal_dates_accepted :
    buildListQuery dateSys (listed "daily_sleep" QueryDate) "2024-01-01" "2024-01-01" "" "" ""
      = .ok [("start_date", ["2024-01-01"]), ("end_date", ["2024-01-01"])] ∧
    buildListQuery dateSys (listed "heartrate" QueryDateTime) "" "" "2024-01-01T06:00:00Z"
        "2024-01-01T06:00:00Z" ""
      = .ok [("start_datetime", ["2024-01-01T06:00:00Z"]),
             ("end_datetime", ["2024-01-01T06:00:00Z"])] ∧
    buildListQuery dateSys (listed "daily_sleep" QueryDate) "2024-01-02" "2024-01-01"
        "2024-01-01T00:00:00Z" "" ""
      = .error "use --start-date/--end-date for this resource" := by
  set_option maxRecDepth 100000 in
  exact ⟨rfl, rfl, rfl⟩

/-- C22 (amended): for a resource of kind `QueryDate`, a start and an end date that parse
(and so are not empty) and no date-time filter, `buildListQuery` fails with "end-date must
be after start-date" when the end date is before the start date, and succeeds, with both
dates in the query, when it is the same day or a later one; with a date-time filter it
fails with the message that asks for the date flags. Likewise for a resource of kind
`QueryDateTime` and its start and end date-time. -/
theorem buildListQuery_date_order (sys : Sys) (resource : Resource)
    (first last other1 other2 nextToken : String) (start stop : GoTime)
    (hf : first ≠ "") (hl : last ≠ "") :
    (resource.Query = QueryDate →
      sys.parseDate first = .ok start → sys.parseDate last = .ok stop →
      (stop.unixNano < start.unixNano →
        buildListQuery sys resource first last "" "" nextToken
          = .error "end-date must be after start-date") ∧
      (start.unixNano ≤ stop.unixNano →
        buildListQuery sys resource first last "" "" nextToken
          = .ok (BuildQuery ((if nextToken ≠ "" then [("next_token", nextToken)] else []) ++
              [("start_date", sys.formatDate start), ("end_date", sys.formatDate stop)]))) ∧
      (other1 ≠ "" ∨ other2 ≠ "" →
        buildListQuery sys resource first last other1 other2 nextToken
          = .error "use --start-date/--end-date for this resource")) ∧
    (resource.Query = QueryDateTime →
      sys.parseDateTime first = .ok start → sys.parseDateTime last = .ok stop →
      (stop.unixNano < start.unixNano →
        buildListQuery sys resource "" "" first last nextToken
          = .error "end-datetime must be after start-datetime") ∧
      (start.unixNano ≤ stop.unixNano →
        buildListQuery sys resource "" "" first last nextToken
          = .ok (BuildQuery ((if nextToken ≠ "" then [("next_token", nextToken)] else []) ++
              [("start_datetime", sys.formatDateTime start),
               ("end_datetime", sys.formatDateTime stop)]))) ∧
      (other1 ≠ "" ∨ other2 ≠ "" →
        buildListQuery sys resource other1 other2 first last nextToken
          = .error "use --start-datetime/--end-datetime for this resource")) := by
  have h10 : ¬ QueryDate = QueryNone := by decide
  have h13 : ¬ QueryDate = QueryNextTokenOnly := by decide
  have h20 : ¬ QueryDateTime = QueryNone := by decide
  have h23 : ¬ QueryDateTime = QueryNextTokenOnly := by decide
  have h21 : ¬ QueryDateTime = QueryDate := by decide
  refine ⟨fun hk hps hpe => ⟨fun hlt => ?_, fun hle => ?_, fun ho => ?_⟩,
    fun hk hps hpe => ⟨fun hlt => ?_, fun hle => ?_, fun ho => ?_⟩⟩
  · unfold buildListQuery
    simp [hk, h10, h13, hf, hl, hps, hpe, hlt]
  · unfold buildListQuery
    have : ¬ stop.unixNano < start.unixNano := by omega
    simp [hk, h10, h13, hf, hl, hps, hpe, this]
  · unfold buildListQuery
    simp [hk, h10, h13, ho]
  · unfold buildListQuery
    simp [hk, h20, h23, h21, hf, hl, hps, hpe, hlt]
  · unfold buildListQuery
    have : ¬ stop.unixNano < start.unixNano := by omega
    simp [hk, h20, h23, h21, hf, hl, hps, hpe, this]
  · unfold buildListQuery
    simp [hk, h20, h23, h21, ho]

/-- Witness of C22 (amended): the first two days of 2024 for `daily_sleep`, and midnight and
six o'clock of its first day for `heartrate`. -/
theorem buildListQuery_date_order_witness :
    (buildListQuery dateSys (listed "daily_sleep" QueryDate) "2024-01-02" "2024-01-01" "" "" ""
        = .error "end-date must be after start-date" ∧
      buildListQuery dateSys (listed "daily_sleep" QueryDate) "2024-01-01" "2024-01-02" "" "" ""
        = .ok (BuildQuery ((if "" ≠ "" then [("next_token", "")] else []) ++
            [("start_date", dateSys.formatDate newYear),
             ("end_date", dateSys.formatDate secondOfJanuary)]))) ∧
    (buildListQuery dateSys (listed "heartrate" QueryDateTime) "" "" "2024-01-01T06:00:00Z"
        "2024-01-01T00:00:00Z" ""
        = .error "end-datetime must be after start-datetime" ∧
      buildListQuery dateSys (listed "heartrate" QueryDateTime) "ring" "" "2024-01-01T00:00:00Z"
        "2024-01-01T06:00:00Z" ""
        = .error "use --start-datetime/--end-datetime for this resource") :=
  ⟨⟨((buildListQuery_date_order dateSys (listed "daily_sleep" QueryDate) "2024-01-02"
        "2024-01-01" "" "" "" secondOfJanuary newYear (by decide) (by decide)).1
        rfl rfl rfl).1 (by decide),
    ((buildListQuery_date_order dateSys (listed "daily_sleep" QueryDate) "2024-01-01"
        "2024-01-02" "" "" "" newYear secondOfJanuary (by decide) (by decide)).1
        rfl rfl rfl).2.1 (by decide)⟩,
   ((buildListQuery_date_order dateSys (listed "heartrate" QueryDateTime)
        "2024-01-01T06:00:00Z" "2024-01-01T00:00:00Z" "" "" "" newYearMorning newYear
        (by decide) (by decide)).2 rfl rfl rfl).1 (by decide),
   ((buildListQuery_date_order dateSys (listed "heartrate" QueryDateTime)
        "2024-01-01T00:00:00Z" "2024-01-01T06:00:00Z" "ring" "" "" newYear newYearMorning
        (by decide) (by decide)).2 rfl rfl rfl).2.2 (Or.inl (by decide))⟩

end Oura
